import Mathlib

/-!
# SoftFFmpegVideo: the OMX video decoder component over FFmpeg

A shallow embedding of `src/omx/SoftFFmpegVideo.cpp`.

* The component's members become the fields of `State`.
* Pointers are `Option` values (`none` is `NULL`); a dereference of `NULL`,
  a failed `CHECK` and a copy outside an allocated block end the run in
  `Res.fault`, which carries the state reached.
* Loops are run on fuel; `Res.timeout` carries the state at which the fuel
  ran out.
* The host callbacks and every call into FFmpeg / libc are appended to
  `State.log`.  The answer of an external call is read from an oracle `Env`
  at the index `log.length` of the call, so that an `Env` is one arbitrary
  behaviour of the decoder, the allocator and the converter.
-/

set_option autoImplicit false

namespace SoftFFmpegVideo

/-! ## Constants -/

/-- Modelled from the spec: the return codes of the enum declared in
`SoftFFmpegVideo.h` (absent from the sources): `ERR_OK` is zero, the fatal
classes of section 7 are negative, the two non-fatal outcomes of a decode
attempt are positive. -/
def ERR_NO_FRM : Int := 2

/-- Modelled from the spec: see `ERR_NO_FRM`. -/
def ERR_FLUSHED : Int := 1

/-- Modelled from the spec: see `ERR_NO_FRM`. -/
def ERR_OK : Int := 0

/-- Modelled from the spec: see `ERR_NO_FRM` (`AllocationError`). -/
def ERR_OOM : Int := -1

/-- Modelled from the spec: see `ERR_NO_FRM` (`CodecNotFoundError`). -/
def ERR_CODEC_NOT_FOUND : Int := -2

/-- Modelled from the spec: see `ERR_NO_FRM` (`OpenFailedError`). -/
def ERR_DECODER_OPEN_FAILED : Int := -2

/-- Modelled from the spec: see `ERR_NO_FRM` (`ConversionError`). -/
def ERR_SWS_FAILED : Int := -3

/-- The value of `AVERROR(EAGAIN)` (libavutil, `EAGAIN = 11`). -/
def AVERROR_EAGAIN : Int := -11

/-- The value of `AVERROR_EOF` (libavutil), the answer of a drained decoder. -/
def AVERROR_EOF : Int := -541478725

/-- The value of `AV_NOPTS_VALUE` (libavutil): `INT64_MIN`. -/
def AV_NOPTS_VALUE : Int := -(2 ^ 63)

/-- The value of `AV_CODEC_CAP_DELAY` (libavcodec): bit 5. -/
def AV_CODEC_CAP_DELAY : Nat := 32

/-- The value of `AV_CODEC_FLAG2_FAST` (libavcodec): bit 0. -/
def AV_CODEC_FLAG2_FAST : Nat := 1

/-- The value of `OMX_BUFFERFLAG_EOS` (OpenMAX IL). -/
def OMX_BUFFERFLAG_EOS : Nat := 1

/-- The value of `OMX_BUFFERFLAG_SYNCFRAME` (OpenMAX IL). -/
def OMX_BUFFERFLAG_SYNCFRAME : Nat := 32

/-- The value of `OMX_BUFFERFLAG_CODECCONFIG` (OpenMAX IL). -/
def OMX_BUFFERFLAG_CODECCONFIG : Nat := 128

/-- The file-level `static int decoder_reorder_pts = -1;` (line 35). -/
def decoder_reorder_pts : Int := -1

/-! ## Machine integers -/

/-- Reduction of an integer to `uint32_t`. -/
def toU32 (x : Int) : Nat := (x % 2 ^ 32).toNat

/-- Reduction of an integer to `int` (two's complement, 32 bits). -/
def toI32 (x : Int) : Int := (x + 2 ^ 31) % 2 ^ 32 - 2 ^ 31

/-- Reduction of an integer to `int64_t`. -/
def toI64 (x : Int) : Int := (x + 2 ^ 63) % 2 ^ 64 - 2 ^ 63

/-! ## Data model -/

/-- The fields of `OMX_BUFFERHEADERTYPE` the component touches.  `pBuffer` is
the content of the memory block the pointer designates. -/
structure Header where
  pBuffer : List Nat
  nFilledLen : Nat
  nOffset : Nat
  nFlags : Nat
  nTimeStamp : Int
deriving DecidableEq, Repr

/-- A `BufferInfo` of the port: `addr` is the address of the record, which is
what the port queues hold. -/
structure BufferInfo where
  addr : Nat
  mHeader : Option Header
  mOwnedByUs : Bool
deriving DecidableEq, Repr

/-- The one field of `AVCodec` the component reads. -/
structure AVCodec where
  capabilities : Nat
deriving DecidableEq, Repr

/-- The fields of `AVCodecContext` the component reads or writes; `isOpen` is
what `avcodec_is_open` answers. -/
structure AVCodecContext where
  codec_id : Nat
  codec : Option AVCodec
  extradata : Option (List Nat)
  extradata_size : Int
  width : Int
  height : Int
  workaround_bugs : Int
  idct_algo : Int
  skip_frame : Int
  skip_idct : Int
  skip_loop_filter : Int
  error_concealment : Int
  flags2 : Nat
  isOpen : Bool
deriving DecidableEq, Repr

/-- The fields of `AVFrame` the component reads. -/
structure AVFrame where
  width : Int
  height : Int
  format : Int
  key_frame : Int
  best_effort_timestamp : Int
  pts : Int
  pkt_dts : Int
deriving DecidableEq, Repr

/-- The fields of `AVPacket` written by `initPacket`; `data` is the payload
the data pointer designates (`none` is `NULL`). -/
structure AVPacket where
  data : Option (List Nat)
  size : Int
  pts : Int
  dts : Int
deriving DecidableEq, Repr

/-- The key of the cached conversion context of `sws_getCachedContext`. -/
structure SwsContext where
  srcW : Int
  srcH : Int
  srcFormat : Int
deriving DecidableEq, Repr

/-- The `mEOSStatus` member. -/
inductive EOSStatus where
  | INPUT_DATA_AVAILABLE
  | INPUT_EOS_SEEN
  | OUTPUT_FRAMES_FLUSHED
deriving DecidableEq, Repr

/-- The `mOutputPortSettingsChange` member of the base class. -/
inductive PortSettingsChange where
  | NONE
  | AWAITING_DISABLED
  | AWAITING_ENABLED
deriving DecidableEq, Repr

/-- Calls that leave the component: FFmpeg, the allocator, the converter. -/
inductive ExtCall where
  | initFFmpeg
  | avcodec_alloc_context3
  | avcodec_find_decoder (codec_id : Nat)
  | property_get_bool
  | ffmpeg_hwaccel_init
  | avcodec_open2
  | av_frame_alloc
  | av_packet_alloc
  | avcodec_send_packet (pkt : AVPacket)
  | av_packet_unref
  | avcodec_receive_frame
  | ffmpeg_hwaccel_get_frame
  | realloc (size : Int)
  | sws_getCachedContext (srcW srcH srcFormat : Int)
  | sws_scale (off0 off1 off2 : Nat) (linesize0 linesize1 linesize2 : Int)
  | avcodec_flush_buffers
  | av_free
  | avcodec_close
  | ffmpeg_hwaccel_deinit
  | av_frame_free
  | av_packet_free
  | sws_freeContext
deriving DecidableEq, Repr

/-- What the component does that its host or its libraries observe.  A buffer
notification carries the `BufferInfo` as it stands at the call. -/
inductive Event where
  | emptyBufferDone (info : BufferInfo)
  | fillBufferDone (info : BufferInfo)
  | eventError
  | eventPortSettingsChanged
  | call (c : ExtCall)
deriving DecidableEq, Repr

/-- The members of the component, its two port queues, and the log. -/
structure State where
  mFFmpegAlreadyInited : Bool
  mCodecAlreadyOpened : Bool
  mCtx : Option AVCodecContext
  mImgConvertCtx : Option SwsContext
  mFrame : Option AVFrame
  mPacket : Option AVPacket
  mEOSStatus : EOSStatus
  mExtradataReady : Bool
  mIgnoreExtradata : Bool
  mSignalledError : Bool
  mLoggedError : Nat
  mWidth : Nat
  mHeight : Nat
  mOutputPortSettingsChange : PortSettingsChange
  inQueue : List (Option BufferInfo)
  outQueue : List (Option BufferInfo)
  log : List Event
deriving DecidableEq, Repr

/-- The answer of `avcodec_receive_frame`: the return code, the picture left
in the frame holder when the code is zero, and the geometry the decoder has
written into the context. -/
structure RecvResult where
  err : Int
  frame : AVFrame
  ctxWidth : Int
  ctxHeight : Int
deriving DecidableEq, Repr

/-- One behaviour of everything outside the component.  Each function is asked
at the log index of the call. -/
structure Env where
  AV_INPUT_BUFFER_PADDING_SIZE : Nat
  LIBAV_CONFIG_H : Bool
  initFFmpeg : Nat → Bool
  avcodec_alloc_context3 : Nat → Bool
  property_get_bool : Nat → Bool
  avcodec_find_decoder : Nat → Nat → Option AVCodec
  avcodec_open2 : Nat → Int
  av_frame_alloc : Nat → Option AVFrame
  av_packet_alloc : Nat → Bool
  avcodec_send_packet : Nat → Int
  avcodec_receive_frame : Nat → RecvResult
  ffmpeg_hwaccel_get_frame : Nat → Int
  realloc : Nat → Bool
  junk : Nat → Nat → Nat
  sws_getCachedContext : Nat → Bool

/-- Why a run stopped without returning. -/
inductive Fault where
  | nullDeref
  | checkFailed
  | outOfBounds
deriving DecidableEq, Repr

/-- The outcome of running a member function. -/
inductive Res (α : Type) where
  | ok (val : α) (s : State)
  | fault (f : Fault) (s : State)
  | timeout (s : State)
deriving DecidableEq, Repr

/-- The state an outcome carries. -/
def Res.state {α : Type} : Res α → State
  | .ok _ s => s
  | .fault _ s => s
  | .timeout s => s

/-- Sequencing of outcomes. -/
def Res.bind {α β : Type} (r : Res α) (k : α → State → Res β) : Res β :=
  match r with
  | .ok a s => k a s
  | .fault f s => .fault f s
  | .timeout s => .timeout s

/-- Appending one event to the log. -/
def State.emit (s : State) (e : Event) : State :=
  { s with log := s.log ++ [e] }

/-! ## Memory blocks -/

/-- The block `realloc` returns on success: `n` cells, the old content kept
as far as it reaches, the cells beyond it holding whatever was there. -/
def reallocBlock (junk : Nat → Nat) (old : List Nat) (n : Nat) : List Nat :=
  (List.range n).map (fun i => old.getD i (junk i))

/-- Overwriting `src.length` cells of a block from cell `off` on. -/
def writeAt (block : List Nat) (off : Nat) (src : List Nat) : List Nat :=
  block.take off ++ src ++ block.drop (off + src.length)

/-- The bytes `[pBuffer + nOffset, pBuffer + nOffset + nFilledLen)`. -/
def Header.payload (h : Header) : List Nat :=
  (h.pBuffer.drop h.nOffset).take h.nFilledLen

/-! ## Base class `SoftVideoDecoderOMXComponent` -/

/-- Modelled from the spec: `outputBufferWidth()` of the base class (absent
from the sources) is the negotiated output width. -/
def outputBufferWidth (s : State) : Nat := s.mWidth

/-- Modelled from the spec: `outputBufferHeight()` of the base class (absent
from the sources) is the negotiated output height. -/
def outputBufferHeight (s : State) : Nat := s.mHeight

/-- Modelled from the spec: the base-class `handlePortSettingsChange` (absent
from the sources).  When the geometry handed in differs from the negotiated
one it adopts it, signals the change to the host, suspends the output port and
reports that the port will reset. -/
def baseHandlePortSettingsChange (s : State) (width height : Nat) : Bool × State :=
  if width ≠ s.mWidth ∨ height ≠ s.mHeight then
    (true, { s with mWidth := width, mHeight := height,
                    mOutputPortSettingsChange := .AWAITING_DISABLED }.emit
             .eventPortSettingsChanged)
  else (false, s)

/-- Modelled from the spec: the base-class `onReset` (absent from the
sources) ends a pending port-geometry change. -/
def baseOnReset (s : State) : State :=
  { s with mOutputPortSettingsChange := .NONE }

/-! ## Decoder context lifecycle -/

/-- Lines 107-122 (`CODEC_FLAG_EMU_EDGE` is not defined by the FFmpeg the
file is built against). -/
def setDefaultCtx (fast : Bool) (avctx : AVCodecContext) : AVCodecContext :=
  { avctx with
    workaround_bugs := 1, idct_algo := 0, skip_frame := 0, skip_idct := 0,
    skip_loop_filter := 0, error_concealment := 3,
    flags2 := if fast then avctx.flags2 ||| AV_CODEC_FLAG2_FAST else avctx.flags2 }

/-- The context `avcodec_alloc_context3(NULL)` returns, before lines 140-145. -/
def blankCtx : AVCodecContext :=
  { codec_id := 0, codec := none, extradata := none, extradata_size := 0,
    width := 0, height := 0, workaround_bugs := 0, idct_algo := 0,
    skip_frame := 0, skip_idct := 0, skip_loop_filter := 0,
    error_concealment := 0, flags2 := 0, isOpen := false }

/-- Lines 124-148; the result is `true` for `OK`.  Lines 144-145 store the
`uint32_t` members `mWidth` and `mHeight` into the `int` fields of the
context. -/
def initDecoder (env : Env) (codecID : Nat) (s : State) : Bool × State :=
  let k := s.log.length
  let s1 := s.emit (.call .initFFmpeg)
  if env.initFFmpeg k = false then (false, s1)
  else
    let s2 := { s1 with mFFmpegAlreadyInited := true }
    let k2 := s2.log.length
    let s3 := s2.emit (.call .avcodec_alloc_context3)
    if env.avcodec_alloc_context3 k2 = false then (false, { s3 with mCtx := none })
    else
      (true, { s3 with mCtx := some { blankCtx with
                 codec_id := codecID, extradata_size := 0, extradata := none,
                 width := toI32 s.mWidth, height := toI32 s.mHeight } })

/-- Lines 152-167: the part of `deInitDecoder` under `if (mCtx)`. -/
def deInitCtx (s : State) (ctx : AVCodecContext) : State :=
  let s1 := if ctx.isOpen then s.emit (.call .avcodec_flush_buffers) else s
  let s2 := if ctx.extradata.isSome then s1.emit (.call .av_free) else s1
  let s3 := if s2.mCodecAlreadyOpened then
      { s2 with mCodecAlreadyOpened := false }.emit (.call .avcodec_close)
    else s2
  { s3.emit (.call .ffmpeg_hwaccel_deinit) with mCtx := none }

/-- Lines 150-180. -/
def deInitDecoder (s : State) : State :=
  let s1 := match s.mCtx with
    | some ctx => deInitCtx s ctx
    | none => s
  let s2 := if s1.mFrame.isSome then
      { s1 with mFrame := none }.emit (.call .av_frame_free) else s1
  let s3 := if s2.mPacket.isSome then
      { s2 with mPacket := none }.emit (.call .av_packet_free) else s2
  if s3.mImgConvertCtx.isSome then
    { s3 with mImgConvertCtx := none }.emit (.call .sws_freeContext) else s3

/-- Lines 390-403 of `handleExtradata`: growing the extradata block by the
payload of `inHeader`.  The result is `none` when `realloc` returned `NULL`
(the function then returns `ERR_OOM`).  A request that does not fit a
non-negative `int` reaches the allocator as a size above `PTRDIFF_MAX` and is
refused. -/
def appendExtradata (env : Env) (ctx : AVCodecContext) (inHeader : Header) (s : State) :
    Res (Option Unit) :=
  let orig_extradata_size := ctx.extradata_size
  let extradata_size := toI32 (orig_extradata_size + inHeader.nFilledLen)
  let request := toI32 (extradata_size + env.AV_INPUT_BUFFER_PADDING_SIZE)
  let k := s.log.length
  let s1 := s.emit (.call (.realloc request))
  if env.realloc k = false ∨ request < 0 then
    .ok none { s1 with mCtx := some { ctx with extradata_size := extradata_size,
                                               extradata := none } }
  else
    let block := reallocBlock (env.junk k) (ctx.extradata.getD []) request.toNat
    -- memcpy(mCtx->extradata + orig_extradata_size, pBuffer + nOffset, nFilledLen)
    if inHeader.nOffset + inHeader.nFilledLen ≤ inHeader.pBuffer.length
        ∧ 0 ≤ orig_extradata_size
        ∧ orig_extradata_size + inHeader.nFilledLen ≤ block.length then
      let block1 := writeAt block orig_extradata_size.toNat inHeader.payload
      -- memset(mCtx->extradata + mCtx->extradata_size, 0, PADDING)
      if 0 ≤ extradata_size
          ∧ extradata_size + env.AV_INPUT_BUFFER_PADDING_SIZE ≤ block1.length then
        let block2 := writeAt block1 extradata_size.toNat
          (List.replicate env.AV_INPUT_BUFFER_PADDING_SIZE 0)
        .ok (some ()) { s1 with mCtx := some { ctx with extradata_size := extradata_size,
                                                        extradata := some block2 } }
      else
        .fault .outOfBounds { s1 with mCtx := some { ctx with
          extradata_size := extradata_size, extradata := some block1 } }
    else
      .fault .outOfBounds { s1 with mCtx := some { ctx with
        extradata_size := extradata_size, extradata := some block } }

/-- Lines 407-409 of `handleExtradata`, 561-567 of `decodeVideo`: the head of
the input queue leaves the queue and goes back to the host. -/
def releaseInput (inInfo : BufferInfo) (rest : List (Option BufferInfo)) (s : State) : State :=
  { s with inQueue := rest }.emit (.emptyBufferDone { inInfo with mOwnedByUs := false })

/-- Lines 372-412. -/
def handleExtradata (env : Env) (s : State) : Res Int :=
  match s.inQueue with
  | [] => .fault .nullDeref s
  | none :: _ => .fault .nullDeref s
  | some inInfo :: rest =>
    if s.mIgnoreExtradata then
      match inInfo.mHeader with
      | none => .fault .nullDeref s
      | some _ => .ok ERR_OK (releaseInput inInfo rest s)
    else if s.mExtradataReady = false then
      match s.mCtx, inInfo.mHeader with
      | none, _ => .fault .nullDeref s
      | some _, none => .fault .nullDeref s
      | some ctx, some inHeader =>
        (appendExtradata env ctx inHeader s).bind fun r s1 =>
          match r with
          | none => .ok ERR_OOM s1
          | some _ => .ok ERR_OK (releaseInput inInfo rest s1)
    else
      .ok ERR_OK (releaseInput inInfo rest s)

/-- Lines 434-456 of `openDecoder`, once the decoder has been found. -/
def openFound (env : Env) (ctx : AVCodecContext) (s : State) : Res Int :=
  -- setDefaultCtx(mCtx, mCtx->codec)
  let k1 := s.log.length
  let s1 := s.emit (.call .property_get_bool)
  let ctx1 := setDefaultCtx (env.property_get_bool k1) ctx
  -- ffmpeg_hwaccel_init(mCtx)
  let s2 := { s1 with mCtx := some ctx1 }.emit (.call .ffmpeg_hwaccel_init)
  -- avcodec_open2(mCtx, mCtx->codec, NULL)
  let k3 := s2.log.length
  let s3 := s2.emit (.call .avcodec_open2)
  if env.avcodec_open2 k3 < 0 then .ok ERR_DECODER_OPEN_FAILED s3
  else
    let s4 := { s3 with mCodecAlreadyOpened := true,
                        mCtx := some { ctx1 with isOpen := true } }
    -- mFrame = av_frame_alloc()
    let k5 := s4.log.length
    let s5 := { s4 with mFrame := env.av_frame_alloc k5 }.emit (.call .av_frame_alloc)
    if s5.mFrame.isNone then .ok ERR_OOM s5 else .ok ERR_OK s5

/-- Lines 414-457. -/
def openDecoder (env : Env) (s : State) : Res Int :=
  if s.mCodecAlreadyOpened then .ok ERR_OK s
  else
    let s0 := { s with mExtradataReady := true }
    match s0.mCtx with
    | none => .fault .nullDeref s0
    | some ctx =>
      -- mCtx->codec = avcodec_find_decoder(mCtx->codec_id)
      let k := s0.log.length
      let ctx1 := { ctx with codec := env.avcodec_find_decoder k ctx.codec_id }
      let s1 := { s0 with mCtx := some ctx1 }.emit
        (.call (.avcodec_find_decoder ctx.codec_id))
      if ctx1.codec.isNone then .ok ERR_CODEC_NOT_FOUND s1
      else openFound env ctx1 s1

/-! ## Frame drain -/

/-- The packet `av_packet_alloc` returns and `av_packet_unref` leaves. -/
def blankPacket : AVPacket :=
  { data := none, size := 0, pts := AV_NOPTS_VALUE, dts := AV_NOPTS_VALUE }

/-- Lines 459-480. -/
def initPacket (pkt : AVPacket) (inHeader : Option Header) : AVPacket :=
  match inHeader with
  | some h =>
    { pkt with data := some h.payload, size := toI32 h.nFilledLen,
               pts := h.nTimeStamp, dts := h.nTimeStamp }
  | none => { pkt with data := none, size := 0, pts := AV_NOPTS_VALUE }

/-- The test `mCtx->codec->capabilities & AV_CODEC_CAP_DELAY`; `none` when
`mCtx` or `mCtx->codec` is `NULL`. -/
def capDelay (s : State) : Option Bool :=
  match s.mCtx with
  | none => none
  | some ctx =>
    match ctx.codec with
    | none => none
    | some c => some (decide (c.capabilities &&& AV_CODEC_CAP_DELAY ≠ 0))

/-- The head of the input queue as lines 486-495 read it: `inInfo`. -/
def headInfo (s : State) : Option BufferInfo :=
  match s.inQueue with
  | [] => none
  | e :: _ => e

/-- The head of the input queue as lines 486-495 read it: `inHeader`. -/
def headHeader (s : State) : Option Header :=
  match headInfo s with
  | none => none
  | some info => info.mHeader

/-- Lines 561-569 of `decodeVideo`. -/
def decodeFinish (inInfo : Option BufferInfo) (ret : Int) (s : State) : Res Int :=
  match s.inQueue with
  | [] => .ok ret s
  | _ :: rest =>
    match inInfo with
    | none => .ok ret { s with inQueue := rest }
    | some info => .ok ret (releaseInput info rest s)

/-- Lines 536-545 of `decodeVideo`: no picture and no hard error. -/
def decodeNoPic (inInfo : Option BufferInfo) (inHeader : Option Header) (s : State) :
    Res Int :=
  if s.mEOSStatus ≠ .INPUT_DATA_AVAILABLE then
    match capDelay s with
    | none => .fault .nullDeref s
    | some delay =>
      if delay = true ∧ inHeader = none then decodeFinish inInfo ERR_FLUSHED s
      else
        match inHeader with
        | none => .fault .nullDeref s
        | some h =>
          if h.nFilledLen = 0 then decodeFinish inInfo ERR_FLUSHED s
          else decodeFinish inInfo ERR_NO_FRM s
  else
    match inHeader with
    | none => .fault .nullDeref s
    | some h =>
      if h.nFilledLen = 0 then decodeFinish inInfo ERR_FLUSHED s
      else decodeFinish inInfo ERR_NO_FRM s

/-- Lines 519-569 of `decodeVideo`: `avcodec_receive_frame` and what follows. -/
def decodeReceive (env : Env) (ctx : AVCodecContext) (inInfo : Option BufferInfo)
    (inHeader : Option Header) (s : State) : Res Int :=
  match s.mFrame with
  | none => .fault .nullDeref s
  | some _ =>
    let k := s.log.length
    let r := env.avcodec_receive_frame k
    let s1 := { s with mFrame := some r.frame,
                       mCtx := some { ctx with width := r.ctxWidth, height := r.ctxHeight } }.emit
      (.call .avcodec_receive_frame)
    let gotPic : Bool := decide (r.err = 0)
    let err : Int := if r.err = AVERROR_EAGAIN then 0 else r.err
    if err < 0 then
      decodeFinish inInfo ERR_NO_FRM { s1 with mLoggedError := s1.mLoggedError ||| 1 }
    else if gotPic = false then decodeNoPic inInfo inHeader s1
    else
      let k2 := s1.log.length
      let s2 := s1.emit (.call .ffmpeg_hwaccel_get_frame)
      if env.ffmpeg_hwaccel_get_frame k2 < 0 then
        decodeFinish inInfo ERR_NO_FRM { s2 with mLoggedError := s2.mLoggedError ||| 2 }
      else decodeFinish inInfo ERR_OK s2

/-- Lines 502-569 of `decodeVideo`: past the early return.  The return code
of `avcodec_send_packet` (`Env.avcodec_send_packet`) is only written to the
system log, lines 514-517, and overwritten at line 519: nothing depends on
it. -/
def decodeSend (env : Env) (inInfo : Option BufferInfo) (inHeader : Option Header)
    (s : State) : Res Int :=
  let k := s.log.length
  let s1 := if s.mPacket.isNone then s.emit (.call .av_packet_alloc) else s
  if s.mPacket.isNone ∧ env.av_packet_alloc k = false then .ok ERR_OOM s1
  else
    let pkt := initPacket (s.mPacket.getD blankPacket) inHeader
    match s1.mCtx with
    | none => .fault .nullDeref { s1 with mPacket := some pkt }
    | some ctx =>
      let s2 := { s1 with mPacket := some pkt }.emit (.call (.avcodec_send_packet pkt))
      let s3 := { s2 with mPacket := some blankPacket }.emit (.call .av_packet_unref)
      decodeReceive env ctx inInfo inHeader s3

/-- Lines 482-570. -/
def decodeVideo (env : Env) (s : State) : Res Int :=
  let inInfo := headInfo s
  let inHeader := headHeader s
  if s.mEOSStatus = .INPUT_EOS_SEEN
      ∧ (inHeader = none ∨ (inHeader.map (·.nFilledLen)) = some 0) then
    match capDelay s with
    | none => .fault .nullDeref s
    | some delay =>
      if delay = false then .ok ERR_FLUSHED s
      else decodeSend env inInfo inHeader s
  else decodeSend env inInfo inHeader s

/-- Line 594: the offset `bufferWidth * bufferHeight` of `data[1]` from `dst`
(a `uint32_t` product). -/
def planeOffset1 (bufferWidth bufferHeight : Nat) : Nat :=
  (bufferWidth * bufferHeight) % 2 ^ 32

/-- Line 595: the offset of `data[2]` from `dst`. -/
def planeOffset2 (bufferWidth bufferHeight : Nat) : Nat :=
  planeOffset1 bufferWidth bufferHeight + ((bufferWidth * bufferHeight) % 2 ^ 32) / 4

/-- Line 617: `(bufferWidth * bufferHeight * 3) / 2` in `uint32_t`. -/
def filledLen (bufferWidth bufferHeight : Nat) : Nat :=
  ((bufferWidth * bufferHeight * 3) % 2 ^ 32) / 2

/-- Lines 623-633: the timestamp selected for a frame, for either value of the
build flag `LIBAV_CONFIG_H` and any value of the reorder preference. -/
def selectPts (libav : Bool) (reorder : Int) (frame : AVFrame) : Int :=
  if libav = false ∧ reorder = -1 then frame.best_effort_timestamp
  else if reorder ≠ 0 then frame.pts
  else frame.pkt_dts

/-- Lines 635-638: an unknown timestamp becomes zero. -/
def normalizePts (pts : Int) : Int :=
  if pts = AV_NOPTS_VALUE then 0 else pts

/-- Lines 616-638: the header of the output item after a conversion. -/
def fillHeader (env : Env) (s : State) (frame : AVFrame) (outHeader : Header) : Header :=
  { outHeader with
    nOffset := 0,
    nFilledLen := filledLen (outputBufferWidth s) (outputBufferHeight s),
    nFlags := if frame.key_frame ≠ 0 then 0 ||| OMX_BUFFERFLAG_SYNCFRAME else 0,
    nTimeStamp := normalizePts (selectPts env.LIBAV_CONFIG_H decoder_reorder_pts frame) }

/-- Lines 644-646 of `drainOneOutputBuffer`, 655-665 of `drainEOSOutputBuffer`:
the head of the output queue leaves the queue and goes back to the host. -/
def releaseOutput (outInfo : BufferInfo) (outHeader : Header)
    (rest : List (Option BufferInfo)) (s : State) : State :=
  { s with outQueue := rest }.emit
    (.fillBufferDone { outInfo with mHeader := some outHeader, mOwnedByUs := false })

/-- Lines 572-649. -/
def drainOneOutputBuffer (env : Env) (s : State) : Res Int :=
  match s.outQueue with
  | [] => .fault .nullDeref s
  | none :: _ => .fault .nullDeref s
  | some outInfo :: rest =>
    match outInfo.mHeader, s.mFrame with
    | none, _ => .fault .nullDeref s
    | some _, none => .fault .nullDeref s
    | some outHeader, some frame =>
      let bufferWidth := outputBufferWidth s
      let bufferHeight := outputBufferHeight s
      let k := s.log.length
      let s1 := s.emit (.call (.sws_getCachedContext frame.width frame.height frame.format))
      if env.sws_getCachedContext k = false then
        .ok ERR_SWS_FAILED { s1 with mImgConvertCtx := none }
      else
        let key : SwsContext :=
          { srcW := frame.width, srcH := frame.height, srcFormat := frame.format }
        let s2 := { s1 with mImgConvertCtx := some key }.emit
          (.call (.sws_scale 0 (planeOffset1 bufferWidth bufferHeight)
            (planeOffset2 bufferWidth bufferHeight)
            (toI32 bufferWidth) (toI32 (bufferWidth / 2)) (toI32 (bufferWidth / 2))))
        .ok ERR_OK (releaseOutput outInfo (fillHeader env s frame outHeader) rest s2)

/-- The header `drainEOSOutputBuffer` writes, lines 660-662. -/
def eosHeader (outHeader : Header) : Header :=
  { outHeader with nTimeStamp := 0, nFilledLen := 0, nFlags := OMX_BUFFERFLAG_EOS }

/-- Lines 651-668. -/
def drainEOSOutputBuffer (s : State) : Res Unit :=
  match s.outQueue with
  | [] => .fault .nullDeref s
  | none :: _ => .fault .checkFailed s
  | some outInfo :: rest =>
    match outInfo.mHeader with
    | none => .fault .nullDeref { s with outQueue := rest }
    | some outHeader =>
      .ok () { releaseOutput outInfo (eosHeader outHeader) rest s with
               mEOSStatus := .OUTPUT_FRAMES_FLUSHED }

/-- Lines 681-682 and their copies: the error event, then the latch. -/
def signalError (s : State) : State :=
  { s.emit .eventError with mSignalledError := true }

/-- One turn of the loop of `drainAllOutputBuffers`, lines 679-696, entered
with a non-empty output queue.  The value is `true` when the loop goes on and
`false` when the function returns. -/
def drainAllBody (env : Env) (s : State) : Res Bool :=
  (decodeVideo env s).bind fun err s1 =>
    if err < ERR_OK then .ok false (signalError s1)
    else if err = ERR_FLUSHED then (drainEOSOutputBuffer s1).bind fun _ s2 => .ok false s2
    else if err = ERR_NO_FRM then .ok true s1
    else if err ≠ ERR_OK then .fault .checkFailed s1
    else
      (drainOneOutputBuffer env s1).bind fun r s2 =>
        if r ≠ ERR_OK then .ok false (signalError s2) else .ok true s2

/-- The loop of `drainAllOutputBuffers`, lines 678-697. -/
def drainAllLoop (env : Env) : Nat → State → Res Unit
  | 0, s => if s.outQueue ≠ [] then .timeout s else .ok () s
  | fuel + 1, s =>
    if s.outQueue ≠ [] then
      match drainAllBody env s with
      | .ok true s1 => drainAllLoop env fuel s1
      | .ok false s1 => .ok () s1
      | .fault f s1 => .fault f s1
      | .timeout s1 => .timeout s1
    else .ok () s

/-- Lines 670-698. -/
def drainAllOutputBuffers (env : Env) (fuel : Nat) (s : State) : Res Unit :=
  if s.mCodecAlreadyOpened = false then
    (drainEOSOutputBuffer s).bind fun _ s1 =>
      .ok () { s1 with mEOSStatus := .OUTPUT_FRAMES_FLUSHED }
  else drainAllLoop env fuel s

/-! ## Buffer pipeline -/

/-- Lines 700-726 (the branch compiled in is the one under `#else`). -/
def handlePortSettingsChange (s : State) : Res Bool :=
  match s.mCtx with
  | none => .fault .nullDeref s
  | some ctx =>
    let r := baseHandlePortSettingsChange s (toU32 ctx.width) (toU32 ctx.height)
    .ok r.1 r.2

/-- Lines 779-802 of `onQueueFilled`: the decode attempt of one turn of the
main loop and what follows it. -/
def decodeAndDrain (env : Env) (s : State) : Res Bool :=
  (decodeVideo env s).bind fun err s1 =>
    if err < ERR_OK then .ok false (signalError s1)
    else if err = ERR_FLUSHED then (drainEOSOutputBuffer s1).bind fun _ s2 => .ok false s2
    else if err = ERR_NO_FRM then .ok true s1
    else if err ≠ ERR_OK then .fault .checkFailed s1
    else
      (handlePortSettingsChange s1).bind fun portWillReset s2 =>
        if portWillReset then .ok false s2
        else
          (drainOneOutputBuffer env s2).bind fun r s3 =>
            if r ≠ ERR_OK then .ok false (signalError s3) else .ok true s3

/-- Lines 757-802 of `onQueueFilled`: one turn of the main loop for a head
input item with header `inHeader`. -/
def mainItem (env : Env) (inHeader : Header) (s : State) : Res Bool :=
  if inHeader.nFlags &&& OMX_BUFFERFLAG_EOS ≠ 0 then
    .ok true { s with mEOSStatus := .INPUT_EOS_SEEN }
  else if inHeader.nFlags &&& OMX_BUFFERFLAG_CODECCONFIG ≠ 0 then
    (handleExtradata env s).bind fun r s1 =>
      if r ≠ ERR_OK then .ok true (signalError s1) else .ok true s1
  else if s.mCodecAlreadyOpened = false then
    (openDecoder env s).bind fun r s1 =>
      if r ≠ ERR_OK then .ok false (signalError s1) else decodeAndDrain env s1
  else decodeAndDrain env s

/-- One turn of the main loop of `onQueueFilled`, lines 743-802, entered with
the loop condition true.  The value is `true` when the loop goes on and
`false` when the function returns; `fuel` is what the loop of
`drainAllOutputBuffers` may use. -/
def mainBody (env : Env) (fuel : Nat) (s : State) : Res Bool :=
  if s.mEOSStatus = .INPUT_EOS_SEEN then
    (drainAllOutputBuffers env fuel s).bind fun _ s1 => .ok false s1
  else
    match s.inQueue with
    | [] => .fault .nullDeref s
    | none :: _ => .ok true s
    | some inInfo :: _ =>
      match inInfo.mHeader with
      | none => .ok true s
      | some inHeader => mainItem env inHeader s

/-- The condition of the main loop, lines 740-741. -/
def mainCond (s : State) : Prop :=
  (s.mEOSStatus ≠ .INPUT_DATA_AVAILABLE ∨ s.inQueue ≠ []) ∧ s.outQueue ≠ []

instance (s : State) : Decidable (mainCond s) := by
  unfold mainCond; infer_instance

/-- The main loop of `onQueueFilled`, lines 740-803. -/
def mainLoop (env : Env) : Nat → State → Res Unit
  | 0, s => if mainCond s then .timeout s else .ok () s
  | fuel + 1, s =>
    if mainCond s then
      match mainBody env fuel s with
      | .ok true s1 => mainLoop env fuel s1
      | .ok false s1 => .ok () s1
      | .fault f s1 => .fault f s1
      | .timeout s1 => .timeout s1
    else .ok () s

/-- Lines 728-804. -/
def onQueueFilled (env : Env) (fuel : Nat) (s : State) : Res Unit :=
  if s.mSignalledError = true ∨ s.mOutputPortSettingsChange ≠ .NONE then .ok () s
  else if s.mEOSStatus = .OUTPUT_FRAMES_FLUSHED then .ok () s
  else mainLoop env fuel s

/-- The index of the input port, `kInputPortIndex` of the base class. -/
def kInputPortIndex : Nat := 0

/-- Lines 806-816. -/
def onPortFlushCompleted (portIndex : Nat) (s : State) : State :=
  if portIndex = kInputPortIndex then
    let s1 := match s.mCtx with
      | some ctx => if ctx.isOpen then s.emit (.call .avcodec_flush_buffers) else s
      | none => s
    { s1 with mEOSStatus := .INPUT_DATA_AVAILABLE }
  else s

/-- Lines 818-827. -/
def onReset (env : Env) (s : State) : Res Unit :=
  match s.mCtx with
  | none => .fault .nullDeref s
  | some ctx =>
    let codecID := ctx.codec_id
    let s1 := deInitDecoder s
    let s2 := (initDecoder env codecID s1).2
    let s3 := baseOnReset s2
    .ok () { s3 with mSignalledError := false, mExtradataReady := false,
                     mEOSStatus := .INPUT_DATA_AVAILABLE }

/-- The members as the initialiser list of the constructor leaves them, lines
72-86, with empty port queues. -/
def initialMembers : State :=
  { mFFmpegAlreadyInited := false, mCodecAlreadyOpened := false, mCtx := none,
    mImgConvertCtx := none, mFrame := none, mPacket := none,
    mEOSStatus := .INPUT_DATA_AVAILABLE, mExtradataReady := false,
    mIgnoreExtradata := false, mSignalledError := false, mLoggedError := 0,
    mWidth := 352, mHeight := 288, mOutputPortSettingsChange := .NONE,
    inQueue := [], outQueue := [], log := [] }

/-- The constructor, lines 62-97. -/
def construct (env : Env) (codecID : Nat) : Res Unit :=
  let r := initDecoder env codecID initialMembers
  if r.1 then .ok () r.2 else .fault .checkFailed r.2

/-! ## Observations on the log -/

/-- The item of an empty-notification. -/
def Event.emptiedItem : Event → Option BufferInfo
  | .emptyBufferDone info => some info
  | _ => none

/-- The item of a fill-notification. -/
def Event.filledItem : Event → Option BufferInfo
  | .fillBufferDone info => some info
  | _ => none

/-- The items handed to `notifyEmptyBufferDone`, in order. -/
def emptied (log : List Event) : List BufferInfo := log.filterMap Event.emptiedItem

/-- The items handed to `notifyFillBufferDone`, in order. -/
def filled (log : List Event) : List BufferInfo := log.filterMap Event.filledItem

/-- The number of `avcodec_open2` calls in a log. -/
def codecOpens (log : List Event) : Nat := log.count (.call .avcodec_open2)

/-- An item as the host gets it back: the component no longer owns it. -/
def disown (info : BufferInfo) : BufferInfo := { info with mOwnedByUs := false }

/-- The end-of-stream output item of the spec: zero length, zero timestamp,
flags equal to `OMX_BUFFERFLAG_EOS`. -/
def isEosItem (info : BufferInfo) : Prop :=
  ∃ h, info.mHeader = some h ∧ h.nFilledLen = 0 ∧ h.nTimeStamp = 0
    ∧ h.nFlags = OMX_BUFFERFLAG_EOS

/-- The fixed planar 4:2:0 layout of the spec at geometry `w` by `h`: luma of
`w * h` bytes with stride `w` at offset 0, then two chroma planes of
`(w / 2) * (h / 2)` bytes with stride `w / 2`, one right after the other, the
three sizes adding up to the fill length. -/
def planarLayout (w h off0 off1 off2 len : Nat) (stride0 stride1 stride2 : Int) : Prop :=
  off0 = 0 ∧ off1 = w * h ∧ off2 = off1 + (w / 2) * (h / 2)
    ∧ len = off2 + (w / 2) * (h / 2) ∧ len = (w * h * 3) / 2
    ∧ stride0 = w ∧ stride1 = (w / 2 : Nat) ∧ stride2 = (w / 2 : Nat)

/-- The payload of an item (empty for an item without header). -/
def itemPayload (info : BufferInfo) : List Nat :=
  match info.mHeader with
  | some h => h.payload
  | none => []

/-- The payloads of a list of items, one after the other in arrival order. -/
def payloads (frags : List BufferInfo) : List Nat :=
  (frags.map itemPayload).flatten

/-- The sum of `nFilledLen` over a list of items. -/
def totalFilled (frags : List BufferInfo) : Nat :=
  (frags.map fun info =>
    match info.mHeader with
    | some h => h.nFilledLen
    | none => 0).sum

/-- An item whose payload lies within its buffer. -/
def payloadInBuffer (info : BufferInfo) : Prop :=
  ∃ h, info.mHeader = some h ∧ h.nOffset + h.nFilledLen ≤ h.pBuffer.length

/-- The non-null entries of a port queue. -/
def present (q : List (Option BufferInfo)) : List BufferInfo := q.filterMap id

/-- A port queue without null entry and without null header. -/
def NonNull (q : List (Option BufferInfo)) : Prop :=
  ∀ e ∈ q, ∃ i h, e = some i ∧ i.mHeader = some h

/-- The state `openDecoder` leaves when `avcodec_find_decoder` finds nothing,
lines 419-432, followed by the error event and the latch of lines 773-774. -/
def codecNotFoundState (s : State) (ctx : AVCodecContext) : State :=
  signalError
    ({ s with mExtradataReady := true, mCtx := some { ctx with codec := none } }.emit
      (.call (.avcodec_find_decoder ctx.codec_id)))

/-! ## The host -/

/-- The host delivering `n` configuration items one after the other: `n`
successive calls of `handleExtradata`, as the main loop of `onQueueFilled`
makes them at lines 762-769, up to the first one that does not return
`ERR_OK`. -/
def handleExtradataTimes (env : Env) : Nat → State → Res Int
  | 0, s => .ok ERR_OK s
  | n + 1, s =>
    (handleExtradata env s).bind fun r s1 =>
      if r ≠ ERR_OK then .ok r s1 else handleExtradataTimes env n s1

/-- What the host does between construction and reset: it hands an item to the
input port, hands an item to the output port, or makes one `onQueueFilled`
call (with the fuel the call may use). -/
inductive HostStep where
  | queueInput (info : BufferInfo)
  | queueOutput (info : BufferInfo)
  | drive (fuel : Nat)
deriving DecidableEq, Repr

/-- Modelled from the spec: the host side of the buffer-exchange protocol (the
base class, absent from the sources): an item handed to a port is owned by the
component and goes to the tail of the queue of the port. -/
def hostStep (env : Env) : HostStep → State → Res Unit
  | .queueInput info, s =>
    .ok () { s with inQueue := s.inQueue ++ [some { info with mOwnedByUs := true }] }
  | .queueOutput info, s =>
    .ok () { s with outQueue := s.outQueue ++ [some { info with mOwnedByUs := true }] }
  | .drive fuel, s => onQueueFilled env fuel s

/-- The state `s1` differs from `s` by no queue entry and no buffer
notification. -/
def Quiet (s s1 : State) : Prop :=
  s1.inQueue = s.inQueue ∧ s1.outQueue = s.outQueue
    ∧ emptied s1.log = emptied s.log ∧ filled s1.log = filled s.log

/-- Between `s` and `s1` the entries `ein` have left the head of the input
queue and the items `eout` the head of the output queue; the non-null ones among
`ein` are what has been handed to `notifyEmptyBufferDone` since, in that
order and disowned, and the items `fl` handed to `notifyFillBufferDone` since
are those of `eout` that have a header, in that order and disowned. -/
def Track (s s1 : State) : Prop :=
  ∃ (ein : List (Option BufferInfo)) (eout fl : List BufferInfo),
    s.inQueue = ein ++ s1.inQueue ∧ s.outQueue = eout.map some ++ s1.outQueue
      ∧ emptied s1.log = emptied s.log ++ (present ein).map disown
      ∧ filled s1.log = filled s.log ++ fl
      ∧ fl.map (·.addr) = (eout.filter fun i => i.mHeader.isSome).map (·.addr)
      ∧ ∀ i ∈ fl, i.mOwnedByUs = false

/-- The state `s1` differs from `s` neither in the end-of-stream status nor in
the fill-notifications made. -/
def Still (s s1 : State) : Prop :=
  s1.mEOSStatus = s.mEOSStatus ∧ filled s1.log = filled s.log

/-- Between `s` and `s1` the end-of-stream status has not changed and no
end-of-stream item has been handed to `notifyFillBufferDone`. -/
def Calm (s s1 : State) : Prop :=
  s1.mEOSStatus = s.mEOSStatus
    ∧ ∃ fl, filled s1.log = filled s.log ++ fl ∧ ∀ d ∈ fl, ¬ isEosItem d

/-- The situation in which `drainAllOutputBuffers` makes no progress: the
end of stream has been seen, the codec is open and has the decode-delay
capability, the input queue is empty and the output queue is not. -/
def Stuck (s : State) : Prop :=
  s.mEOSStatus = .INPUT_EOS_SEEN ∧ s.mCodecAlreadyOpened = true ∧ s.inQueue = []
    ∧ s.outQueue ≠ [] ∧ capDelay s = some true ∧ s.mFrame.isSome = true

/-! ## Sample inputs -/

/-- A decoded picture of 352 by 288 with known timestamps. -/
def sampleFrame : AVFrame :=
  { width := 352, height := 288, format := 0, key_frame := 1,
    best_effort_timestamp := 7, pts := 8, pkt_dts := 9 }

/-- A behaviour in which every call succeeds and the decoder, which has the
decode-delay capability, answers every receive call with `sampleFrame`. -/
def sampleEnv : Env :=
  { AV_INPUT_BUFFER_PADDING_SIZE := 64, LIBAV_CONFIG_H := false,
    initFFmpeg := fun _ => true, avcodec_alloc_context3 := fun _ => true,
    property_get_bool := fun _ => false,
    avcodec_find_decoder := fun _ _ => some { capabilities := AV_CODEC_CAP_DELAY },
    avcodec_open2 := fun _ => 0, av_frame_alloc := fun _ => some sampleFrame,
    av_packet_alloc := fun _ => true, avcodec_send_packet := fun _ => 0,
    avcodec_receive_frame := fun _ =>
      { err := 0, frame := sampleFrame, ctxWidth := 352, ctxHeight := 288 },
    ffmpeg_hwaccel_get_frame := fun _ => 0, realloc := fun _ => true,
    junk := fun _ _ => 170, sws_getCachedContext := fun _ => true }

/-- An input or output item at address `addr` whose buffer holds `bytes`, all
of them payload. -/
def sampleItem (addr flags : Nat) (bytes : List Nat) : BufferInfo :=
  { addr := addr, mOwnedByUs := true,
    mHeader := some { pBuffer := bytes, nFilledLen := bytes.length, nOffset := 0,
                      nFlags := flags, nTimeStamp := 5 } }

/-- The component right after construction under `sampleEnv`, codec id 27. -/
def sampleInit : State := (construct sampleEnv 27).state

/-- A state with one output item queued and a decoded frame whose timestamps
are all unknown. -/
def sampleNoPts : State :=
  { sampleInit with
    outQueue := [some (sampleItem 10 0 [])],
    mFrame := some { sampleFrame with best_effort_timestamp := AV_NOPTS_VALUE,
                                      pts := AV_NOPTS_VALUE, pkt_dts := AV_NOPTS_VALUE } }

/-- A state with one output item queued, a decoded frame, and a negotiated
output geometry of 3 by 3. -/
def sampleOdd : State :=
  { sampleInit with
    outQueue := [some (sampleItem 10 0 [])], mFrame := some sampleFrame,
    mWidth := 3, mHeight := 3 }

/-- A state with one output item queued, a decoded frame, and the default
negotiated output geometry of 352 by 288. -/
def sampleEven : State :=
  { sampleInit with outQueue := [some (sampleItem 10 0 [])], mFrame := some sampleFrame }

/-- A configuration fragment of 12 bytes. -/
def sampleFrag12 : BufferInfo :=
  sampleItem 1 OMX_BUFFERFLAG_CODECCONFIG [1, 2, 3, 4, 5, 6, 7, 8, 9, 10, 11, 12]

/-- A configuration fragment of 4 bytes. -/
def sampleFrag4 : BufferInfo :=
  sampleItem 2 OMX_BUFFERFLAG_CODECCONFIG [13, 14, 15, 16]

/-- The freshly constructed component with the two fragments queued. -/
def sampleConfig : State :=
  { sampleInit with inQueue := [some sampleFrag12, some sampleFrag4] }

/-- The freshly constructed component with two configuration fragments, one
encoded item of two bytes and an empty end-of-stream item on the input port,
and two items on the output port. -/
def sampleStream : State :=
  { sampleInit with
    inQueue := [some sampleFrag12, some sampleFrag4, some (sampleItem 3 0 [9, 9]),
                some (sampleItem 4 OMX_BUFFERFLAG_EOS [])],
    outQueue := [some (sampleItem 10 0 []), some (sampleItem 11 0 [])] }

/-- One encoded item and the empty end-of-stream item are queued, then two
output items, then the component is driven. -/
def sampleFeed2 : List HostStep :=
  [.queueInput (sampleItem 3 0 [9, 9]), .queueInput (sampleItem 4 OMX_BUFFERFLAG_EOS []),
   .queueOutput (sampleItem 10 0 []), .queueOutput (sampleItem 11 0 []), .drive 5]

/-- A behaviour like `sampleEnv` in which no decoder is ever found. -/
def sampleEnvNoCodec : Env :=
  { sampleEnv with avcodec_find_decoder := fun _ _ => none }

/-- The freshly constructed component with one encoded item and the
end-of-stream item on the input port and one item on the output port. -/
def sampleData : State :=
  { sampleInit with
    inQueue := [some (sampleItem 3 0 [9, 9]), some (sampleItem 4 OMX_BUFFERFLAG_EOS [])],
    outQueue := [some (sampleItem 10 0 [])] }

/-- The decoder context of `sampleInit`. -/
def sampleCtx : AVCodecContext :=
  { blankCtx with codec_id := 27, width := 352, height := 288 }

/-- A behaviour like `sampleEnv` in which the decoder answers every receive
call with the hard error `AVERROR_EOF`. -/
def sampleEnvEof : Env :=
  { sampleEnv with
    avcodec_receive_frame := fun _ =>
      { err := AVERROR_EOF, frame := sampleFrame, ctxWidth := 352, ctxHeight := 288 } }

/-- The state of the C5 scenario after the encoded item has been consumed. -/
def sampleEof1 : State := (mainBody sampleEnvEof 0 sampleData).state

/-- The state of the C5 scenario after the end-of-stream flag has been seen. -/
def sampleEof2 : State := (mainBody sampleEnvEof 0 sampleEof1).state

/-- The state of the C5 scenario after the end-of-stream item has been
consumed by the first decode attempt of `drainAllOutputBuffers`. -/
def sampleEof3 : State := (drainAllBody sampleEnvEof sampleEof2).state

/-- A picture of 640 by 480. -/
def sampleFrameVga : AVFrame := { sampleFrame with width := 640, height := 480 }

/-- A behaviour like `sampleEnv` in which the decoder needs more input at its
first receive call (log index 10 from `sampleData`) and answers every later
one with a picture of 640 by 480, the geometry it has then written into the
context. -/
def sampleEnvGeom : Env :=
  { sampleEnv with
    avcodec_receive_frame := fun k =>
      if k ≤ 10 then
        { err := AVERROR_EAGAIN, frame := sampleFrame, ctxWidth := 352, ctxHeight := 288 }
      else { err := 0, frame := sampleFrameVga, ctxWidth := 640, ctxHeight := 480 } }

/-- The length of the log at the `avcodec_receive_frame` call of a
`decodeVideo` that starts in `s` and gets past the early return: the calls
before it are `av_packet_alloc` when `mPacket` is `NULL`, then
`avcodec_send_packet` and `av_packet_unref`. -/
def receiveIndex (s : State) : Nat :=
  s.log.length + (if s.mPacket.isNone then 3 else 2)

/-- The state in which `decodeVideo` calls `avcodec_receive_frame`, lines
502-512 done: `av_packet_alloc` when `mPacket` is `NULL`, `initPacket`,
`avcodec_send_packet` and `av_packet_unref`. -/
def afterSend (inHeader : Option Header) (s : State) : State :=
  let s1 := if s.mPacket.isNone then s.emit (.call .av_packet_alloc) else s
  let pkt := initPacket (s.mPacket.getD blankPacket) inHeader
  let s2 := { s1 with mPacket := some pkt }.emit (.call (.avcodec_send_packet pkt))
  { s2 with mPacket := some blankPacket }.emit (.call .av_packet_unref)

/-- The freshly constructed component after a first `openDecoder`, with one
configuration fragment queued. -/
def sampleFrozen : State :=
  { (openDecoder sampleEnv sampleInit).state with inQueue := [some sampleFrag4] }

/-- A behaviour like `sampleEnv` in which the decoder answers every receive
call with `AVERROR(EAGAIN)`: it never has a picture. -/
def sampleEnvAgain : Env :=
  { sampleEnv with
    avcodec_receive_frame := fun _ =>
      { err := AVERROR_EAGAIN, frame := sampleFrame, ctxWidth := 352, ctxHeight := 288 } }

/-- The open decoder in state `INPUT_EOS_SEEN` with an empty input queue and
one output item. -/
def sampleDrained : State :=
  { (openDecoder sampleEnv sampleInit).state with
    mEOSStatus := .INPUT_EOS_SEEN, outQueue := [some (sampleItem 10 0 [])] }

/-- A behaviour like `sampleEnv` in which the first `realloc` of the scenario
(log index 2 from `sampleInit`) fails and every later one succeeds. -/
def sampleEnvOomOnce : Env :=
  { sampleEnv with realloc := fun k => decide (k ≠ 2) }

/-- A behaviour like `sampleEnv` in which every `realloc` fails. -/
def sampleEnvOom : Env :=
  { sampleEnv with realloc := fun _ => false }

/-- The freshly constructed component with one configuration fragment of four
bytes on the input port and one item on the output port. -/
def sampleOom : State :=
  { sampleInit with
    inQueue := [some sampleFrag4], outQueue := [some (sampleItem 10 0 [])] }

/-- The states in which the main loop is about to hand a configuration item to
the allocating branch of `handleExtradata`. -/
def ConfigPending (s : State) : Prop :=
  s.mEOSStatus = .INPUT_DATA_AVAILABLE ∧ s.outQueue ≠ []
  ∧ s.mIgnoreExtradata = false ∧ s.mExtradataReady = false ∧ s.mCtx.isSome
  ∧ ∃ inInfo inHeader rest, s.inQueue = some inInfo :: rest
      ∧ inInfo.mHeader = some inHeader
      ∧ inHeader.nFlags &&& OMX_BUFFERFLAG_EOS = 0
      ∧ inHeader.nFlags &&& OMX_BUFFERFLAG_CODECCONFIG ≠ 0

/-- The freshly constructed component with the empty end-of-stream item and
one output item queued: the codec was never opened. -/
def sampleEosOnly : State :=
  { sampleInit with
    inQueue := [some (sampleItem 4 OMX_BUFFERFLAG_EOS [])],
    outQueue := [some (sampleItem 10 0 [])] }

/-- The head input header of `s` is absent or has `nFilledLen` zero: the test
`!inHeader || inHeader->nFilledLen == 0` of line 497. -/
def headEmpty (s : State) : Prop :=
  headHeader s = none ∨ (headHeader s).map (·.nFilledLen) = some 0

instance (s : State) : Decidable (headEmpty s) := by
  unfold headEmpty; infer_instance

/-- The decode attempt that starts in `s` gets neither a picture nor a hard
error from `avcodec_receive_frame`: the answer is `AVERROR(EAGAIN)` or
positive. -/
def NoPicture (env : Env) (s : State) : Prop :=
  (env.avcodec_receive_frame (receiveIndex s)).err = AVERROR_EAGAIN
    ∨ 0 < (env.avcodec_receive_frame (receiveIndex s)).err

instance (env : Env) (s : State) : Decidable (NoPicture env s) := by
  unfold NoPicture; infer_instance

/-- The condition under which a decode attempt in state `INPUT_EOS_SEEN` ends
with `ERR_FLUSHED`, for a codec whose `AV_CODEC_CAP_DELAY` test gives `d`. -/
def FlushDue (env : Env) (s : State) (d : Bool) : Prop :=
  headEmpty s ∧ (d = false ∨ NoPicture env s)

instance (env : Env) (s : State) (d : Bool) : Decidable (FlushDue env s d) := by
  unfold FlushDue; infer_instance

/-- A behaviour like `sampleEnvAgain` with a decoder that lacks the
decode-delay capability. -/
def sampleEnvAgainNoDelay : Env :=
  { sampleEnvAgain with avcodec_find_decoder := fun _ _ => some { capabilities := 0 } }

/-- The freshly constructed component with one encoded item and an
end-of-stream item that carries two bytes on the input port, and one item on
the output port. -/
def sampleTail : State :=
  { sampleInit with
    inQueue := [some (sampleItem 3 0 [9, 9]), some (sampleItem 4 OMX_BUFFERFLAG_EOS [7, 7])],
    outQueue := [some (sampleItem 10 0 [])] }

/-- The state of `sampleTail` after two turns of the main loop under
`sampleEnvAgainNoDelay`: the encoded item consumed, the end-of-stream flag
seen. -/
def sampleTail2 : State :=
  (mainBody sampleEnvAgainNoDelay 0 (mainBody sampleEnvAgainNoDelay 0 sampleTail).state).state

/-- The freshly constructed component with one encoded item, the empty
end-of-stream item and one more encoded item on the input port, and one item on
the output port. -/
def sampleMore : State :=
  { sampleInit with
    inQueue := [some (sampleItem 3 0 [9, 9]), some (sampleItem 4 OMX_BUFFERFLAG_EOS []),
                some (sampleItem 5 0 [8, 8])],
    outQueue := [some (sampleItem 10 0 [])] }

/-- The state of `sampleMore` after two turns of the main loop under
`sampleEnvAgain`: the first encoded item consumed, the end-of-stream flag
seen. -/
def sampleMore2 : State :=
  (mainBody sampleEnvAgain 0 (mainBody sampleEnvAgain 0 sampleMore).state).state

/-- What the host can do to the component between construction and reset: a
host step, or the end of a port flush (`onPortFlushCompleted`). -/
inductive HostEvent where
  | step (st : HostStep)
  | flush (portIndex : Nat)
deriving DecidableEq, Repr

/-- One host event. -/
def hostEvent (env : Env) : HostEvent → State → Res Unit
  | .step st, s => hostStep env st s
  | .flush portIndex, s => .ok () (onPortFlushCompleted portIndex s)

/-- A sequence of host events; it stops where a call does not return. -/
def hostEvents (env : Env) : List HostEvent → State → Res Unit
  | [], s => .ok () s
  | ev :: rest, s => (hostEvent env ev s).bind fun _ s1 => hostEvents env rest s1

/-- The event is the `avcodec_find_decoder` call, the first call `openDecoder`
makes. -/
def isFindDecoder : Event → Bool
  | .call (.avcodec_find_decoder _) => true
  | _ => false

/-- The payload length of the item of an empty-notification when the item is
flagged as configuration data, zero for every other event. -/
def configLen : Event → Nat
  | .emptyBufferDone info =>
    match info.mHeader with
    | some h => if h.nFlags &&& OMX_BUFFERFLAG_CODECCONFIG ≠ 0 then h.nFilledLen else 0
    | none => 0
  | _ => 0

/-- The sum of `nFilledLen` over the configuration items handed back before
the first `avcodec_find_decoder` call of a log. -/
def configBytes : List Event → Nat
  | [] => 0
  | e :: l => if isFindDecoder e then 0 else configLen e + configBytes l

/-- The state of the component in which the count of configuration bytes
starts: as the constructor or `onReset` leaves it. -/
def Fresh (s : State) : Prop :=
  s.mIgnoreExtradata = false ∧ s.mExtradataReady = false ∧ s.mCodecAlreadyOpened = false
    ∧ s.mSignalledError = false ∧ ∃ ctx, s.mCtx = some ctx ∧ ctx.extradata_size = 0

/-- Between `s` and `s1` the extradata flags, the open flag and
`extradata_size` have not changed, the error latch has not been cleared, and
the events logged since hold no `avcodec_find_decoder` call and, while
`mExtradataReady` is unset, no configuration item handed back. -/
def Keeps (s s1 : State) : Prop :=
  s1.mIgnoreExtradata = s.mIgnoreExtradata ∧ s1.mExtradataReady = s.mExtradataReady
    ∧ s1.mCodecAlreadyOpened = s.mCodecAlreadyOpened
    ∧ (s1.mSignalledError = false → s.mSignalledError = false)
    ∧ s1.mCtx.map (·.extradata_size) = s.mCtx.map (·.extradata_size)
    ∧ ∃ more, s1.log = s.log ++ more
        ∧ ∀ e ∈ more, isFindDecoder e = false
            ∧ (s.mExtradataReady = false → configLen e = 0)

/-- The invariant of the count that starts at position `n` of the log: the
flags agree with the log, and while no error has been signalled
`extradata_size` is the 32-bit value of the sum of the configuration bytes
handed back before the decoder was first looked up. -/
def Counted (n : Nat) (s : State) : Prop :=
  n ≤ s.log.length ∧ s.mIgnoreExtradata = false
    ∧ (s.mCodecAlreadyOpened = true → s.mExtradataReady = true)
    ∧ (s.mExtradataReady = true ↔ (s.log.drop n).any isFindDecoder = true)
    ∧ (s.mSignalledError = false →
        ∃ ctx, s.mCtx = some ctx
          ∧ ctx.extradata_size = toI32 (configBytes (s.log.drop n)))

/-- The freshly constructed component with one encoded item followed by a
configuration fragment of four bytes on the input port, and one item on the
output port. -/
def sampleLateStart : State :=
  { sampleInit with
    inQueue := [some (sampleItem 3 0 [9, 9]), some sampleFrag4],
    outQueue := [some (sampleItem 10 0 [])] }

/-- The state of `sampleLateStart` after the first turn of the main loop under
`sampleEnvAgain`: the decoder open, the encoded item consumed, the
configuration fragment at the head of the input queue. -/
def sampleLateMid : State := (mainBody sampleEnvAgain 0 sampleLateStart).state

/-- The host queues an encoded item, then a configuration fragment, then an
output item, and drives the component. -/
def sampleLate : List HostEvent :=
  [.step (.queueInput (sampleItem 3 0 [9, 9])), .step (.queueInput sampleFrag4),
   .step (.queueOutput (sampleItem 10 0 [])), .step (.drive 4)]

/-- The host queues two configuration fragments and an encoded item, then an
output item, drives the component, queues one more configuration fragment,
drives again and flushes the input port. -/
def sampleEarly : List HostEvent :=
  [.step (.queueInput sampleFrag12), .step (.queueInput sampleFrag4),
   .step (.queueInput (sampleItem 3 0 [9, 9])), .step (.queueOutput (sampleItem 10 0 [])),
   .step (.drive 5), .step (.queueInput sampleFrag4), .step (.drive 5), .flush 0]

@[simp] theorem Res.state_ok {α : Type} (a : α) (s : State) : (Res.ok a s).state = s := rfl

@[simp] theorem Res.state_fault {α : Type} (f : Fault) (s : State) :
    (Res.fault f s : Res α).state = s := rfl

@[simp] theorem Res.state_timeout {α : Type} (s : State) :
    (Res.timeout s : Res α).state = s := rfl

@[simp] theorem Res.bind_ok {α β : Type} (a : α) (s : State) (k : α → State → Res β) :
    (Res.ok a s).bind k = k a s := rfl

@[simp] theorem Res.bind_fault {α β : Type} (f : Fault) (s : State) (k : α → State → Res β) :
    (Res.fault f s : Res α).bind k = .fault f s := rfl

@[simp] theorem Res.bind_timeout {α β : Type} (s : State) (k : α → State → Res β) :
    (Res.timeout s : Res α).bind k = .timeout s := rfl

/-! ## The guards of the drive step (C7) -/

/-- C7. `onQueueFilled` returns with the whole state unchanged, the log
included (so no call into the decoder and no notification), whenever at entry
the error latch is set, a port settings change is pending, the end-of-stream
status is `OUTPUT_FRAMES_FLUSHED`, the output queue is empty, or the input
queue is empty while the status is `INPUT_DATA_AVAILABLE`. -/
theorem onQueueFilled_noop (env : Env) (fuel : Nat) (s : State)
    (h : s.mSignalledError = true ∨ s.mOutputPortSettingsChange ≠ .NONE
      ∨ s.mEOSStatus = .OUTPUT_FRAMES_FLUSHED ∨ s.outQueue = []
      ∨ (s.inQueue = [] ∧ s.mEOSStatus = .INPUT_DATA_AVAILABLE)) :
    onQueueFilled env fuel s = .ok () s := by
  unfold onQueueFilled
  by_cases h1 : s.mSignalledError = true ∨ s.mOutputPortSettingsChange ≠ .NONE
  · rw [if_pos h1]
  · rw [if_neg h1]
    by_cases h2 : s.mEOSStatus = .OUTPUT_FRAMES_FLUSHED
    · rw [if_pos h2]
    · rw [if_neg h2]
      have hc : ¬ mainCond s := by
        unfold mainCond
        rcases h with h | h | h | h | ⟨h, h'⟩
        · exact absurd (Or.inl h) h1
        · exact absurd (Or.inr h) h1
        · exact absurd h h2
        · simp [h]
        · simp [h, h']
      cases fuel <;> simp [mainLoop, hc]

/-- Witness of C7: the freshly constructed component has empty queues. -/
theorem onQueueFilled_noop_witness :
    sampleInit.outQueue = [] ∧ onQueueFilled sampleEnv 5 sampleInit = .ok () sampleInit :=
  ⟨rfl, onQueueFilled_noop sampleEnv 5 sampleInit (Or.inr (Or.inr (Or.inr (Or.inl rfl))))⟩

/-! ## Idempotence of `openDecoder` (C10) -/

/-- C10. When a call of `openDecoder` has returned `ERR_OK`, the next call,
under any behaviour of the libraries, returns `ERR_OK` and leaves the whole
state unchanged, the log included: it calls `avcodec_open2` no more.  When the
codec was closed before the first call, the two calls together have called
`avcodec_open2` exactly once. -/
theorem openDecoder_idempotent (env env2 : Env) (s s1 : State)
    (h : openDecoder env s = .ok ERR_OK s1) :
    openDecoder env2 s1 = .ok ERR_OK s1
      ∧ (s.mCodecAlreadyOpened = false →
          codecOpens (openDecoder env2 s1).state.log = codecOpens s.log + 1) := by
  unfold openDecoder at h
  by_cases ho : s.mCodecAlreadyOpened = true
  · simp [ho] at h
    subst h
    simp [openDecoder, ho]
  · simp [ho] at h
    split at h
    · simp at h
    · rename_i ctx hctx
      split at h
      · simp [ERR_OK, ERR_CODEC_NOT_FOUND] at h
      · unfold openFound at h
        simp only [] at h
        split at h
        · simp [ERR_OK, ERR_DECODER_OPEN_FAILED] at h
        · split at h
          · simp [ERR_OK, ERR_OOM] at h
          · simp at h
            subst h
            simp [openDecoder, State.emit, List.count_append, codecOpens]

/-- Witness of C10: opening the freshly constructed component. -/
theorem openDecoder_idempotent_witness :
    openDecoder sampleEnv sampleInit = .ok ERR_OK (openDecoder sampleEnv sampleInit).state
      ∧ openDecoder sampleEnv (openDecoder sampleEnv sampleInit).state
          = .ok ERR_OK (openDecoder sampleEnv sampleInit).state :=
  ⟨by decide, (openDecoder_idempotent sampleEnv sampleEnv sampleInit _ (by decide)).1⟩

/-! ## Timestamps (C8) -/

theorem filled_append (l1 l2 : List Event) : filled (l1 ++ l2) = filled l1 ++ filled l2 := by
  simp [filled]

/-- C8. The output item `drainOneOutputBuffer` emits never carries the unknown
timestamp: its `nTimeStamp` is zero when the selected timestamp of the frame
is `AV_NOPTS_VALUE` and is the selected timestamp otherwise, the selected
timestamp being the best-effort one when the build has it
(`decoder_reorder_pts` is -1).  The item `drainEOSOutputBuffer` emits has
`nTimeStamp` zero. -/
theorem output_timestamp_known (env : Env) (s : State) (outInfo : BufferInfo)
    (rest : List (Option BufferInfo)) (outHeader : Header) (frame : AVFrame)
    (hq : s.outQueue = some outInfo :: rest) (hh : outInfo.mHeader = some outHeader)
    (hf : s.mFrame = some frame) (hs : env.sws_getCachedContext s.log.length = true) :
    (∃ s1 h1, drainOneOutputBuffer env s = .ok ERR_OK s1
        ∧ filled s1.log = filled s.log
            ++ [{ addr := outInfo.addr, mHeader := some h1, mOwnedByUs := false }]
        ∧ h1.nTimeStamp ≠ AV_NOPTS_VALUE
        ∧ (selectPts env.LIBAV_CONFIG_H decoder_reorder_pts frame = AV_NOPTS_VALUE →
            h1.nTimeStamp = 0)
        ∧ (selectPts env.LIBAV_CONFIG_H decoder_reorder_pts frame ≠ AV_NOPTS_VALUE →
            h1.nTimeStamp = selectPts env.LIBAV_CONFIG_H decoder_reorder_pts frame)
        ∧ (env.LIBAV_CONFIG_H = false →
            selectPts env.LIBAV_CONFIG_H decoder_reorder_pts frame
              = frame.best_effort_timestamp))
      ∧ (∃ s2 h2, drainEOSOutputBuffer s = .ok () s2
        ∧ filled s2.log = filled s.log
            ++ [{ addr := outInfo.addr, mHeader := some h2, mOwnedByUs := false }]
        ∧ h2.nTimeStamp = 0) := by
  constructor
  · refine ⟨(drainOneOutputBuffer env s).state, fillHeader env s frame outHeader,
      ?_, ?_, ?_, ?_, ?_, ?_⟩
    · simp [drainOneOutputBuffer, hq, hh, hf, hs]
    · simp [drainOneOutputBuffer, hq, hh, hf, hs, releaseOutput, State.emit, filled,
        Event.filledItem]
    · simp only [fillHeader, normalizePts]
      split
      · simp [AV_NOPTS_VALUE]
      · assumption
    · intro h
      simp [fillHeader, normalizePts, h]
    · intro h
      simp [fillHeader, normalizePts, h]
    · intro h
      simp [selectPts, h, decoder_reorder_pts]
  · refine ⟨(drainEOSOutputBuffer s).state, eosHeader outHeader, ?_, ?_, ?_⟩
    · simp [drainEOSOutputBuffer, hq, hh]
    · simp [drainEOSOutputBuffer, hq, hh, releaseOutput, State.emit, filled,
        Event.filledItem]
    · simp [eosHeader]

/-- Witness of C8: a frame without any timestamp is emitted with timestamp 0. -/
theorem output_timestamp_known_witness :
    filled (drainOneOutputBuffer sampleEnv sampleNoPts).state.log
      = [{ addr := 10, mOwnedByUs := false,
           mHeader := some { pBuffer := [], nFilledLen := 152064, nOffset := 0,
                             nFlags := 32, nTimeStamp := 0 } }]
    ∧ ∃ s1 h1, drainOneOutputBuffer sampleEnv sampleNoPts = .ok ERR_OK s1
        ∧ filled s1.log = filled sampleNoPts.log
            ++ [{ addr := 10, mHeader := some h1, mOwnedByUs := false }]
        ∧ h1.nTimeStamp ≠ AV_NOPTS_VALUE := by
  refine ⟨by decide, ?_⟩
  obtain ⟨⟨s1, h1, e1, e2, e3, _⟩, _⟩ :=
    output_timestamp_known sampleEnv sampleNoPts (sampleItem 10 0 []) [] _ _ rfl rfl rfl rfl
  exact ⟨s1, h1, e1, e2, e3⟩

/-! ## Output layout (C9) -/

theorem toI32_of_lt (n : Nat) (h : n < 2 ^ 31) : toI32 (n : Int) = n := by
  unfold toI32
  omega

theorem planarLayout_of_even (w h : Nat) (hw : w % 2 = 0) (hh : h % 2 = 0)
    (hsize : w * h * 3 < 2 ^ 32) (hw31 : w < 2 ^ 31) :
    planarLayout w h 0 (planeOffset1 w h) (planeOffset2 w h) (filledLen w h)
      (toI32 w) (toI32 (w / 2 : Nat)) (toI32 (w / 2 : Nat)) := by
  obtain ⟨a, rfl⟩ : ∃ a, w = 2 * a := ⟨w / 2, by omega⟩
  obtain ⟨b, rfl⟩ : ∃ b, h = 2 * b := ⟨h / 2, by omega⟩
  have ha : 2 * a / 2 = a := by omega
  have hb : 2 * b / 2 = b := by omega
  have e : 2 * a * (2 * b) = 4 * (a * b) := by ring
  have hl1 : toI32 ((a : Nat) : Int) = ((a : Nat) : Int) := toI32_of_lt _ (by omega)
  have hl0 : toI32 ((2 * a : Nat) : Int) = ((2 * a : Nat) : Int) := toI32_of_lt _ hw31
  have hm : 4 * (a * b) * 3 < 2 ^ 32 := by rw [← e]; exact hsize
  unfold planarLayout planeOffset2 planeOffset1 filledLen
  rw [ha, hb, e]
  clear hsize e ha hb hw hh
  generalize a * b = m at *
  have h1 : 4 * m % 2 ^ 32 = 4 * m := Nat.mod_eq_of_lt (by omega)
  have h2 : 4 * m * 3 % 2 ^ 32 = 4 * m * 3 := Nat.mod_eq_of_lt hm
  rw [h1, h2]
  refine ⟨Eq.refl _, Eq.refl _, ?_, ?_, ?_, hl0, hl1, hl1⟩
  · omega
  · omega
  · omega

/-- C9, counterexample. At the negotiated geometry 3 by 3 `drainOneOutputBuffer`
hands the converter the plane offsets 0, 9 and 11 and fills in a length of 13,
which is not the planar 4:2:0 layout: the first chroma plane of one byte ends at
offset 10 and the three planes hold 11 bytes. -/
theorem planar_layout_odd_counterexample :
    (drainOneOutputBuffer sampleEnv sampleOdd).state.log = sampleOdd.log ++
      [.call (.sws_getCachedContext 352 288 0), .call (.sws_scale 0 9 11 3 1 1),
       .fillBufferDone
         { addr := 10, mOwnedByUs := false,
           mHeader := some { pBuffer := [], nFilledLen := 13, nOffset := 0,
                             nFlags := 32, nTimeStamp := 7 } }]
    ∧ ¬ planarLayout 3 3 0 9 11 13 3 1 1 := by
  refine ⟨by decide, ?_⟩
  simp [planarLayout]

/-- C9, amended. For an even negotiated width and height with
`w * h * 3 < 2 ^ 32` and `w < 2 ^ 31`, `drainOneOutputBuffer` hands the
converter destination planes in the planar 4:2:0 layout and emits the output
item with `nOffset` zero and `nFilledLen` the size of that layout. -/
theorem planar_layout_even (env : Env) (s : State) (outInfo : BufferInfo)
    (rest : List (Option BufferInfo)) (outHeader : Header) (frame : AVFrame)
    (hq : s.outQueue = some outInfo :: rest) (hh : outInfo.mHeader = some outHeader)
    (hf : s.mFrame = some frame) (hs : env.sws_getCachedContext s.log.length = true)
    (hw : outputBufferWidth s % 2 = 0) (hh2 : outputBufferHeight s % 2 = 0)
    (hsize : outputBufferWidth s * outputBufferHeight s * 3 < 2 ^ 32)
    (hw31 : outputBufferWidth s < 2 ^ 31) :
    ∃ s1 h1 off0 off1 off2 l0 l1 l2,
      drainOneOutputBuffer env s = .ok ERR_OK s1
      ∧ s1.log = s.log ++
          [.call (.sws_getCachedContext frame.width frame.height frame.format),
           .call (.sws_scale off0 off1 off2 l0 l1 l2),
           .fillBufferDone { addr := outInfo.addr, mHeader := some h1, mOwnedByUs := false }]
      ∧ h1.nOffset = 0
      ∧ planarLayout (outputBufferWidth s) (outputBufferHeight s) off0 off1 off2
          h1.nFilledLen l0 l1 l2 := by
  refine ⟨(drainOneOutputBuffer env s).state, fillHeader env s frame outHeader, 0,
    planeOffset1 (outputBufferWidth s) (outputBufferHeight s),
    planeOffset2 (outputBufferWidth s) (outputBufferHeight s),
    toI32 (outputBufferWidth s), toI32 (outputBufferWidth s / 2 : Nat),
    toI32 (outputBufferWidth s / 2 : Nat), ?_, ?_, ?_, ?_⟩
  · simp [drainOneOutputBuffer, hq, hh, hf, hs]
  · simp [drainOneOutputBuffer, hq, hh, hf, hs, releaseOutput, State.emit]
  · simp [fillHeader]
  · have hlen : (fillHeader env s frame outHeader).nFilledLen
        = filledLen (outputBufferWidth s) (outputBufferHeight s) := rfl
    rw [hlen]
    exact planarLayout_of_even _ _ hw hh2 hsize hw31

/-- Witness of C9: the default geometry of 352 by 288. -/
theorem planar_layout_even_witness :
    outputBufferWidth sampleEven * outputBufferHeight sampleEven * 3 < 2 ^ 32
    ∧ ∃ s1 h1 off0 off1 off2 l0 l1 l2,
      drainOneOutputBuffer sampleEnv sampleEven = .ok ERR_OK s1
      ∧ s1.log = sampleEven.log ++
          [.call (.sws_getCachedContext sampleFrame.width sampleFrame.height
             sampleFrame.format),
           .call (.sws_scale off0 off1 off2 l0 l1 l2),
           .fillBufferDone
             { addr := (sampleItem 10 0 []).addr, mHeader := some h1,
               mOwnedByUs := false }]
      ∧ h1.nOffset = 0
      ∧ planarLayout (outputBufferWidth sampleEven) (outputBufferHeight sampleEven)
          off0 off1 off2 h1.nFilledLen l0 l1 l2 :=
  ⟨by decide, planar_layout_even sampleEnv sampleEven (sampleItem 10 0 []) [] _
    sampleFrame rfl rfl rfl rfl (by decide) (by decide) (by decide) (by decide)⟩

/-! ## Extradata (C2) -/

theorem reallocBlock_length (junk : Nat → Nat) (old : List Nat) (n : Nat) :
    (reallocBlock junk old n).length = n := by
  simp [reallocBlock]

theorem reallocBlock_take (junk : Nat → Nat) (old : List Nat) (n k : Nat)
    (h1 : k ≤ old.length) (h2 : k ≤ n) :
    (reallocBlock junk old n).take k = old.take k := by
  apply List.ext_getElem
  · simp [reallocBlock, List.length_take, h1, h2]
  · intro i hi1 hi2
    simp only [List.length_take, reallocBlock_length] at hi1
    simp only [List.length_take] at hi2
    have hi : i < old.length := by omega
    simp [reallocBlock, List.getElem_take, List.getD_eq_getElem?_getD, hi]

theorem payload_length (h : Header) (hwf : h.nOffset + h.nFilledLen ≤ h.pBuffer.length) :
    h.payload.length = h.nFilledLen := by
  simp [Header.payload]
  omega

theorem toI32_of_nonneg_lt (x : Int) (h0 : 0 ≤ x) (h : x < 2 ^ 31) : toI32 x = x := by
  unfold toI32
  omega

theorem take_length_le {α : Type} (l P : List α) (h : l.take P.length = P) :
    P.length ≤ l.length := by
  have := congrArg List.length h
  simp [List.length_take] at this
  omega

theorem writeAt_block (junk : Nat → Nat) (old P src : List Nat) (pad : Nat)
    (hP : old.take P.length = P) :
    writeAt (writeAt (reallocBlock junk old (P.length + src.length + pad)) P.length src)
        (P.length + src.length) (List.replicate pad 0)
      = P ++ src ++ List.replicate pad 0 := by
  have hle := take_length_le old P hP
  have h1 : (reallocBlock junk old (P.length + src.length + pad)).take P.length = P := by
    rw [reallocBlock_take _ _ _ _ hle (by omega), hP]
  have h2 : (writeAt (reallocBlock junk old (P.length + src.length + pad)) P.length src).take
      (P.length + src.length) = P ++ src := by
    unfold writeAt
    rw [h1, List.take_append_eq_append_take]
    simp
  have h3 : (writeAt (reallocBlock junk old (P.length + src.length + pad)) P.length src).length
      = P.length + src.length + pad := by
    unfold writeAt
    rw [h1]
    simp [reallocBlock_length]
    omega
  rw [writeAt, h2, List.drop_eq_nil_of_le]
  · simp
  · rw [h3]
    simp

theorem appendExtradata_ok (env : Env) (ctx : AVCodecContext) (h : Header) (s : State)
    (P : List Nat) (halloc : env.realloc s.log.length = true)
    (hwf : h.nOffset + h.nFilledLen ≤ h.pBuffer.length)
    (hsize : ctx.extradata_size = (P.length : Int))
    (hP : (ctx.extradata.getD []).take P.length = P)
    (hbound : P.length + h.nFilledLen + env.AV_INPUT_BUFFER_PADDING_SIZE < 2 ^ 31) :
    appendExtradata env ctx h s = .ok (some ())
      { s.emit (.call (.realloc
          ((P.length + h.nFilledLen + env.AV_INPUT_BUFFER_PADDING_SIZE : Nat) : Int))) with
        mCtx := some { ctx with
          extradata_size := ((P ++ h.payload).length : Nat),
          extradata := some (P ++ h.payload
            ++ List.replicate env.AV_INPUT_BUFFER_PADDING_SIZE 0) } } := by
  have hpl := payload_length h hwf
  have e1 : toI32 ((P.length : Int) + (h.nFilledLen : Int))
      = (P.length : Int) + (h.nFilledLen : Int) := by
    rw [toI32_of_nonneg_lt] <;> omega
  have e2 : toI32 ((P.length : Int) + (h.nFilledLen : Int)
        + (env.AV_INPUT_BUFFER_PADDING_SIZE : Int))
      = (P.length : Int) + (h.nFilledLen : Int) + (env.AV_INPUT_BUFFER_PADDING_SIZE : Int) := by
    rw [toI32_of_nonneg_lt] <;> omega
  have e3 : ((P.length : Int) + (h.nFilledLen : Int)
        + (env.AV_INPUT_BUFFER_PADDING_SIZE : Int)).toNat
      = P.length + h.nFilledLen + env.AV_INPUT_BUFFER_PADDING_SIZE := by omega
  have e4 : ((P.length : Int) + (h.nFilledLen : Int)).toNat = P.length + h.nFilledLen := by
    omega
  have hblock := writeAt_block (env.junk s.log.length) (ctx.extradata.getD []) P h.payload
    env.AV_INPUT_BUFFER_PADDING_SIZE hP
  rw [hpl] at hblock
  have hlen1 : (writeAt (reallocBlock (env.junk s.log.length) (ctx.extradata.getD [])
      (P.length + h.nFilledLen + env.AV_INPUT_BUFFER_PADDING_SIZE)) P.length h.payload).length
      = P.length + h.nFilledLen + env.AV_INPUT_BUFFER_PADDING_SIZE := by
    have hle := take_length_le _ P hP
    simp [writeAt, reallocBlock_length, hpl]
    omega
  unfold appendExtradata
  simp only [hsize, e1, e2, e3, e4, halloc, Int.toNat_ofNat, reallocBlock_length, hlen1,
    hblock]
  rw [if_neg (by simp; omega), if_pos ⟨hwf, by omega, by omega⟩, if_pos ⟨by omega, by omega⟩]
  simp [hpl]

theorem handleExtradata_ok (env : Env) (s : State) (ctx : AVCodecContext)
    (info : BufferInfo) (rest : List (Option BufferInfo)) (P : List Nat)
    (hq : s.inQueue = some info :: rest) (hctx : s.mCtx = some ctx)
    (hready : s.mExtradataReady = false) (hign : s.mIgnoreExtradata = false)
    (halloc : env.realloc s.log.length = true) (hwf : payloadInBuffer info)
    (hsize : ctx.extradata_size = (P.length : Int))
    (hP : (ctx.extradata.getD []).take P.length = P)
    (hbound : P.length + totalFilled [info] + env.AV_INPUT_BUFFER_PADDING_SIZE < 2 ^ 31) :
    ∃ s1, handleExtradata env s = .ok ERR_OK s1
      ∧ s1.inQueue = rest ∧ s1.mExtradataReady = false ∧ s1.mIgnoreExtradata = false
      ∧ s1.mCtx = some { ctx with
          extradata_size := ((P ++ itemPayload info).length : Nat),
          extradata := some (P ++ itemPayload info
            ++ List.replicate env.AV_INPUT_BUFFER_PADDING_SIZE 0) } := by
  obtain ⟨h, hh, hin⟩ := hwf
  have hb : P.length + h.nFilledLen + env.AV_INPUT_BUFFER_PADDING_SIZE < 2 ^ 31 := by
    simpa [totalFilled, hh] using hbound
  have e := appendExtradata_ok env ctx h s P halloc hin hsize hP hb
  refine ⟨(handleExtradata env s).state, ?_, ?_, ?_, ?_, ?_⟩ <;>
    simp [handleExtradata, hq, hctx, hready, hign, hh, e, releaseInput, State.emit,
      itemPayload]

theorem handleExtradataTimes_ok (env : Env) (halloc : ∀ k, env.realloc k = true)
    (frags : List BufferInfo) :
    ∀ (s : State) (ctx : AVCodecContext) (rest : List (Option BufferInfo)) (P : List Nat),
      s.inQueue = frags.map some ++ rest → s.mCtx = some ctx →
      s.mExtradataReady = false → s.mIgnoreExtradata = false →
      (∀ info ∈ frags, payloadInBuffer info) →
      ctx.extradata_size = (P.length : Int) →
      (ctx.extradata.getD []).take P.length = P →
      P.length + totalFilled frags + env.AV_INPUT_BUFFER_PADDING_SIZE < 2 ^ 31 →
      ∃ s1 ctx1, handleExtradataTimes env frags.length s = .ok ERR_OK s1
        ∧ s1.inQueue = rest ∧ s1.mCtx = some ctx1
        ∧ ctx1.extradata_size = ((P.length + totalFilled frags : Nat) : Int)
        ∧ (frags ≠ [] → ctx1.extradata
            = some (P ++ payloads frags ++ List.replicate env.AV_INPUT_BUFFER_PADDING_SIZE 0)) := by
  induction frags with
  | nil =>
    intro s ctx rest P hq hctx _ _ _ hsize _ _
    exact ⟨s, ctx, rfl, by simpa using hq, hctx, by simpa [totalFilled] using hsize, by simp⟩
  | cons info fs ih =>
    intro s ctx rest P hq hctx hready hign hwf hsize hP hbound
    have hsplit : totalFilled (info :: fs) = totalFilled [info] + totalFilled fs := by
      simp [totalFilled]
    obtain ⟨s1, e1, hq1, hr1, hi1, hc1⟩ := handleExtradata_ok env s ctx info
      (fs.map some ++ rest) P (by simpa using hq) hctx hready hign (halloc _)
      (hwf info (by simp)) hsize hP (by omega)
    have hlen : (itemPayload info).length = totalFilled [info] := by
      obtain ⟨h, hh, hin⟩ := hwf info (by simp)
      simp [itemPayload, totalFilled, hh, payload_length h hin]
    obtain ⟨s2, ctx2, e2, hq2, hc2, hs2, hx2⟩ := ih s1 _ rest (P ++ itemPayload info) hq1 hc1
      hr1 hi1 (fun i hi => hwf i (by simp [hi])) (by simp)
      (by
        show List.take (P ++ itemPayload info).length
            (P ++ itemPayload info ++ List.replicate env.AV_INPUT_BUFFER_PADDING_SIZE 0)
          = P ++ itemPayload info
        exact List.take_left' rfl)
      (by simp only [List.length_append, hlen]; omega)
    refine ⟨s2, ctx2, ?_, hq2, hc2, ?_, ?_⟩
    · simp [handleExtradataTimes, e1, e2]
    · rw [hs2]
      simp only [List.length_append, hlen, hsplit]
      push_cast
      ring
    · intro _
      by_cases hfs : fs = []
      · subst hfs
        simp [handleExtradataTimes] at e2
        subst e2
        rw [hc1] at hc2
        injection hc2 with hc2
        subst hc2
        simp [payloads]
      · rw [hx2 hfs]
        simp [payloads]

/-- C2. Starting from a freshly initialised context (`extradata_size` is 0, as
`initDecoder` leaves it) that has not been opened, with every `realloc`
succeeding and the requested size `s1 + ... + sN + AV_INPUT_BUFFER_PADDING_SIZE`
within the range of `int`, `handleExtradata` called on `N >= 1` configuration
items in turn returns `ERR_OK` each time and leaves in `mCtx->extradata` the
payloads in arrival order followed by `AV_INPUT_BUFFER_PADDING_SIZE` zero
bytes, and in `mCtx->extradata_size` the sum of the payload sizes. -/
theorem extradata_is_concatenation (env : Env) (s : State) (ctx : AVCodecContext)
    (frags : List BufferInfo) (rest : List (Option BufferInfo))
    (hq : s.inQueue = frags.map some ++ rest) (hctx : s.mCtx = some ctx)
    (hzero : ctx.extradata_size = 0)
    (hready : s.mExtradataReady = false) (hign : s.mIgnoreExtradata = false)
    (halloc : ∀ k, env.realloc k = true) (hne : frags ≠ [])
    (hwf : ∀ info ∈ frags, payloadInBuffer info)
    (hbound : totalFilled frags + env.AV_INPUT_BUFFER_PADDING_SIZE < 2 ^ 31) :
    ∃ s1 ctx1, handleExtradataTimes env frags.length s = .ok ERR_OK s1
      ∧ s1.inQueue = rest ∧ s1.mCtx = some ctx1
      ∧ ctx1.extradata
          = some (payloads frags ++ List.replicate env.AV_INPUT_BUFFER_PADDING_SIZE 0)
      ∧ ctx1.extradata_size = (totalFilled frags : Int) := by
  obtain ⟨s1, ctx1, e, hq1, hc1, hs1, hx1⟩ := handleExtradataTimes_ok env halloc frags s ctx
    rest [] hq hctx hready hign hwf (by simpa using hzero) (by simp) (by simpa using hbound)
  refine ⟨s1, ctx1, e, hq1, hc1, ?_, ?_⟩
  · simpa using hx1 hne
  · simpa using hs1

/-- Witness of C2: fragments of 12 and 4 bytes give an `extradata_size` of 16
and the 16 payload bytes followed by 64 zero bytes. -/
theorem extradata_is_concatenation_witness :
    (totalFilled [sampleFrag12, sampleFrag4] = 16
      ∧ payloads [sampleFrag12, sampleFrag4]
          = [1, 2, 3, 4, 5, 6, 7, 8, 9, 10, 11, 12, 13, 14, 15, 16])
    ∧ ∃ s1 ctx1, handleExtradataTimes sampleEnv 2 sampleConfig = .ok ERR_OK s1
      ∧ s1.inQueue = [] ∧ s1.mCtx = some ctx1
      ∧ ctx1.extradata = some (payloads [sampleFrag12, sampleFrag4]
          ++ List.replicate sampleEnv.AV_INPUT_BUFFER_PADDING_SIZE 0)
      ∧ ctx1.extradata_size = (totalFilled [sampleFrag12, sampleFrag4] : Int) :=
  ⟨by decide, extradata_is_concatenation sampleEnv sampleConfig
    { blankCtx with codec_id := 27, width := 352, height := 288 }
    [sampleFrag12, sampleFrag4] [] rfl rfl rfl rfl rfl (fun _ => rfl) (by simp)
    (by
      intro info hi
      simp only [List.mem_cons, List.mem_singleton, List.not_mem_nil, or_false] at hi
      rcases hi with rfl | rfl
      · exact ⟨_, rfl, by decide⟩
      · exact ⟨_, rfl, by decide⟩)
    (by decide)⟩

/-! ## Ownership and notifications (C1) -/

theorem Quiet.quietRefl (s : State) : Quiet s s := ⟨rfl, rfl, rfl, rfl⟩

theorem Quiet.quietTrans {a b c : State} (h1 : Quiet a b) (h2 : Quiet b c) : Quiet a c :=
  ⟨h2.1.trans h1.1, h2.2.1.trans h1.2.1, h2.2.2.1.trans h1.2.2.1, h2.2.2.2.trans h1.2.2.2⟩

theorem Quiet.track {s s1 : State} (h : Quiet s s1) : Track s s1 :=
  ⟨[], [], [], by simp [h.1], by simp [h.2.1], by simp [h.2.2.1, present], by simp [h.2.2.2],
    rfl, by simp⟩

theorem Track.trackRefl (s : State) : Track s s := (Quiet.quietRefl s).track

theorem Track.trackTrans {a b c : State} (h1 : Track a b) (h2 : Track b c) : Track a c := by
  obtain ⟨i1, o1, f1, hi1, ho1, he1, hf1, ha1, hd1⟩ := h1
  obtain ⟨i2, o2, f2, hi2, ho2, he2, hf2, ha2, hd2⟩ := h2
  refine ⟨i1 ++ i2, o1 ++ o2, f1 ++ f2, ?_, ?_, ?_, ?_, ?_, ?_⟩
  · rw [hi1, hi2, List.append_assoc]
  · rw [ho1, ho2, List.map_append, List.append_assoc]
  · rw [he2, he1]
    simp [present, List.filterMap_append]
  · rw [hf2, hf1, List.append_assoc]
  · simp [ha1, ha2, List.filter_append]
  · intro i hi
    rcases List.mem_append.1 hi with h | h
    · exact hd1 i h
    · exact hd2 i h

theorem track_releaseInput {s0 s : State} {info : BufferInfo}
    {rest : List (Option BufferInfo)} (h0 : Track s0 s) (hq : s.inQueue = some info :: rest) :
    Track s0 (releaseInput info rest s) := by
  refine h0.trackTrans ⟨[some info], [], [], ?_, ?_, ?_, ?_, rfl, by simp⟩ <;>
    simp [releaseInput, State.emit, hq, emptied, filled, present, Event.emptiedItem,
      Event.filledItem, disown]

theorem track_dropNull {s0 s : State} {rest : List (Option BufferInfo)} (h0 : Track s0 s)
    (hq : s.inQueue = none :: rest) : Track s0 { s with inQueue := rest } := by
  refine h0.trackTrans ⟨[none], [], [], ?_, ?_, ?_, ?_, rfl, by simp⟩ <;> simp [hq, present]

theorem track_releaseOutput {s0 s : State} {info : BufferInfo} (h : Header)
    {rest : List (Option BufferInfo)} (h0 : Track s0 s)
    (hq : s.outQueue = some info :: rest) (hh : info.mHeader.isSome) :
    Track s0 (releaseOutput info h rest s) := by
  refine h0.trackTrans ⟨[], [info],
    [{ info with mHeader := some h, mOwnedByUs := false }], ?_, ?_, ?_, ?_, by simp [hh],
    by simp⟩ <;>
    simp [releaseOutput, State.emit, hq, emptied, filled, present, Event.emptiedItem,
      Event.filledItem]

theorem track_bind {α β : Type} {s0 : State} {r : Res α} {k : α → State → Res β}
    (hr : Track s0 r.state) (hk : ∀ a s1, Track s0 s1 → Track s0 (k a s1).state) :
    Track s0 (r.bind k).state := by
  cases r with
  | ok a s1 => exact hk a s1 hr
  | fault f s1 => exact hr
  | timeout s1 => exact hr

theorem signalError_quiet (s : State) : Quiet s (signalError s) := by
  refine ⟨?_, ?_, ?_, ?_⟩ <;>
    simp [signalError, State.emit, emptied, filled, Event.emptiedItem, Event.filledItem]

theorem appendExtradata_quiet (env : Env) (ctx : AVCodecContext) (h : Header) (s : State) :
    Quiet s (appendExtradata env ctx h s).state := by
  unfold appendExtradata
  simp only []
  split_ifs <;> refine ⟨?_, ?_, ?_, ?_⟩ <;>
    simp [State.emit, emptied, filled, Event.emptiedItem, Event.filledItem]

theorem handleExtradata_track (env : Env) (s : State) :
    Track s (handleExtradata env s).state := by
  unfold handleExtradata
  split
  · exact Track.trackRefl s
  · exact Track.trackRefl s
  · rename_i inInfo rest hq
    split_ifs
    · split
      · exact Track.trackRefl s
      · exact track_releaseInput (Track.trackRefl s) hq
    · split
      · exact Track.trackRefl s
      · exact Track.trackRefl s
      · rename_i ctx inHeader _ _
        have hqt := appendExtradata_quiet env ctx inHeader s
        cases hr : appendExtradata env ctx inHeader s with
        | ok r s1 =>
          rw [hr] at hqt
          cases r with
          | none => exact hqt.track
          | some u => exact track_releaseInput hqt.track (hqt.1.trans hq)
        | fault f s1 => rw [hr] at hqt; exact hqt.track
        | timeout s1 => rw [hr] at hqt; exact hqt.track
    · exact track_releaseInput (Track.trackRefl s) hq

theorem openFound_quiet (env : Env) (ctx : AVCodecContext) (s : State) :
    Quiet s (openFound env ctx s).state := by
  unfold openFound
  simp only []
  split_ifs <;> refine ⟨?_, ?_, ?_, ?_⟩ <;>
    simp [State.emit, emptied, filled, Event.emptiedItem, Event.filledItem]

theorem openDecoder_quiet (env : Env) (s : State) : Quiet s (openDecoder env s).state := by
  unfold openDecoder
  split_ifs
  · exact Quiet.quietRefl s
  · simp only []
    split
    · exact ⟨rfl, rfl, rfl, rfl⟩
    · split_ifs
      · refine ⟨?_, ?_, ?_, ?_⟩ <;>
          simp [State.emit, emptied, filled, Event.emptiedItem, Event.filledItem]
      · refine Quiet.quietTrans ?_ (openFound_quiet env _ _)
        refine ⟨?_, ?_, ?_, ?_⟩ <;>
          simp [State.emit, emptied, filled, Event.emptiedItem, Event.filledItem]

theorem headInfo_of_quiet {s s1 : State} (h : Quiet s s1) : headInfo s1 = headInfo s := by
  simp [headInfo, h.1]

theorem decodeFinish_track {s0 s : State} (inInfo : Option BufferInfo) (ret : Int)
    (h0 : Track s0 s) (hi : inInfo = headInfo s) :
    Track s0 (decodeFinish inInfo ret s).state := by
  unfold decodeFinish
  split
  · exact h0
  · rename_i e rest hq
    have he : inInfo = e := by simp [hi, headInfo, hq]
    split
    · exact track_dropNull h0 (by rw [hq, ← he])
    · exact track_releaseInput h0 (by rw [hq, ← he])

theorem decodeNoPic_track {s0 s : State} (inInfo : Option BufferInfo)
    (inHeader : Option Header) (h0 : Track s0 s) (hi : inInfo = headInfo s) :
    Track s0 (decodeNoPic inInfo inHeader s).state := by
  unfold decodeNoPic
  split_ifs
  · split
    · exact h0
    · split_ifs
      · exact decodeFinish_track _ _ h0 hi
      · split
        · exact h0
        · split_ifs <;> exact decodeFinish_track _ _ h0 hi
  · split
    · exact h0
    · split_ifs <;> exact decodeFinish_track _ _ h0 hi

theorem decodeReceive_track (env : Env) (ctx : AVCodecContext) {s0 s : State}
    (inInfo : Option BufferInfo) (inHeader : Option Header) (h0 : Track s0 s)
    (hi : inInfo = headInfo s) :
    Track s0 (decodeReceive env ctx inInfo inHeader s).state := by
  have key : ∀ s1 ret, Quiet s s1 → Track s0 (decodeFinish inInfo ret s1).state :=
    fun s1 ret hq => decodeFinish_track _ _ (h0.trackTrans hq.track)
      (by rw [headInfo_of_quiet hq]; exact hi)
  have key2 : ∀ s1, Quiet s s1 → Track s0 (decodeNoPic inInfo inHeader s1).state :=
    fun s1 hq => decodeNoPic_track _ _ (h0.trackTrans hq.track)
      (by rw [headInfo_of_quiet hq]; exact hi)
  unfold decodeReceive
  split
  · exact h0
  · simp only []
    split_ifs <;>
      first
        | (apply key
           simp [Quiet, State.emit, emptied, filled, Event.emptiedItem, Event.filledItem])
        | (apply key2
           simp [Quiet, State.emit, emptied, filled, Event.emptiedItem, Event.filledItem])

theorem decodeSend_track (env : Env) {s0 s : State} (inInfo : Option BufferInfo)
    (inHeader : Option Header) (h0 : Track s0 s) (hi : inInfo = headInfo s) :
    Track s0 (decodeSend env inInfo inHeader s).state := by
  have key : ∀ ctx s1, Quiet s s1 → Track s0 (decodeReceive env ctx inInfo inHeader s1).state :=
    fun ctx s1 hq => decodeReceive_track env ctx _ _ (h0.trackTrans hq.track)
      (by rw [headInfo_of_quiet hq]; exact hi)
  have key0 : ∀ s1, Quiet s s1 → Track s0 s1 := fun s1 hq => h0.trackTrans hq.track
  unfold decodeSend
  simp only []
  split_ifs <;> (try split) <;>
    first
      | (apply key0
         simp [Quiet, State.emit, emptied, filled, Event.emptiedItem, Event.filledItem]
         done)
      | (apply key
         simp [Quiet, State.emit, emptied, filled, Event.emptiedItem, Event.filledItem])

theorem decodeVideo_track (env : Env) (s : State) : Track s (decodeVideo env s).state := by
  unfold decodeVideo
  simp only []
  split_ifs
  · split
    · exact Track.trackRefl s
    · split_ifs
      · exact Track.trackRefl s
      · exact decodeSend_track env _ _ (Track.trackRefl s) rfl
  · exact decodeSend_track env _ _ (Track.trackRefl s) rfl

theorem drainOneOutputBuffer_track (env : Env) (s : State) :
    Track s (drainOneOutputBuffer env s).state := by
  unfold drainOneOutputBuffer
  split
  · exact Track.trackRefl s
  · exact Track.trackRefl s
  · rename_i outInfo rest hq
    split
    · exact Track.trackRefl s
    · exact Track.trackRefl s
    · rename_i outHeader frame hh hf
      simp only []
      split_ifs
      · refine Quiet.track ⟨?_, ?_, ?_, ?_⟩ <;>
          simp [State.emit, emptied, filled, Event.emptiedItem, Event.filledItem]
      · refine track_releaseOutput _ (Quiet.track ?_) ?_ (by simp [hh])
        · refine ⟨?_, ?_, ?_, ?_⟩ <;>
            simp [State.emit, emptied, filled, Event.emptiedItem, Event.filledItem]
        · simpa [State.emit] using hq

theorem drainEOSOutputBuffer_track (s : State) : Track s (drainEOSOutputBuffer s).state := by
  unfold drainEOSOutputBuffer
  split
  · exact Track.trackRefl s
  · exact Track.trackRefl s
  · rename_i outInfo rest hq
    split
    · rename_i hh
      exact ⟨[], [outInfo], [], by simp, by simp [hq], by simp [present], by simp,
        by simp [hh], by simp⟩
    · rename_i outHeader hh
      refine (track_releaseOutput (eosHeader outHeader) (Track.trackRefl s) hq
        (by simp [hh])).trackTrans (Quiet.track ?_)
      simp [Quiet]

theorem drainAllBody_track (env : Env) (s : State) : Track s (drainAllBody env s).state := by
  unfold drainAllBody
  refine track_bind (decodeVideo_track env s) fun err s1 h1 => ?_
  split_ifs
  · exact h1.trackTrans (signalError_quiet s1).track
  · exact track_bind (h1.trackTrans (drainEOSOutputBuffer_track s1)) fun _ s2 h2 => h2
  · exact h1
  · exact h1
  · refine track_bind (h1.trackTrans (drainOneOutputBuffer_track env s1)) fun r s2 h2 => ?_
    split_ifs
    · exact h2.trackTrans (signalError_quiet s2).track
    · exact h2

theorem drainAllLoop_track (env : Env) (fuel : Nat) :
    ∀ s, Track s (drainAllLoop env fuel s).state := by
  induction fuel with
  | zero =>
    intro s
    unfold drainAllLoop
    split_ifs <;> exact Track.trackRefl s
  | succ n ih =>
    intro s
    unfold drainAllLoop
    split_ifs
    · have hb := drainAllBody_track env s
      split
      · rename_i s1 heq
        rw [heq] at hb
        exact hb.trackTrans (ih s1)
      · rename_i s1 heq
        rw [heq] at hb
        exact hb
      · rename_i f s1 heq
        rw [heq] at hb
        exact hb
      · rename_i s1 heq
        rw [heq] at hb
        exact hb
    · exact Track.trackRefl s

theorem drainAllOutputBuffers_track (env : Env) (fuel : Nat) (s : State) :
    Track s (drainAllOutputBuffers env fuel s).state := by
  unfold drainAllOutputBuffers
  split_ifs
  · refine track_bind (drainEOSOutputBuffer_track s) fun _ s1 h1 => ?_
    exact h1.trackTrans (Quiet.track (by simp [Quiet]))
  · exact drainAllLoop_track env fuel s

theorem handlePortSettingsChange_quiet (s : State) :
    Quiet s (handlePortSettingsChange s).state := by
  unfold handlePortSettingsChange baseHandlePortSettingsChange
  split
  · exact Quiet.quietRefl s
  · split_ifs <;>
      simp [Quiet, State.emit, emptied, filled, Event.emptiedItem, Event.filledItem]

theorem decodeAndDrain_track (env : Env) (s : State) :
    Track s (decodeAndDrain env s).state := by
  unfold decodeAndDrain
  refine track_bind (decodeVideo_track env s) fun err s1 h1 => ?_
  split_ifs
  · exact h1.trackTrans (signalError_quiet s1).track
  · exact track_bind (h1.trackTrans (drainEOSOutputBuffer_track s1)) fun _ s2 h2 => h2
  · exact h1
  · exact h1
  · refine track_bind (h1.trackTrans (handlePortSettingsChange_quiet s1).track) fun p s2 h2 => ?_
    split_ifs
    · exact h2
    · refine track_bind (h2.trackTrans (drainOneOutputBuffer_track env s2)) fun r s3 h3 => ?_
      split_ifs
      · exact h3.trackTrans (signalError_quiet s3).track
      · exact h3

theorem mainItem_track (env : Env) (inHeader : Header) (s : State) :
    Track s (mainItem env inHeader s).state := by
  unfold mainItem
  split_ifs
  · exact Quiet.track (by simp [Quiet])
  · refine track_bind (handleExtradata_track env s) fun r s1 h1 => ?_
    split_ifs
    · exact h1.trackTrans (signalError_quiet s1).track
    · exact h1
  · refine track_bind (openDecoder_quiet env s).track fun r s1 h1 => ?_
    split_ifs
    · exact h1.trackTrans (signalError_quiet s1).track
    · exact h1.trackTrans (decodeAndDrain_track env s1)
  · exact decodeAndDrain_track env s

theorem mainBody_track (env : Env) (fuel : Nat) (s : State) :
    Track s (mainBody env fuel s).state := by
  unfold mainBody
  split_ifs
  · exact track_bind (drainAllOutputBuffers_track env fuel s) fun _ s1 h1 => h1
  · split
    · exact Track.trackRefl s
    · exact Track.trackRefl s
    · split
      · exact Track.trackRefl s
      · exact mainItem_track env _ s

theorem mainLoop_track (env : Env) (fuel : Nat) : ∀ s, Track s (mainLoop env fuel s).state := by
  induction fuel with
  | zero =>
    intro s
    unfold mainLoop
    split_ifs <;> exact Track.trackRefl s
  | succ n ih =>
    intro s
    unfold mainLoop
    split_ifs
    · have hb := mainBody_track env n s
      split
      · rename_i s1 heq
        rw [heq] at hb
        exact hb.trackTrans (ih s1)
      · rename_i s1 heq
        rw [heq] at hb
        exact hb
      · rename_i f s1 heq
        rw [heq] at hb
        exact hb
      · rename_i s1 heq
        rw [heq] at hb
        exact hb
    · exact Track.trackRefl s

theorem onQueueFilled_track (env : Env) (fuel : Nat) (s : State) :
    Track s (onQueueFilled env fuel s).state := by
  unfold onQueueFilled
  split_ifs
  · exact Track.trackRefl s
  · exact Track.trackRefl s
  · exact mainLoop_track env fuel s

theorem present_map_some (l : List BufferInfo) : present (l.map some) = l := by
  simp [present, List.filterMap_map]

theorem eq_map_some_of_nonNull (l : List (Option BufferInfo)) (h : NonNull l) :
    ∃ l1 : List BufferInfo, l = l1.map some ∧ ∀ i ∈ l1, i.mHeader.isSome = true := by
  induction l with
  | nil => exact ⟨[], rfl, by simp⟩
  | cons e l ih =>
    obtain ⟨l1, hl1, hh1⟩ := ih fun e he => h e (List.mem_cons_of_mem _ he)
    obtain ⟨i, hd, he, hh⟩ := h e (List.mem_cons_self _ _)
    refine ⟨i :: l1, by simp [he, hl1], ?_⟩
    intro j hj
    rcases List.mem_cons.1 hj with rfl | hj
    · simp [hh]
    · exact hh1 j hj

theorem nonNull_of_append {a b : List (Option BufferInfo)} (h : NonNull (a ++ b)) : NonNull a :=
  fun e he => h e (List.mem_append_left _ he)

/-- C1. For every state whose port queues hold no null entry, every behaviour
of the decoder and every call of `onQueueFilled`, in the state the call
reaches (on return, and also where it stops short), the items `ein` erased from
the head of the input queue are the items handed to `notifyEmptyBufferDone`
during the call, one notification per item, in the same order and with
`mOwnedByUs` false, and the items `eout` erased from the head of the output
queue are the items `fl` handed to `notifyFillBufferDone` during the call,
one per item, in the same order and with `mOwnedByUs` false. -/
theorem notifications_match_erasures (env : Env) (fuel : Nat) (s : State)
    (hin : NonNull s.inQueue) (hout : NonNull s.outQueue) :
    ∃ ein eout fl : List BufferInfo,
      s.inQueue = ein.map some ++ (onQueueFilled env fuel s).state.inQueue
      ∧ s.outQueue = eout.map some ++ (onQueueFilled env fuel s).state.outQueue
      ∧ emptied (onQueueFilled env fuel s).state.log = emptied s.log ++ ein.map disown
      ∧ filled (onQueueFilled env fuel s).state.log = filled s.log ++ fl
      ∧ fl.map (·.addr) = eout.map (·.addr)
      ∧ (∀ i ∈ ein.map disown ++ fl, i.mOwnedByUs = false) := by
  obtain ⟨ein, eout, fl, hi, ho, he, hf, ha, hd⟩ := onQueueFilled_track env fuel s
  obtain ⟨ein1, rfl, _⟩ := eq_map_some_of_nonNull ein (nonNull_of_append (hi ▸ hin))
  obtain ⟨eout1, heq, hh⟩ := eq_map_some_of_nonNull (eout.map some)
    (nonNull_of_append (ho ▸ hout))
  have heq' : eout = eout1 := by
    have := congrArg present heq
    simpa [present_map_some] using this
  subst heq'
  refine ⟨ein1, eout, fl, hi, ho, ?_, hf, ?_, ?_⟩
  · rw [he, present_map_some]
  · rw [ha, List.filter_eq_self.2 hh]
  · intro i hi'
    rcases List.mem_append.1 hi' with h | h
    · obtain ⟨j, _, rfl⟩ := List.mem_map.1 h
      rfl
    · exact hd i h

theorem nonNull_sampleStream_in : NonNull sampleStream.inQueue := by
  intro e he
  simp only [sampleStream, List.mem_cons, List.mem_singleton, List.not_mem_nil, or_false] at he
  rcases he with rfl | rfl | rfl | rfl <;> exact ⟨_, _, rfl, rfl⟩

theorem nonNull_sampleStream_out : NonNull sampleStream.outQueue := by
  intro e he
  simp only [sampleStream, List.mem_cons, List.mem_singleton, List.not_mem_nil, or_false] at he
  rcases he with rfl | rfl <;> exact ⟨_, _, rfl, rfl⟩

/-- Witness of C1: a call on two configuration fragments, one encoded item and
the end-of-stream item, with two output items, hands back the four input items
and the two output items. -/
theorem notifications_match_erasures_witness :
    ((emptied (onQueueFilled sampleEnv 20 sampleStream).state.log).map (·.addr) = [1, 2, 3, 4]
      ∧ (filled (onQueueFilled sampleEnv 20 sampleStream).state.log).map (·.addr) = [10, 11])
    ∧ ∃ ein eout fl : List BufferInfo,
      sampleStream.inQueue
        = ein.map some ++ (onQueueFilled sampleEnv 20 sampleStream).state.inQueue
      ∧ sampleStream.outQueue
        = eout.map some ++ (onQueueFilled sampleEnv 20 sampleStream).state.outQueue
      ∧ emptied (onQueueFilled sampleEnv 20 sampleStream).state.log
        = emptied sampleStream.log ++ ein.map disown
      ∧ filled (onQueueFilled sampleEnv 20 sampleStream).state.log
        = filled sampleStream.log ++ fl
      ∧ fl.map (·.addr) = eout.map (·.addr)
      ∧ (∀ i ∈ ein.map disown ++ fl, i.mOwnedByUs = false) :=
  ⟨by decide, notifications_match_erasures sampleEnv 20 sampleStream
    nonNull_sampleStream_in nonNull_sampleStream_out⟩

/-! ## Order of the fill-notifications (C3) -/

theorem Still.stillRefl (s : State) : Still s s := ⟨rfl, rfl⟩

theorem Still.stillTrans {a b c : State} (h1 : Still a b) (h2 : Still b c) : Still a c :=
  ⟨h2.1.trans h1.1, h2.2.trans h1.2⟩

theorem Still.calm {s s1 : State} (h : Still s s1) : Calm s s1 :=
  ⟨h.1, [], by simp [h.2], by simp⟩

theorem Calm.calmRefl (s : State) : Calm s s := (Still.stillRefl s).calm

theorem releaseInput_still (info : BufferInfo) (rest : List (Option BufferInfo)) (s : State) :
    Still s (releaseInput info rest s) := by
  simp [Still, releaseInput, State.emit, filled, Event.filledItem]

theorem decodeFinish_still {s0 s : State} (inInfo : Option BufferInfo) (ret : Int)
    (h0 : Still s0 s) : Still s0 (decodeFinish inInfo ret s).state := by
  unfold decodeFinish
  split
  · exact h0
  · split
    · exact h0.stillTrans (by simp [Still])
    · exact h0.stillTrans (releaseInput_still _ _ s)

theorem decodeNoPic_still {s0 s : State} (inInfo : Option BufferInfo)
    (inHeader : Option Header) (h0 : Still s0 s) :
    Still s0 (decodeNoPic inInfo inHeader s).state := by
  unfold decodeNoPic
  split_ifs
  · split
    · exact h0
    · split_ifs
      · exact decodeFinish_still _ _ h0
      · split
        · exact h0
        · split_ifs <;> exact decodeFinish_still _ _ h0
  · split
    · exact h0
    · split_ifs <;> exact decodeFinish_still _ _ h0

theorem decodeReceive_still (env : Env) (ctx : AVCodecContext) {s0 s : State}
    (inInfo : Option BufferInfo) (inHeader : Option Header) (h0 : Still s0 s) :
    Still s0 (decodeReceive env ctx inInfo inHeader s).state := by
  have key : ∀ s1 ret, Still s s1 → Still s0 (decodeFinish inInfo ret s1).state :=
    fun s1 ret hq => decodeFinish_still _ _ (h0.stillTrans hq)
  have key2 : ∀ s1, Still s s1 → Still s0 (decodeNoPic inInfo inHeader s1).state :=
    fun s1 hq => decodeNoPic_still _ _ (h0.stillTrans hq)
  unfold decodeReceive
  split
  · exact h0
  · simp only []
    split_ifs <;>
      first
        | (apply key
           simp [Still, State.emit, filled, Event.filledItem])
        | (apply key2
           simp [Still, State.emit, filled, Event.filledItem])

theorem fillHeader_not_eos (env : Env) (s : State) (frame : AVFrame) (outHeader : Header)
    (info : BufferInfo) :
    ¬ isEosItem { info with mHeader := some (fillHeader env s frame outHeader),
                            mOwnedByUs := false } := by
  rintro ⟨h, hh, _, _, hflags⟩
  simp only [Option.some.injEq] at hh
  subst hh
  simp only [fillHeader] at hflags
  split_ifs at hflags <;> simp [OMX_BUFFERFLAG_EOS, OMX_BUFFERFLAG_SYNCFRAME] at hflags

theorem drainOneOutputBuffer_calm (env : Env) (s : State) :
    Calm s (drainOneOutputBuffer env s).state := by
  unfold drainOneOutputBuffer
  split
  · exact Calm.calmRefl s
  · exact Calm.calmRefl s
  · rename_i outInfo rest hq
    split
    · exact Calm.calmRefl s
    · exact Calm.calmRefl s
    · rename_i outHeader frame hh hf
      simp only []
      split_ifs
      · exact Still.calm (by simp [Still, State.emit, filled, Event.filledItem])
      · refine ⟨by simp [releaseOutput, State.emit],
          [{ outInfo with mHeader := some (fillHeader env s frame outHeader),
                          mOwnedByUs := false }], ?_, ?_⟩
        · simp [releaseOutput, State.emit, filled, Event.filledItem]
        · intro d hd
          rw [List.mem_singleton] at hd
          subst hd
          exact fillHeader_not_eos env s frame outHeader outInfo

theorem onQueueFilled_latched (env : Env) (fuel : Nat) (s : State)
    (hs : s.mSignalledError = true) : onQueueFilled env fuel s = .ok () s := by
  simp [onQueueFilled, hs]

/-- C6. When the main loop of `onQueueFilled` stands at a head input item that
is neither configuration data nor end-of-stream, the codec is closed, and
`avcodec_find_decoder` finds nothing, `openDecoder` returns
`ERR_CODEC_NOT_FOUND` and the call returns having posted one error event and
set `mSignalledError`, both queues untouched and nothing notified; every later
`onQueueFilled` call, whatever the queues then hold, returns with the state
unchanged; and `onReset` then returns with `mSignalledError` false and
`mEOSStatus` equal to `INPUT_DATA_AVAILABLE`. -/
theorem codec_not_found_latches (env : Env) (fuel : Nat) (s : State)
    (ctx : AVCodecContext) (inInfo : BufferInfo) (inHeader : Header)
    (rest : List (Option BufferInfo))
    (hq : s.inQueue = some inInfo :: rest) (hh : inInfo.mHeader = some inHeader)
    (heos : inHeader.nFlags &&& OMX_BUFFERFLAG_EOS = 0)
    (hcfg : inHeader.nFlags &&& OMX_BUFFERFLAG_CODECCONFIG = 0)
    (hout : s.outQueue ≠ []) (hst : s.mEOSStatus = .INPUT_DATA_AVAILABLE)
    (hclosed : s.mCodecAlreadyOpened = false) (hctx : s.mCtx = some ctx)
    (hnf : env.avcodec_find_decoder s.log.length ctx.codec_id = none) :
    (∃ s1, openDecoder env s = .ok ERR_CODEC_NOT_FOUND s1)
    ∧ mainLoop env (fuel + 1) s = .ok () (codecNotFoundState s ctx)
    ∧ (s.mSignalledError = false → s.mOutputPortSettingsChange = .NONE →
        onQueueFilled env (fuel + 1) s = .ok () (codecNotFoundState s ctx))
    ∧ (codecNotFoundState s ctx).log
        = s.log ++ [.call (.avcodec_find_decoder ctx.codec_id), .eventError]
    ∧ (codecNotFoundState s ctx).mSignalledError = true
    ∧ (codecNotFoundState s ctx).inQueue = s.inQueue
    ∧ (codecNotFoundState s ctx).outQueue = s.outQueue
    ∧ (∀ (env2 : Env) (fuel2 : Nat) (qin qout : List (Option BufferInfo)),
        onQueueFilled env2 fuel2 { codecNotFoundState s ctx with inQueue := qin, outQueue := qout }
          = .ok () { codecNotFoundState s ctx with inQueue := qin, outQueue := qout })
    ∧ (∀ (env2 : Env) (qin qout : List (Option BufferInfo)),
        ∃ s2, onReset env2 { codecNotFoundState s ctx with inQueue := qin, outQueue := qout }
          = .ok () s2
          ∧ s2.mSignalledError = false ∧ s2.mEOSStatus = .INPUT_DATA_AVAILABLE) := by
  have hopen : openDecoder env s = .ok ERR_CODEC_NOT_FOUND
      ({ s with mExtradataReady := true, mCtx := some { ctx with codec := none } }.emit
        (.call (.avcodec_find_decoder ctx.codec_id))) := by
    simp [openDecoder, hclosed, hctx, hnf, State.emit]
  have hcond : mainCond s := by
    simp [mainCond, hq, hout]
  have hbody : mainBody env fuel s = .ok false (codecNotFoundState s ctx) := by
    simp [mainBody, hst, hq, hh, mainItem, heos, hcfg, hclosed, hopen, codecNotFoundState,
      ERR_CODEC_NOT_FOUND, ERR_OK]
  have hloop : mainLoop env (fuel + 1) s = .ok () (codecNotFoundState s ctx) := by
    simp [mainLoop, hcond, hbody]
  refine ⟨⟨_, hopen⟩, hloop, ?_, ?_, ?_, ?_, ?_, ?_, ?_⟩
  · intro herr hpsc
    simp [onQueueFilled, herr, hpsc, hst, hloop]
  · simp [codecNotFoundState, signalError, State.emit]
  · simp [codecNotFoundState, signalError]
  · simp [codecNotFoundState, signalError, State.emit]
  · simp [codecNotFoundState, signalError, State.emit]
  · intro env2 fuel2 qin qout
    exact onQueueFilled_latched env2 fuel2 _ (by simp [codecNotFoundState, signalError])
  · intro env2 qin qout
    refine ⟨(onReset env2
      { codecNotFoundState s ctx with inQueue := qin, outQueue := qout }).state, ?_, ?_, ?_⟩ <;>
      simp [onReset, codecNotFoundState, signalError, State.emit]

/-- Witness of C6: the first drive step on an encoded item when no decoder
exists. -/
theorem codec_not_found_latches_witness :
    sampleEnvNoCodec.avcodec_find_decoder sampleData.log.length sampleCtx.codec_id = none
    ∧ onQueueFilled sampleEnvNoCodec 1 sampleData
        = .ok () (codecNotFoundState sampleData sampleCtx)
    ∧ filled (codecNotFoundState sampleData sampleCtx).log = []
    ∧ (codecNotFoundState sampleData sampleCtx).mSignalledError = true :=
  ⟨rfl,
   (codec_not_found_latches sampleEnvNoCodec 0 sampleData sampleCtx (sampleItem 3 0 [9, 9])
      _ _ rfl rfl (by decide) (by decide) (by decide) rfl rfl rfl rfl).2.2.1 rfl rfl,
   by decide, rfl⟩

/-! ## Termination (C5) -/

theorem stuck_drainAllBody (env : Env) (s : State) (h : Stuck s)
    (herr : ∀ k, (env.avcodec_receive_frame k).err < 0
      ∧ (env.avcodec_receive_frame k).err ≠ AVERROR_EAGAIN)
    (halloc : ∀ k, env.av_packet_alloc k = true) :
    ∃ s1, drainAllBody env s = .ok true s1 ∧ Stuck s1 := by
  obtain ⟨h1, h2, h3, h4, h5, h6⟩ := h
  obtain ⟨ctx, hctx⟩ : ∃ ctx, s.mCtx = some ctx := by
    cases hc : s.mCtx with
    | none => simp [capDelay, hc] at h5
    | some ctx => exact ⟨ctx, rfl⟩
  obtain ⟨frame, hframe⟩ := Option.isSome_iff_exists.1 h6
  obtain ⟨c, hcodec, hcap⟩ : ∃ c, ctx.codec = some c
      ∧ c.capabilities &&& AV_CODEC_CAP_DELAY ≠ 0 := by
    cases hc : ctx.codec with
    | none => simp [capDelay, hctx, hc] at h5
    | some c => exact ⟨c, rfl, by simpa [capDelay, hctx, hc] using h5⟩
  have e : drainAllBody env s = .ok true (drainAllBody env s).state := by
    cases hp : s.mPacket <;>
      simp [drainAllBody, decodeVideo, headHeader, headInfo, h1, h3, decodeSend, halloc,
        hctx, State.emit, decodeReceive, hframe, herr, decodeFinish, ERR_NO_FRM, ERR_OK,
        ERR_FLUSHED, hp, capDelay, hcodec, hcap]
  refine ⟨(drainAllBody env s).state, e, ?_⟩
  cases hp : s.mPacket <;>
    simp [drainAllBody, decodeVideo, headHeader, headInfo, h1, h3, decodeSend, halloc,
      hctx, State.emit, decodeReceive, hframe, herr, decodeFinish, ERR_NO_FRM, ERR_OK,
      ERR_FLUSHED, Stuck, h2, h4, hp, capDelay, hcodec, hcap]

theorem stuck_drainAllLoop (env : Env)
    (herr : ∀ k, (env.avcodec_receive_frame k).err < 0
      ∧ (env.avcodec_receive_frame k).err ≠ AVERROR_EAGAIN)
    (halloc : ∀ k, env.av_packet_alloc k = true) (fuel : Nat) :
    ∀ s, Stuck s → ∃ s1, drainAllLoop env fuel s = .timeout s1 := by
  induction fuel with
  | zero =>
    intro s h
    exact ⟨s, by simp [drainAllLoop, h.2.2.2.1]⟩
  | succ n ih =>
    intro s h
    obtain ⟨s1, e1, h1⟩ := stuck_drainAllBody env s h herr halloc
    obtain ⟨s2, e2⟩ := ih s1 h1
    exact ⟨s2, by simp [drainAllLoop, h.2.2.2.1, e1, e2]⟩

theorem mainBody_fuel (env : Env) (n : Nat) (s : State)
    (h : s.mEOSStatus ≠ .INPUT_EOS_SEEN) : mainBody env n s = mainBody env 0 s := by
  simp [mainBody, h]

/-- C5, the code at the failing input. One encoded item and the empty
end-of-stream item are queued with one output item, the decoder has the
decode-delay capability and answers every receive call with `AVERROR_EOF`:
whatever the fuel, the call of `onQueueFilled` does not return. After the two
input items are consumed, each turn of the loop of `drainAllOutputBuffers`
gets `ERR_NO_FRM` from `decodeVideo` and goes on with both queues unchanged. -/
theorem onQueueFilled_diverges :
    ∀ fuel, ∃ s1, onQueueFilled sampleEnvEof fuel sampleData = .timeout s1 := by
  have herr : ∀ k, (sampleEnvEof.avcodec_receive_frame k).err < 0
      ∧ (sampleEnvEof.avcodec_receive_frame k).err ≠ AVERROR_EAGAIN := by
    intro k
    show AVERROR_EOF < 0 ∧ AVERROR_EOF ≠ AVERROR_EAGAIN
    decide
  have halloc : ∀ k, sampleEnvEof.av_packet_alloc k = true := fun _ => rfl
  have b1 : ∀ n, mainBody sampleEnvEof n sampleData = .ok true sampleEof1 := by
    intro n
    rw [mainBody_fuel _ _ _ (by decide)]
    decide
  have b2 : ∀ n, mainBody sampleEnvEof n sampleEof1 = .ok true sampleEof2 := by
    intro n
    rw [mainBody_fuel _ _ _ (by decide)]
    decide
  have b3 : drainAllBody sampleEnvEof sampleEof2 = .ok true sampleEof3 := by decide
  have hstuck : Stuck sampleEof3 := by
    unfold Stuck
    decide
  have c0 : mainCond sampleData := by decide
  have c1 : mainCond sampleEof1 := by decide
  have c2 : mainCond sampleEof2 := by decide
  have o2 : sampleEof2.outQueue ≠ [] := by decide
  have d2 : ∀ n, ∃ s1, drainAllLoop sampleEnvEof n sampleEof2 = .timeout s1 := by
    intro n
    cases n with
    | zero => exact ⟨sampleEof2, by simp [drainAllLoop, o2]⟩
    | succ j =>
      obtain ⟨s1, e⟩ := stuck_drainAllLoop sampleEnvEof herr halloc j sampleEof3 hstuck
      exact ⟨s1, by simp [drainAllLoop, o2, b3, e]⟩
  have m2 : ∀ n, ∃ s1, mainLoop sampleEnvEof n sampleEof2 = .timeout s1 := by
    intro n
    cases n with
    | zero => exact ⟨sampleEof2, by simp [mainLoop, c2]⟩
    | succ j =>
      obtain ⟨s1, e⟩ := d2 j
      have hb : mainBody sampleEnvEof j sampleEof2 = .timeout s1 := by
        have hs : sampleEof2.mEOSStatus = .INPUT_EOS_SEEN := by decide
        have ho : sampleEof2.mCodecAlreadyOpened = true := by decide
        simp [mainBody, hs, drainAllOutputBuffers, ho, e]
      exact ⟨s1, by simp [mainLoop, c2, hb]⟩
  have m1 : ∀ n, ∃ s1, mainLoop sampleEnvEof n sampleEof1 = .timeout s1 := by
    intro n
    cases n with
    | zero => exact ⟨sampleEof1, by simp [mainLoop, c1]⟩
    | succ j =>
      obtain ⟨s1, e⟩ := m2 j
      exact ⟨s1, by simp [mainLoop, c1, b2, e]⟩
  intro fuel
  have hg : onQueueFilled sampleEnvEof fuel sampleData
      = mainLoop sampleEnvEof fuel sampleData := by
    have h1 : sampleData.mSignalledError = false := by decide
    have h2 : sampleData.mOutputPortSettingsChange = .NONE := by decide
    have h3 : sampleData.mEOSStatus = .INPUT_DATA_AVAILABLE := by decide
    simp [onQueueFilled, h1, h2, h3]
  rw [hg]
  cases fuel with
  | zero => exact ⟨sampleData, by simp [mainLoop, c0]⟩
  | succ j =>
    obtain ⟨s1, e⟩ := m1 j
    exact ⟨s1, by simp [mainLoop, c0, b1, e]⟩

/-! ## Geometry change (C4) -/

/-- C4, the code at the failing input. The negotiated output geometry is 352
by 288; one encoded item and the empty end-of-stream item are queued with one
output item; the decoder holds its picture back until the end of stream and
then returns a picture of 640 by 480. The loop of `drainAllOutputBuffers`
converts that picture and emits it in the output item: no port settings change
is signalled or left pending, and the negotiated geometry is still 352 by 288
while the context says 640 by 480. -/
theorem drain_loop_emits_changed_geometry :
    (∃ s1, onQueueFilled sampleEnvGeom 5 sampleData = .ok () s1)
    ∧ filled (onQueueFilled sampleEnvGeom 5 sampleData).state.log
        = [{ addr := 10, mOwnedByUs := false,
             mHeader := some { pBuffer := [], nFilledLen := 152064, nOffset := 0,
                               nFlags := 32, nTimeStamp := 7 } }]
    ∧ Event.call (.sws_getCachedContext 640 480 0)
        ∈ (onQueueFilled sampleEnvGeom 5 sampleData).state.log
    ∧ Event.eventPortSettingsChanged ∉ (onQueueFilled sampleEnvGeom 5 sampleData).state.log
    ∧ (onQueueFilled sampleEnvGeom 5 sampleData).state.mOutputPortSettingsChange = .NONE
    ∧ (onQueueFilled sampleEnvGeom 5 sampleData).state.outQueue = []
    ∧ ((onQueueFilled sampleEnvGeom 5 sampleData).state.mWidth,
        (onQueueFilled sampleEnvGeom 5 sampleData).state.mHeight) = (352, 288)
    ∧ (onQueueFilled sampleEnvGeom 5 sampleData).state.mCtx.map
        (fun ctx => (ctx.width, ctx.height)) = some (640, 480) := by
  refine ⟨⟨(onQueueFilled sampleEnvGeom 5 sampleData).state, by decide⟩, ?_⟩
  decide

/-- The main loop of `onQueueFilled` does check the geometry: when
`decodeVideo` returns `ERR_OK` and the geometry in the context differs from
the negotiated one, the turn returns with the port settings change signalled
and pending, the output queue untouched and nothing emitted. -/
theorem main_loop_suspends_on_geometry_change (env : Env) (s s1 : State)
    (ctx : AVCodecContext) (hd : decodeVideo env s = .ok ERR_OK s1)
    (hctx : s1.mCtx = some ctx)
    (hg : toU32 ctx.width ≠ s1.mWidth ∨ toU32 ctx.height ≠ s1.mHeight) :
    ∃ s2, decodeAndDrain env s = .ok false s2
      ∧ s2.outQueue = s1.outQueue ∧ filled s2.log = filled s1.log
      ∧ s2.log = s1.log ++ [.eventPortSettingsChanged]
      ∧ s2.mOutputPortSettingsChange = .AWAITING_DISABLED := by
  refine ⟨(decodeAndDrain env s).state, ?_, ?_, ?_, ?_, ?_⟩ <;>
    simp [decodeAndDrain, hd, ERR_OK, ERR_FLUSHED, ERR_NO_FRM, handlePortSettingsChange, hctx,
      baseHandlePortSettingsChange, hg, State.emit, filled, Event.filledItem]

/-! ## Hard decode errors (C11) -/

theorem decodeFinish_code (inInfo : Option BufferInfo) (ret r : Int) (s s1 : State)
    (h : decodeFinish inInfo ret s = .ok r s1) : r = ret := by
  unfold decodeFinish at h
  split at h
  · injection h with h1 _; exact h1.symm
  · split at h <;> (injection h with h1 _; exact h1.symm)

theorem decodeSend_eq (env : Env) (inInfo : Option BufferInfo) (inHeader : Option Header)
    (s : State) (ctx : AVCodecContext) (hctx : s.mCtx = some ctx)
    (hpkt : s.mPacket.isNone = true → env.av_packet_alloc s.log.length = true) :
    decodeSend env inInfo inHeader s
      = decodeReceive env ctx inInfo inHeader (afterSend inHeader s) := by
  unfold decodeSend afterSend
  cases hp : s.mPacket.isNone
  · simp [hctx]
  · simp [hpkt hp, hctx, State.emit]

theorem afterSend_facts (inHeader : Option Header) (s : State) :
    (afterSend inHeader s).inQueue = s.inQueue
    ∧ (afterSend inHeader s).mFrame = s.mFrame
    ∧ (afterSend inHeader s).mSignalledError = s.mSignalledError
    ∧ (afterSend inHeader s).log.length = receiveIndex s
    ∧ ∃ pre, (afterSend inHeader s).log = s.log ++ pre ∧ Event.eventError ∉ pre
        ∧ emptied pre = [] := by
  unfold afterSend receiveIndex
  cases hp : s.mPacket.isNone
  · refine ⟨by simp [State.emit], by simp [State.emit], by simp [State.emit],
      by simp [State.emit],
      [.call (.avcodec_send_packet (initPacket (s.mPacket.getD blankPacket) inHeader)),
       .call .av_packet_unref], by simp [State.emit], by simp,
      by simp [emptied, Event.emptiedItem]⟩
  · refine ⟨by simp [State.emit], by simp [State.emit], by simp [State.emit],
      by simp [State.emit],
      [.call .av_packet_alloc,
       .call (.avcodec_send_packet (initPacket (s.mPacket.getD blankPacket) inHeader)),
       .call .av_packet_unref], by simp [State.emit], by simp,
      by simp [emptied, Event.emptiedItem]⟩

/-- C12. Once `mExtradataReady` is set, which `openDecoder` does whenever it
runs on a closed codec, `handleExtradata` leaves the decoder context as it is
for every head item and every outcome: `mCtx->extradata` and
`mCtx->extradata_size` are the same after the call as before it, and the
allocator is not called. With a head item at hand the call returns `ERR_OK`
and hands the item back. -/
theorem extradata_frozen_once_ready (env : Env) (s : State)
    (hready : s.mExtradataReady = true) :
    (handleExtradata env s).state.mCtx = s.mCtx
    ∧ (∀ n, Event.call (.realloc n) ∈ (handleExtradata env s).state.log →
        Event.call (.realloc n) ∈ s.log)
    ∧ (∀ inInfo inHeader rest, s.inQueue = some inInfo :: rest →
        inInfo.mHeader = some inHeader →
        handleExtradata env s = .ok ERR_OK (releaseInput inInfo rest s))
    ∧ (∀ (env2 : Env) (s0 : State), s0.mCodecAlreadyOpened = false →
        (openDecoder env2 s0).state.mExtradataReady = true) := by
  refine ⟨?_, ?_, ?_, ?_⟩
  · unfold handleExtradata
    split
    · rfl
    · rfl
    · split_ifs
      · split <;> simp [releaseInput, State.emit]
      · simp_all
      · simp [releaseInput, State.emit]
  · intro n
    unfold handleExtradata
    split
    · exact id
    · exact id
    · split_ifs
      · split <;> simp [releaseInput, State.emit]
      · simp_all
      · simp [releaseInput, State.emit]
  · intro inInfo inHeader rest hq hh
    simp [handleExtradata, hq, hh, hready]
  · intro env2 s0 h0
    unfold openDecoder
    simp only [h0]
    simp only [Bool.false_eq_true, if_false]
    split
    · rfl
    · split_ifs
      · simp [State.emit]
      · unfold openFound
        simp only []
        split_ifs <;> simp [State.emit]

/-- Witness of C12: a configuration fragment that arrives after the decoder
was opened. -/
theorem extradata_frozen_once_ready_witness :
    sampleFrozen.mExtradataReady = true
    ∧ (handleExtradata sampleEnv sampleFrozen).state.mCtx = sampleFrozen.mCtx
    ∧ emptied (handleExtradata sampleEnv sampleFrozen).state.log = [disown sampleFrag4] :=
  ⟨by decide, (extradata_frozen_once_ready sampleEnv sampleFrozen (by decide)).1, by decide⟩

/-! ## The header read of the flush condition (C15) -/

theorem decodeFinish_isOk (inInfo : Option BufferInfo) (ret : Int) (s : State) :
    ∃ s1, decodeFinish inInfo ret s = .ok ret s1 := by
  unfold decodeFinish
  split
  · exact ⟨_, rfl⟩
  · split <;> exact ⟨_, rfl⟩

theorem decodeNoPic_isOk (inInfo : Option BufferInfo) (inHeader : Option Header) (s : State)
    (d : Bool) (hcap : capDelay s = some d)
    (hh : inHeader = none → s.mEOSStatus ≠ .INPUT_DATA_AVAILABLE ∧ d = true) :
    ∃ r s1, decodeNoPic inInfo inHeader s = .ok r s1 := by
  unfold decodeNoPic
  cases inHeader with
  | none =>
    obtain ⟨h1, h2⟩ := hh rfl
    rw [if_pos h1]
    simp only [hcap, h2]
    obtain ⟨s1, e⟩ := decodeFinish_isOk inInfo ERR_FLUSHED s
    exact ⟨_, s1, by simpa using e⟩
  | some h =>
    simp only [hcap]
    split_ifs <;> first
      | exact ⟨_, decodeFinish_isOk inInfo ERR_FLUSHED s⟩
      | exact ⟨_, decodeFinish_isOk inInfo ERR_NO_FRM s⟩

theorem decodeReceive_isOk (env : Env) (ctx : AVCodecContext) (c : AVCodec)
    (inInfo : Option BufferInfo) (inHeader : Option Header) (s : State) (frame : AVFrame)
    (hc : ctx.codec = some c) (hf : s.mFrame = some frame)
    (hh : inHeader = none → s.mEOSStatus ≠ .INPUT_DATA_AVAILABLE
      ∧ c.capabilities &&& AV_CODEC_CAP_DELAY ≠ 0) :
    ∃ r s1, decodeReceive env ctx inInfo inHeader s = .ok r s1 := by
  unfold decodeReceive
  simp only [hf]
  have hnp : ∀ s1 : State, s1.mEOSStatus = s.mEOSStatus → capDelay s1
      = some (decide (c.capabilities &&& AV_CODEC_CAP_DELAY ≠ 0)) →
      ∃ r s2, decodeNoPic inInfo inHeader s1 = .ok r s2 := by
    intro s1 hst hcap
    apply decodeNoPic_isOk _ _ _ _ hcap
    intro h
    obtain ⟨h1, h2⟩ := hh h
    exact ⟨by rw [hst]; exact h1, by simpa using h2⟩
  split_ifs
  all_goals first
    | exact ⟨_, decodeFinish_isOk _ _ _⟩
    | exact hnp _ rfl (by simp [capDelay, State.emit, hc])

theorem decodeSend_isOk (env : Env) (ctx : AVCodecContext) (c : AVCodec)
    (inInfo : Option BufferInfo) (inHeader : Option Header) (s : State) (frame : AVFrame)
    (hctx : s.mCtx = some ctx) (hc : ctx.codec = some c) (hf : s.mFrame = some frame)
    (hh : inHeader = none → s.mEOSStatus ≠ .INPUT_DATA_AVAILABLE
      ∧ c.capabilities &&& AV_CODEC_CAP_DELAY ≠ 0) :
    ∃ r s1, decodeSend env inInfo inHeader s = .ok r s1 := by
  unfold decodeSend
  cases hp0 : s.mPacket.isNone
  · simp only [Bool.false_eq_true, false_and, if_false, hctx]
    exact decodeReceive_isOk env ctx c _ _ _ frame hc (by simpa [State.emit] using hf)
      (by simpa [State.emit] using hh)
  · by_cases ha : env.av_packet_alloc s.log.length = false
    · exact ⟨ERR_OOM, s.emit (.call .av_packet_alloc), by simp [ha]⟩
    · simp only [ha, and_false, if_false, if_true, State.emit, hctx]
      exact decodeReceive_isOk env ctx c _ _ _ frame hc (by simpa [State.emit] using hf)
        (by simpa [State.emit] using hh)

/-- In a turn of the main loop that starts in `INPUT_DATA_AVAILABLE` with a
non-empty input queue, the code past lines 748-755 runs only with a head item
whose header is not `NULL`: a turn that ends in a fault had one. -/
theorem mainBody_fault_has_header (env : Env) (fuel : Nat) (s s1 : State) (f : Fault)
    (hst : s.mEOSStatus = .INPUT_DATA_AVAILABLE) (hq : s.inQueue ≠ [])
    (h : mainBody env fuel s = .fault f s1) : headHeader s ≠ none := by
  unfold mainBody at h
  simp only [hst] at h
  revert h
  cases hq2 : s.inQueue with
  | nil => exact absurd hq2 hq
  | cons e rest =>
    cases e with
    | none => simp
    | some inInfo =>
      cases hh : inInfo.mHeader with
      | none => simp [hh]
      | some inHeader => simp [headHeader, headInfo, hq2, hh]

/-- C15. A call of `decodeVideo` made with `mCtx`, `mCtx->codec` and `mFrame`
not `NULL`, either with a head input item whose header is not `NULL` (the main
loop) or in state `INPUT_EOS_SEEN` (`drainAllOutputBuffers`), returns a code:
no `NULL` pointer is read, so `inHeader->nFilledLen` at lines 538-539 is never
read with `inHeader == NULL`.  When there is no head header in state
`INPUT_EOS_SEEN`, a codec without `AV_CODEC_CAP_DELAY` takes the early return
of lines 497-500, and with `AV_CODEC_CAP_DELAY` the condition of lines 538-539
is decided by its first disjunct and gives `ERR_FLUSHED`. -/
theorem header_read_never_null (env : Env) (s : State) (ctx : AVCodecContext) (c : AVCodec)
    (frame : AVFrame)
    (hctx : s.mCtx = some ctx) (hc : ctx.codec = some c) (hf : s.mFrame = some frame)
    (hsite : headHeader s ≠ none ∨ s.mEOSStatus = .INPUT_EOS_SEEN) :
    (∃ r s1, decodeVideo env s = .ok r s1)
    ∧ (headHeader s = none → c.capabilities &&& AV_CODEC_CAP_DELAY = 0 →
        decodeVideo env s = .ok ERR_FLUSHED s)
    ∧ (headHeader s = none → c.capabilities &&& AV_CODEC_CAP_DELAY ≠ 0 →
        ∀ s1 : State, s1.mEOSStatus = s.mEOSStatus → s1.mCtx = s.mCtx →
          decodeNoPic (headInfo s) (headHeader s) s1
            = decodeFinish (headInfo s) ERR_FLUSHED s1) := by
  have hcap : capDelay s = some (decide (c.capabilities &&& AV_CODEC_CAP_DELAY ≠ 0)) := by
    simp [capDelay, hctx, hc]
  refine ⟨?_, ?_, ?_⟩
  · unfold decodeVideo
    simp only [hcap]
    by_cases h1 : s.mEOSStatus = .INPUT_EOS_SEEN
        ∧ (headHeader s = none ∨ ((headHeader s).map (·.nFilledLen)) = some 0)
    · rw [if_pos h1]
      by_cases hd : c.capabilities &&& AV_CODEC_CAP_DELAY = 0
      · exact ⟨ERR_FLUSHED, s, by simp [hd]⟩
      · have hsend : ∃ r s1, decodeSend env (headInfo s) (headHeader s) s = .ok r s1 := by
          apply decodeSend_isOk env ctx c _ _ _ frame hctx hc hf
          intro _
          exact ⟨by simp [h1.1], hd⟩
        simpa [hd] using hsend
    · rw [if_neg h1]
      apply decodeSend_isOk env ctx c _ _ _ frame hctx hc hf
      intro hn
      rcases hsite with h | h
      · exact absurd hn h
      · exact absurd ⟨h, Or.inl hn⟩ h1
  · intro hn hd
    rcases hsite with h | h
    · exact absurd hn h
    · simp [decodeVideo, hn, h, hcap, hd]
  · intro hn hd s1 hst hm
    rcases hsite with h | h
    · exact absurd hn h
    · have hcap1 : capDelay s1 = some true := by
        simp [capDelay, hm, hctx, hc, hd]
      simp [decodeNoPic, hst, h, hcap1, hn]

/-- Witness of C15: the open decoder with `AV_CODEC_CAP_DELAY`, after the end
of the stream, with an empty input queue and a decoder that has no picture:
the attempt returns `ERR_FLUSHED`. -/
theorem header_read_never_null_witness :
    headHeader sampleDrained = none
    ∧ sampleDrained.mEOSStatus = .INPUT_EOS_SEEN
    ∧ (∃ r s1, decodeVideo sampleEnvAgain sampleDrained = .ok r s1)
    ∧ (decodeVideo sampleEnvAgain sampleDrained).state.inQueue = []
    ∧ ∃ s1, decodeVideo sampleEnvAgain sampleDrained = .ok ERR_FLUSHED s1 :=
  ⟨by decide, by decide,
   (header_read_never_null sampleEnvAgain sampleDrained
      { setDefaultCtx false { sampleCtx with codec := some { capabilities := AV_CODEC_CAP_DELAY } }
        with isOpen := true }
      { capabilities := AV_CODEC_CAP_DELAY } sampleFrame (by decide) (by decide) (by decide)
      (Or.inr (by decide))).1,
   by decide, ⟨(decodeVideo sampleEnvAgain sampleDrained).state, by decide⟩⟩

/-! ## The error latch and the configuration branch (C16) -/

theorem mainBody_oom_turn (env : Env) (hre : ∀ k, env.realloc k = false) (fuel : Nat)
    (s : State) (h : ConfigPending s) :
    ∃ s1, mainBody env fuel s = .ok true s1 ∧ ConfigPending s1
      ∧ s1.mSignalledError = true ∧ s1.log.length = s.log.length + 2 := by
  obtain ⟨hst, hout, hig, hrd, hctx, inInfo, inHeader, rest, hq, hh, he, hc⟩ := h
  obtain ⟨ctx, hctx⟩ := Option.isSome_iff_exists.mp hctx
  refine ⟨(mainBody env fuel s).state, ?_, ?_, ?_, ?_⟩
  all_goals
    simp [mainBody, hst, hq, hh, mainItem, he, hc, handleExtradata, hig, hrd, hctx,
      appendExtradata, hre, ERR_OOM, ERR_OK, signalError, State.emit, ConfigPending, hout]

theorem mainLoop_oom_spins (env : Env) (hre : ∀ k, env.realloc k = false) :
    ∀ (fuel : Nat) (s : State), ConfigPending s → ∃ s1, mainLoop env fuel s = .timeout s1
  | 0, s, h => by
    obtain ⟨hst, hout, _, _, _, inInfo, inHeader, rest, hq, _⟩ := h
    exact ⟨s, by simp [mainLoop, mainCond, hq, hout]⟩
  | fuel + 1, s, h => by
    obtain ⟨s1, hb, h1, _, _⟩ := mainBody_oom_turn env hre fuel s h
    obtain ⟨s2, h2⟩ := mainLoop_oom_spins env hre fuel s1 h1
    obtain ⟨hst, hout, _, _, _, inInfo, inHeader, rest, hq, _⟩ := h
    exact ⟨s2, by simp [mainLoop, mainCond, hq, hout, hb, h2]⟩

set_option maxRecDepth 8192

/-- C16. After `handleExtradata` fails, lines 764-768 of `onQueueFilled` post
the error event and set `mSignalledError`, then go on with the loop instead of
returning.  With a `realloc` that fails once, the same call runs
`handleExtradata` a second time, dequeues the configuration item and emits its
empty-notification after the error event, with `extradata_size` counting the
item twice; with a `realloc` that fails every time the call never returns. -/
theorem extradata_failure_does_not_end_step :
    (∃ s1, onQueueFilled sampleEnvOomOnce 3 sampleOom = .ok () s1
      ∧ s1.log = sampleOom.log ++
          [.call (.realloc 68), .eventError, .call (.realloc 72),
           .emptyBufferDone (disown sampleFrag4)]
      ∧ s1.mSignalledError = true
      ∧ s1.inQueue = []
      ∧ s1.mCtx.map (·.extradata_size) = some 8)
    ∧ ∀ fuel, ∃ s1, onQueueFilled sampleEnvOom fuel sampleOom = .timeout s1 := by
  refine ⟨⟨(onQueueFilled sampleEnvOomOnce 3 sampleOom).state, by decide, by decide, by decide,
    by decide, by decide⟩, ?_⟩
  intro fuel
  have hp : ConfigPending sampleOom :=
    ⟨by decide, by decide, by decide, by decide, by decide, sampleFrag4, _, [], rfl, rfl,
      by decide, by decide⟩
  obtain ⟨s1, h⟩ := mainLoop_oom_spins sampleEnvOom (fun _ => rfl) fuel sampleOom hp
  refine ⟨s1, ?_⟩
  have hg : onQueueFilled sampleEnvOom fuel sampleOom = mainLoop sampleEnvOom fuel sampleOom := by
    unfold onQueueFilled
    rw [if_neg (by decide), if_neg (by decide)]
  rw [hg, h]

/-! ## The end-of-stream input item (C17) -/

/-- C17. The head input item is flagged end-of-stream with `nFilledLen` zero,
an output item is at hand, `mEOSStatus` is `INPUT_DATA_AVAILABLE`, and the
codec either was never opened or is open and lacks `AV_CODEC_CAP_DELAY`. Then
the main loop of `onQueueFilled`, and so the call when its entry guards let it
through, returns after emitting the zero-length end-of-stream output item and
reaching `OUTPUT_FRAMES_FLUSHED`, with the whole input queue as it was: the
end-of-stream input item is still at its head and nothing has been handed to
`notifyEmptyBufferDone`. -/
theorem eos_input_item_left_queued (env : Env) (fuel : Nat) (s : State)
    (inInfo outInfo : BufferInfo) (inHeader outHeader : Header)
    (rest orest : List (Option BufferInfo))
    (hq : s.inQueue = some inInfo :: rest) (hh : inInfo.mHeader = some inHeader)
    (heos : inHeader.nFlags &&& OMX_BUFFERFLAG_EOS ≠ 0) (hlen : inHeader.nFilledLen = 0)
    (hout : s.outQueue = some outInfo :: orest) (hoh : outInfo.mHeader = some outHeader)
    (hst : s.mEOSStatus = .INPUT_DATA_AVAILABLE)
    (hcodec : s.mCodecAlreadyOpened = false
      ∨ (s.mCodecAlreadyOpened = true ∧ capDelay s = some false)) :
    ∃ s1, mainLoop env (fuel + 3) s = .ok () s1
      ∧ (s.mSignalledError = false → s.mOutputPortSettingsChange = .NONE →
          onQueueFilled env (fuel + 3) s = .ok () s1)
      ∧ s1.mEOSStatus = .OUTPUT_FRAMES_FLUSHED
      ∧ s1.inQueue = some inInfo :: rest
      ∧ emptied s1.log = emptied s.log
      ∧ s1.outQueue = orest
      ∧ filled s1.log = filled s.log
          ++ [{ outInfo with mHeader := some (eosHeader outHeader), mOwnedByUs := false }]
      ∧ isEosItem { outInfo with mHeader := some (eosHeader outHeader),
                                 mOwnedByUs := false } := by
  have hc : mainCond s := by simp [mainCond, hq, hout]
  have hb1 : mainBody env (fuel + 2) s = .ok true { s with mEOSStatus := .INPUT_EOS_SEEN } := by
    simp [mainBody, hst, hq, hh, mainItem, heos]
  have hc2 : mainCond { s with mEOSStatus := .INPUT_EOS_SEEN } := by simp [mainCond, hout]
  have hd : drainAllOutputBuffers env (fuel + 1) { s with mEOSStatus := .INPUT_EOS_SEEN }
      = .ok () { releaseOutput outInfo (eosHeader outHeader) orest
                  { s with mEOSStatus := .INPUT_EOS_SEEN } with
                 mEOSStatus := .OUTPUT_FRAMES_FLUSHED } := by
    rcases hcodec with hclosed | ⟨hopen, hcap⟩
    · simp [drainAllOutputBuffers, hclosed, drainEOSOutputBuffer, hout, hoh]
    · obtain ⟨ctx, hctx, c, hcd, hbits⟩ : ∃ ctx, s.mCtx = some ctx ∧ ∃ c, ctx.codec = some c
          ∧ c.capabilities &&& AV_CODEC_CAP_DELAY = 0 := by
        unfold capDelay at hcap
        cases hctx : s.mCtx with
        | none => simp [hctx] at hcap
        | some ctx =>
          cases hcd : ctx.codec with
          | none => simp [hctx, hcd] at hcap
          | some c => exact ⟨ctx, rfl, c, hcd, by simpa [hctx, hcd] using hcap⟩
      simp [drainAllOutputBuffers, hopen, drainAllLoop, hout, drainAllBody, decodeVideo,
        headHeader, headInfo, hq, hh, hlen, capDelay, hctx, hcd, hbits, ERR_FLUSHED, ERR_OK,
        drainEOSOutputBuffer, hoh]
  have hb2 : mainBody env (fuel + 1) { s with mEOSStatus := .INPUT_EOS_SEEN }
      = .ok false { releaseOutput outInfo (eosHeader outHeader) orest
                  { s with mEOSStatus := .INPUT_EOS_SEEN } with
                 mEOSStatus := .OUTPUT_FRAMES_FLUSHED } := by
    simp [mainBody, hd]
  have hloop : mainLoop env (fuel + 3) s
      = .ok () { releaseOutput outInfo (eosHeader outHeader) orest
                  { s with mEOSStatus := .INPUT_EOS_SEEN } with
                 mEOSStatus := .OUTPUT_FRAMES_FLUSHED } := by
    simp [mainLoop, hc, hb1, hc2, hb2]
  refine ⟨_, hloop, ?_, rfl, ?_, ?_, ?_, ?_, ⟨eosHeader outHeader, rfl, rfl, rfl, rfl⟩⟩
  · intro he hp
    simp [onQueueFilled, he, hp, hst, hloop]
  · simp [releaseOutput, State.emit, hq]
  · simp [releaseOutput, State.emit, emptied, Event.emptiedItem]
  · simp [releaseOutput, State.emit]
  · simp [releaseOutput, State.emit, filled, Event.filledItem]

/-- Witness of C17: the end-of-stream item arrives first, the codec was never
opened. -/
theorem eos_input_item_left_queued_witness :
    sampleEosOnly.mCodecAlreadyOpened = false
    ∧ ∃ s1, onQueueFilled sampleEnv 3 sampleEosOnly = .ok () s1
      ∧ s1.mEOSStatus = .OUTPUT_FRAMES_FLUSHED
      ∧ s1.inQueue = [some (sampleItem 4 OMX_BUFFERFLAG_EOS [])]
      ∧ emptied s1.log = emptied sampleEosOnly.log := by
  refine ⟨rfl, ?_⟩
  obtain ⟨s1, _, h2, h3, h4, h5, _⟩ := eos_input_item_left_queued sampleEnv 0 sampleEosOnly
    (sampleItem 4 OMX_BUFFERFLAG_EOS []) (sampleItem 10 0 []) _ _ [] [] rfl rfl (by decide) rfl
    rfl rfl rfl (Or.inl rfl)
  exact ⟨s1, h2 rfl rfl, h3, h4, h5⟩

/-! ## The flush at the end of the stream (C14) -/

theorem decodeFinish_out (inInfo : Option BufferInfo) (ret : Int) (s0 s : State)
    (h0 : s.outQueue = s0.outQueue ∧ s.mFrame.isSome) :
    (decodeFinish inInfo ret s).state.outQueue = s0.outQueue
      ∧ (decodeFinish inInfo ret s).state.mFrame.isSome := by
  unfold decodeFinish
  split
  · exact h0
  · split
    · exact h0
    · simpa [releaseInput, State.emit] using h0

theorem decodeNoPic_out (inInfo : Option BufferInfo) (inHeader : Option Header)
    (s0 s : State) (h0 : s.outQueue = s0.outQueue ∧ s.mFrame.isSome) :
    (decodeNoPic inInfo inHeader s).state.outQueue = s0.outQueue
      ∧ (decodeNoPic inInfo inHeader s).state.mFrame.isSome := by
  unfold decodeNoPic
  split_ifs
  all_goals (repeat' split)
  all_goals first
    | exact h0
    | exact decodeFinish_out _ _ _ _ h0

theorem decodeReceive_out (env : Env) (ctx : AVCodecContext) (inInfo : Option BufferInfo)
    (inHeader : Option Header) (s : State) (frame : AVFrame) (hf : s.mFrame = some frame) :
    (decodeReceive env ctx inInfo inHeader s).state.outQueue = s.outQueue
      ∧ (decodeReceive env ctx inInfo inHeader s).state.mFrame.isSome := by
  have key : ∀ s1 ret, (s1.outQueue = s.outQueue ∧ s1.mFrame.isSome) →
      (decodeFinish inInfo ret s1).state.outQueue = s.outQueue
        ∧ (decodeFinish inInfo ret s1).state.mFrame.isSome :=
    fun s1 ret h => decodeFinish_out _ _ _ _ h
  have key2 : ∀ s1, (s1.outQueue = s.outQueue ∧ s1.mFrame.isSome) →
      (decodeNoPic inInfo inHeader s1).state.outQueue = s.outQueue
        ∧ (decodeNoPic inInfo inHeader s1).state.mFrame.isSome :=
    fun s1 h => decodeNoPic_out _ _ _ _ h
  unfold decodeReceive
  simp only [hf]
  split_ifs <;>
    first
      | (apply key
         simp [State.emit])
      | (apply key2
         simp [State.emit])

theorem decodeNoPic_codes (inInfo : Option BufferInfo) (inHeader : Option Header)
    (r : Int) (s s1 : State) (h : decodeNoPic inInfo inHeader s = .ok r s1) :
    (r = ERR_FLUSHED ∨ r = ERR_NO_FRM)
    ∧ (s.mEOSStatus ≠ .INPUT_DATA_AVAILABLE →
        (r = ERR_FLUSHED ↔ (inHeader = none ∨ inHeader.map (·.nFilledLen) = some 0))) := by
  have hne : ERR_NO_FRM ≠ ERR_FLUSHED := by decide
  unfold decodeNoPic at h
  by_cases hst : s.mEOSStatus ≠ .INPUT_DATA_AVAILABLE
  · rw [if_pos hst] at h
    cases hcap : capDelay s with
    | none => simp [hcap] at h
    | some d =>
      simp only [hcap] at h
      cases inHeader with
      | none =>
        by_cases hd : d = true
        · rw [if_pos ⟨hd, rfl⟩] at h
          have := decodeFinish_code _ _ _ _ _ h
          exact ⟨Or.inl this, fun _ => by simp [this]⟩
        · rw [if_neg (by simp [hd])] at h
          simp at h
      | some hdr =>
        rw [if_neg (by simp)] at h
        simp only [] at h
        by_cases hl : hdr.nFilledLen = 0
        · rw [if_pos hl] at h
          have := decodeFinish_code _ _ _ _ _ h
          exact ⟨Or.inl this, fun _ => by simp [this, hl]⟩
        · rw [if_neg hl] at h
          have := decodeFinish_code _ _ _ _ _ h
          exact ⟨Or.inr this, fun _ => by simp [this, hl, hne]⟩
  · rw [if_neg hst] at h
    cases inHeader with
    | none => simp at h
    | some hdr =>
      simp only [] at h
      by_cases hl : hdr.nFilledLen = 0
      · rw [if_pos hl] at h
        exact ⟨Or.inl (decodeFinish_code _ _ _ _ _ h), fun h2 => absurd h2 hst⟩
      · rw [if_neg hl] at h
        exact ⟨Or.inr (decodeFinish_code _ _ _ _ _ h), fun h2 => absurd h2 hst⟩

theorem decodeReceive_codes (env : Env) (ctx : AVCodecContext) (inInfo : Option BufferInfo)
    (inHeader : Option Header) (r : Int) (s s1 : State)
    (hst : s.mEOSStatus ≠ .INPUT_DATA_AVAILABLE)
    (h : decodeReceive env ctx inInfo inHeader s = .ok r s1) :
    (r = ERR_FLUSHED ∨ r = ERR_NO_FRM ∨ r = ERR_OK)
    ∧ (r = ERR_FLUSHED ↔
        (((env.avcodec_receive_frame s.log.length).err = AVERROR_EAGAIN
            ∨ 0 < (env.avcodec_receive_frame s.log.length).err)
          ∧ (inHeader = none ∨ inHeader.map (·.nFilledLen) = some 0))) := by
  have hne : ERR_NO_FRM ≠ ERR_FLUSHED := by decide
  have hne2 : ERR_OK ≠ ERR_FLUSHED := by decide
  have hag : AVERROR_EAGAIN < (0 : Int) := by decide
  unfold decodeReceive at h
  cases hf : s.mFrame with
  | none => simp [hf] at h
  | some frame =>
    simp only [hf] at h
    by_cases hE : (env.avcodec_receive_frame s.log.length).err = AVERROR_EAGAIN
    · have hz : ¬ (env.avcodec_receive_frame s.log.length).err = 0 := by
        rw [hE]; decide
      rw [if_neg (by simp [hE]), if_pos (by simp [hz])] at h
      obtain ⟨k1, k2⟩ := decodeNoPic_codes _ _ _ _ _ h
      refine ⟨k1.elim Or.inl (fun x => Or.inr (Or.inl x)), ?_⟩
      rw [k2 (by simpa [State.emit] using hst)]
      simp [hE]
    · by_cases hneg : (env.avcodec_receive_frame s.log.length).err < 0
      · rw [if_pos (by simpa [hE] using hneg)] at h
        have := decodeFinish_code _ _ _ _ _ h
        refine ⟨Or.inr (Or.inl this), ?_⟩
        rw [this]
        constructor
        · intro x; exact absurd x hne
        · rintro ⟨x | x, _⟩
          · exact absurd x hE
          · omega
      · rw [if_neg (by simpa [hE] using hneg)] at h
        by_cases hz : (env.avcodec_receive_frame s.log.length).err = 0
        · rw [if_neg (by simp [hz])] at h
          have hnc : ¬ (((env.avcodec_receive_frame s.log.length).err = AVERROR_EAGAIN
              ∨ 0 < (env.avcodec_receive_frame s.log.length).err)
              ∧ (inHeader = none ∨ inHeader.map (·.nFilledLen) = some 0)) := by
            rintro ⟨x | x, _⟩
            · exact absurd x hE
            · omega
          split_ifs at h
          · have := decodeFinish_code _ _ _ _ _ h
            exact ⟨Or.inr (Or.inl this), by rw [this]; exact ⟨fun x => absurd x hne,
              fun x => absurd x hnc⟩⟩
          · have := decodeFinish_code _ _ _ _ _ h
            exact ⟨Or.inr (Or.inr this), by rw [this]; exact ⟨fun x => absurd x hne2,
              fun x => absurd x hnc⟩⟩
        · rw [if_pos (by simp [hz])] at h
          obtain ⟨k1, k2⟩ := decodeNoPic_codes _ _ _ _ _ h
          refine ⟨k1.elim Or.inl (fun x => Or.inr (Or.inl x)), ?_⟩
          rw [k2 (by simpa [State.emit] using hst)]
          have hpos : 0 < (env.avcodec_receive_frame s.log.length).err := by omega
          simp [hpos]

theorem afterSend_kept (inHeader : Option Header) (s : State) :
    (afterSend inHeader s).outQueue = s.outQueue
    ∧ (afterSend inHeader s).mEOSStatus = s.mEOSStatus
    ∧ filled (afterSend inHeader s).log = filled s.log := by
  unfold afterSend
  cases hp : s.mPacket.isNone <;> simp [State.emit, filled, Event.filledItem]

theorem drainOneOutputBuffer_isOk (env : Env) (s : State) (outInfo : BufferInfo)
    (outHeader : Header) (orest : List (Option BufferInfo))
    (hout : s.outQueue = some outInfo :: orest) (hoh : outInfo.mHeader = some outHeader)
    (hf : s.mFrame.isSome) :
    ∃ r s1, drainOneOutputBuffer env s = .ok r s1 := by
  obtain ⟨frame, hf⟩ := Option.isSome_iff_exists.mp hf
  unfold drainOneOutputBuffer
  simp only [hout, hoh, hf]
  split_ifs <;> exact ⟨_, _, rfl⟩

/-- Counterexample to C14 as stated.  First scenario: the codec lacks
`AV_CODEC_CAP_DELAY`, the end-of-stream item carries two bytes, the decoder
answers `AVERROR(EAGAIN)`: the attempt yields no frame, yet the state stays
`INPUT_EOS_SEEN` and nothing is emitted.  Second scenario: the codec has
`AV_CODEC_CAP_DELAY`, the empty end-of-stream item is followed by one more
input item, the decoder answers `AVERROR(EAGAIN)`: the attempt moves the state
to `OUTPUT_FRAMES_FLUSHED` with that item still in the input queue. -/
theorem eos_flush_condition_counterexample :
    (sampleTail2.mEOSStatus = .INPUT_EOS_SEEN
      ∧ sampleTail2.mCodecAlreadyOpened = true
      ∧ capDelay sampleTail2 = some false
      ∧ NoPicture sampleEnvAgainNoDelay sampleTail2
      ∧ sampleTail2.inQueue = [some (sampleItem 4 OMX_BUFFERFLAG_EOS [7, 7])]
      ∧ ∃ s1, drainAllBody sampleEnvAgainNoDelay sampleTail2 = .ok true s1
          ∧ s1.mEOSStatus = .INPUT_EOS_SEEN
          ∧ filled s1.log = filled sampleTail2.log)
    ∧ (sampleMore2.mEOSStatus = .INPUT_EOS_SEEN
      ∧ sampleMore2.mCodecAlreadyOpened = true
      ∧ capDelay sampleMore2 = some true
      ∧ sampleMore2.inQueue
          = [some (sampleItem 4 OMX_BUFFERFLAG_EOS []), some (sampleItem 5 0 [8, 8])]
      ∧ ∃ s1, drainAllBody sampleEnvAgain sampleMore2 = .ok false s1
          ∧ s1.mEOSStatus = .OUTPUT_FRAMES_FLUSHED
          ∧ s1.inQueue = [some (sampleItem 5 0 [8, 8])]) :=
  ⟨⟨by decide, by decide, by decide, by decide, by decide,
     (drainAllBody sampleEnvAgainNoDelay sampleTail2).state, by decide, by decide, by decide⟩,
   ⟨by decide, by decide, by decide, by decide,
     (drainAllBody sampleEnvAgain sampleMore2).state, by decide, by decide, by decide⟩⟩

/-- C14, amended. In state `INPUT_EOS_SEEN` with the codec open, a decode
attempt of `drainAllOutputBuffers` with an output item at hand moves the state
machine to `OUTPUT_FRAMES_FLUSHED`, emitting one zero-length
end-of-stream-flagged output item and returning, exactly when the head input
header is absent or has `nFilledLen` zero and either the codec lacks
`AV_CODEC_CAP_DELAY` (the decoder is then not called) or
`avcodec_receive_frame` answers neither a picture nor a hard error.  In every
other case the attempt returns with the state still `INPUT_EOS_SEEN` and no
end-of-stream output item emitted by it. -/
theorem eos_flush_exactly_when (env : Env) (s : State) (d : Bool) (frame : AVFrame)
    (outInfo : BufferInfo) (outHeader : Header) (orest : List (Option BufferInfo))
    (hst : s.mEOSStatus = .INPUT_EOS_SEEN) (hcap : capDelay s = some d)
    (hf : s.mFrame = some frame)
    (hpkt : s.mPacket.isNone = true → env.av_packet_alloc s.log.length = true)
    (hout : s.outQueue = some outInfo :: orest) (hoh : outInfo.mHeader = some outHeader) :
    (FlushDue env s d →
      ∃ s1, drainAllBody env s = .ok false s1
        ∧ s1.mEOSStatus = .OUTPUT_FRAMES_FLUSHED
        ∧ filled s1.log = filled s.log
            ++ [{ outInfo with mHeader := some (eosHeader outHeader), mOwnedByUs := false }]
        ∧ isEosItem { outInfo with mHeader := some (eosHeader outHeader),
                                   mOwnedByUs := false })
    ∧ (¬ FlushDue env s d →
      ∃ r s1, drainAllBody env s = .ok r s1
        ∧ s1.mEOSStatus = .INPUT_EOS_SEEN
        ∧ ∃ fl, filled s1.log = filled s.log ++ fl ∧ ∀ i ∈ fl, ¬ isEosItem i) := by
  obtain ⟨ctx, hctx, c, hc, hd⟩ : ∃ ctx, s.mCtx = some ctx ∧ ∃ c, ctx.codec = some c
      ∧ d = decide (c.capabilities &&& AV_CODEC_CAP_DELAY ≠ 0) := by
    unfold capDelay at hcap
    cases hctx : s.mCtx with
    | none => simp [hctx] at hcap
    | some ctx =>
      cases hcd : ctx.codec with
      | none => simp [hctx, hcd] at hcap
      | some c =>
        refine ⟨ctx, rfl, c, hcd, ?_⟩
        simp only [hctx, hcd, Option.some.injEq] at hcap
        exact hcap.symm
  have heos : ∀ s1 : State, s1.outQueue = s.outQueue → filled s1.log = filled s.log →
      ∃ s2, (drainEOSOutputBuffer s1).bind (fun _ s2 => Res.ok false s2) = .ok false s2
        ∧ s2.mEOSStatus = .OUTPUT_FRAMES_FLUSHED
        ∧ filled s2.log = filled s.log
            ++ [{ outInfo with mHeader := some (eosHeader outHeader), mOwnedByUs := false }]
        ∧ isEosItem { outInfo with mHeader := some (eosHeader outHeader),
                                   mOwnedByUs := false } := by
    intro s1 h1 h2
    refine ⟨_, by simp [drainEOSOutputBuffer, h1, hout, hoh]; rfl, rfl, ?_,
      ⟨eosHeader outHeader, rfl, rfl, rfl, rfl⟩⟩
    simp only [releaseOutput, State.emit, filled_append, h2]
    simp [filled, Event.filledItem]
  by_cases hearly : headEmpty s ∧ d = false
  · have hdv : decodeVideo env s = .ok ERR_FLUSHED s := by
      unfold decodeVideo
      simp only []
      rw [if_pos ⟨hst, hearly.1⟩]
      simp [hcap, hearly.2]
    refine ⟨fun _ => ?_, fun h => absurd ⟨hearly.1, Or.inl hearly.2⟩ h⟩
    obtain ⟨s2, e, k⟩ := heos s rfl rfl
    refine ⟨s2, ?_, k⟩
    rw [← e]
    simp [drainAllBody, hdv, ERR_FLUSHED, ERR_OK]
  · have hgo : decodeVideo env s
        = decodeReceive env ctx (headInfo s) (headHeader s) (afterSend (headHeader s) s) := by
      rw [← decodeSend_eq env _ _ s ctx hctx hpkt]
      unfold decodeVideo
      simp only []
      by_cases h1 : s.mEOSStatus = .INPUT_EOS_SEEN ∧ (headHeader s = none
          ∨ ((headHeader s).map (·.nFilledLen)) = some 0)
      · rw [if_pos h1]
        have hdt : d = true := by
          cases d with
          | true => rfl
          | false => exact absurd ⟨h1.2, rfl⟩ hearly
        simp [hcap, hdt]
      · rw [if_neg h1]
    obtain ⟨g1, g2, g3, g4, _⟩ := afterSend_facts (headHeader s) s
    obtain ⟨k1, k2, k3⟩ := afterSend_kept (headHeader s) s
    have hguard : headHeader s = none → c.capabilities &&& AV_CODEC_CAP_DELAY ≠ 0 := by
      intro hn
      have hdt : d = true := by
        cases d with
        | true => rfl
        | false => exact absurd ⟨Or.inl hn, rfl⟩ hearly
      rw [hd] at hdt
      simpa using hdt
    have hstS : (afterSend (headHeader s) s).mEOSStatus ≠ .INPUT_DATA_AVAILABLE := by
      rw [k2, hst]; decide
    obtain ⟨r, s1, e⟩ := decodeReceive_isOk env ctx c (headInfo s) (headHeader s)
      (afterSend (headHeader s) s) frame hc (g2.trans hf) (fun hn => ⟨hstS, hguard hn⟩)
    obtain ⟨c1, c2⟩ := decodeReceive_codes env ctx _ _ r _ s1 hstS e
    have o := decodeReceive_out env ctx (headInfo s) (headHeader s)
      (afterSend (headHeader s) s) frame (g2.trans hf)
    have st := decodeReceive_still env ctx (headInfo s) (headHeader s)
      (show Still s (afterSend (headHeader s) s) from ⟨k2, k3⟩)
    rw [e] at o st
    simp only [Res.state_ok] at o st
    rw [g4] at c2
    have hiff : FlushDue env s d ↔ r = ERR_FLUSHED := by
      rw [c2]
      unfold FlushDue NoPicture headEmpty
      constructor
      · rintro ⟨h1, h2 | h2⟩
        · exact absurd ⟨h1, h2⟩ hearly
        · exact ⟨h2, h1⟩
      · rintro ⟨h1, h2⟩
        exact ⟨h2, Or.inr h1⟩
    rw [← hgo] at e
    constructor
    · intro hfl
      have hr := hiff.1 hfl
      subst hr
      obtain ⟨s2, e2, k⟩ := heos s1 (o.1.trans k1) st.2
      refine ⟨s2, ?_, k⟩
      rw [← e2]
      simp [drainAllBody, e, ERR_FLUSHED, ERR_OK]
    · intro hfl
      have hr : r ≠ ERR_FLUSHED := fun h => hfl (hiff.2 h)
      rcases c1 with h | h | h
      · exact absurd h hr
      · subst h
        exact ⟨true, s1, by simp [drainAllBody, e, ERR_FLUSHED, ERR_OK, ERR_NO_FRM],
          st.1.trans hst, [], by simp [st.2], by simp⟩
      · subst h
        obtain ⟨r2, s2, e2⟩ := drainOneOutputBuffer_isOk env s1 outInfo outHeader orest
          ((o.1.trans k1).trans hout) hoh o.2
        have cm := drainOneOutputBuffer_calm env s1
        rw [e2] at cm
        simp only [Res.state_ok] at cm
        obtain ⟨cm1, fl, cm2, cm3⟩ := cm
        by_cases hr2 : r2 = ERR_OK
        · refine ⟨true, s2, by simp [drainAllBody, e, e2, hr2, ERR_FLUSHED, ERR_OK, ERR_NO_FRM],
            by rw [cm1, st.1, hst], fl, by rw [cm2, st.2], cm3⟩
        · have hr2z : ¬ r2 = 0 := hr2
          refine ⟨false, signalError s2,
            by simp [drainAllBody, e, e2, hr2z, ERR_FLUSHED, ERR_OK, ERR_NO_FRM],
            by simp [signalError, State.emit, cm1, st.1, hst], fl, ?_, cm3⟩
          simp only [signalError, State.emit, filled_append, cm2, st.2]
          simp [filled, Event.filledItem]

/-- Witness of C14: the open decoder with `AV_CODEC_CAP_DELAY` at the end of
the stream with an empty input queue.  When the decoder has no picture left the
attempt flushes; when it answers a picture the state stays `INPUT_EOS_SEEN`. -/
theorem eos_flush_exactly_when_witness :
    (FlushDue sampleEnvAgain sampleDrained true
      ∧ ∃ s1, drainAllBody sampleEnvAgain sampleDrained = .ok false s1
        ∧ s1.mEOSStatus = .OUTPUT_FRAMES_FLUSHED
        ∧ filled s1.log = filled sampleDrained.log
            ++ [{ sampleItem 10 0 [] with
                  mHeader := some (eosHeader { pBuffer := [], nFilledLen := 0, nOffset := 0,
                                               nFlags := 0, nTimeStamp := 5 }),
                  mOwnedByUs := false }])
    ∧ (¬ FlushDue sampleEnv sampleDrained true
      ∧ ∃ r s1, drainAllBody sampleEnv sampleDrained = .ok r s1
        ∧ s1.mEOSStatus = .INPUT_EOS_SEEN) := by
  have h1 : FlushDue sampleEnvAgain sampleDrained true := by decide
  have h2 : ¬ FlushDue sampleEnv sampleDrained true := by decide
  obtain ⟨s1, e1, e2, e3, _⟩ := (eos_flush_exactly_when sampleEnvAgain sampleDrained true
    sampleFrame (sampleItem 10 0 []) _ [] (by decide) (by decide) (by decide) (fun _ => rfl)
    (by decide) rfl).1 h1
  obtain ⟨r, s2, f1, f2, _⟩ := (eos_flush_exactly_when sampleEnv sampleDrained true
    sampleFrame (sampleItem 10 0 []) _ [] (by decide) (by decide) (by decide) (fun _ => rfl)
    (by decide) rfl).2 h2
  exact ⟨⟨h1, s1, e1, e2, e3⟩, h2, r, s2, f1, f2⟩

/-! ## The extradata length as a sum (C13) -/

theorem configBytes_append (l1 l2 : List Event) :
    configBytes (l1 ++ l2)
      = configBytes l1 + (if l1.any isFindDecoder then 0 else configBytes l2) := by
  induction l1 with
  | nil => simp [configBytes]
  | cons e l ih =>
    by_cases he : isFindDecoder e = true
    · simp [configBytes, he]
    · simp [configBytes, he, ih, Nat.add_assoc]

theorem configBytes_silent (l : List Event) (h : ∀ e ∈ l, configLen e = 0) :
    configBytes l = 0 := by
  induction l with
  | nil => rfl
  | cons e l ih =>
    simp only [configBytes]
    split_ifs
    · rfl
    · rw [h e (List.mem_cons_self _ _), ih (fun x hx => h x (List.mem_cons_of_mem _ hx))]

theorem Keeps.keepsRefl (s : State) : Keeps s s :=
  ⟨rfl, rfl, rfl, id, rfl, [], by simp, by simp⟩

theorem Keeps.keepsTrans {a b c : State} (h1 : Keeps a b) (h2 : Keeps b c) : Keeps a c := by
  obtain ⟨a1, a2, a3, a4, a5, m1, a6, a7⟩ := h1
  obtain ⟨b1, b2, b3, b4, b5, m2, b6, b7⟩ := h2
  refine ⟨b1.trans a1, b2.trans a2, b3.trans a3, fun h => a4 (b4 h), b5.trans a5, m1 ++ m2,
    by rw [b6, a6, List.append_assoc], ?_⟩
  intro e he
  rcases List.mem_append.1 he with h | h
  · exact a7 e h
  · exact ⟨(b7 e h).1, fun hr => (b7 e h).2 (a2.trans hr)⟩

theorem keeps_bind {α β : Type} {s0 : State} {r : Res α} {k : α → State → Res β}
    (hr : Keeps s0 r.state) (hk : ∀ a s1, Keeps s0 s1 → Keeps s0 (k a s1).state) :
    Keeps s0 (r.bind k).state := by
  cases r with
  | ok a s1 => exact hk a s1 hr
  | fault f s1 => exact hr
  | timeout s1 => exact hr

/-- A step that logs one event, changes neither flag nor `extradata_size`. -/
theorem keeps_of_log (s s1 : State) (more : List Event)
    (h1 : s1.mIgnoreExtradata = s.mIgnoreExtradata)
    (h2 : s1.mExtradataReady = s.mExtradataReady)
    (h3 : s1.mCodecAlreadyOpened = s.mCodecAlreadyOpened)
    (h4 : s1.mSignalledError = false → s.mSignalledError = false)
    (h5 : s1.mCtx.map (·.extradata_size) = s.mCtx.map (·.extradata_size))
    (h6 : s1.log = s.log ++ more)
    (h7 : ∀ e ∈ more, isFindDecoder e = false ∧ (s.mExtradataReady = false → configLen e = 0)) :
    Keeps s s1 :=
  ⟨h1, h2, h3, h4, h5, more, h6, h7⟩

theorem signalError_keeps (s : State) : Keeps s (signalError s) :=
  keeps_of_log _ _ [.eventError] rfl rfl rfl (by simp [signalError, State.emit]) rfl
    (by simp [signalError, State.emit]) (by simp [isFindDecoder, configLen])

theorem releaseInput_keeps (info : BufferInfo) (rest : List (Option BufferInfo)) (s : State)
    (hr : s.mExtradataReady = true) : Keeps s (releaseInput info rest s) :=
  keeps_of_log _ _ [.emptyBufferDone { info with mOwnedByUs := false }] rfl rfl rfl id rfl
    (by simp [releaseInput, State.emit]) (by simp [isFindDecoder, hr])

theorem decodeFinish_keeps {s0 s : State} (inInfo : Option BufferInfo) (ret : Int)
    (h0 : Keeps s0 s) (hr : s0.mExtradataReady = true) :
    Keeps s0 (decodeFinish inInfo ret s).state := by
  have hr1 : s.mExtradataReady = true := h0.2.1.trans hr
  unfold decodeFinish
  split
  · exact h0
  · split
    · exact h0.keepsTrans (keeps_of_log _ _ [] rfl rfl rfl id rfl (by simp) (by simp))
    · exact h0.keepsTrans (releaseInput_keeps _ _ s hr1)

theorem decodeNoPic_keeps {s0 s : State} (inInfo : Option BufferInfo)
    (inHeader : Option Header) (h0 : Keeps s0 s) (hr : s0.mExtradataReady = true) :
    Keeps s0 (decodeNoPic inInfo inHeader s).state := by
  unfold decodeNoPic
  split_ifs
  all_goals (repeat' split)
  all_goals first
    | exact h0
    | exact decodeFinish_keeps _ _ h0 hr

theorem keeps_of_drop (s s1 : State)
    (h1 : s1.mIgnoreExtradata = s.mIgnoreExtradata)
    (h2 : s1.mExtradataReady = s.mExtradataReady)
    (h3 : s1.mCodecAlreadyOpened = s.mCodecAlreadyOpened)
    (h4 : s1.mSignalledError = false → s.mSignalledError = false)
    (h5 : s1.mCtx.map (·.extradata_size) = s.mCtx.map (·.extradata_size))
    (h6 : s.log <+: s1.log)
    (h7 : ∀ e ∈ s1.log.drop s.log.length,
      isFindDecoder e = false ∧ (s.mExtradataReady = false → configLen e = 0)) :
    Keeps s s1 := by
  obtain ⟨more, hm⟩ := h6
  refine ⟨h1, h2, h3, h4, h5, more, hm.symm, ?_⟩
  rw [← hm, List.drop_left] at h7
  exact h7

theorem decodeReceive_keeps (env : Env) (ctx : AVCodecContext) {s0 s : State}
    (inInfo : Option BufferInfo) (inHeader : Option Header) (h0 : Keeps s0 s)
    (hr : s0.mExtradataReady = true) (hctx : s.mCtx = some ctx) :
    Keeps s0 (decodeReceive env ctx inInfo inHeader s).state := by
  have key : ∀ s1 ret, Keeps s s1 → Keeps s0 (decodeFinish inInfo ret s1).state :=
    fun s1 ret hq => decodeFinish_keeps _ _ (h0.keepsTrans hq) hr
  have key2 : ∀ s1, Keeps s s1 → Keeps s0 (decodeNoPic inInfo inHeader s1).state :=
    fun s1 hq => decodeNoPic_keeps _ _ (h0.keepsTrans hq) hr
  unfold decodeReceive
  split
  · exact h0
  · simp only []
    split_ifs <;>
      first
        | (apply key
           apply keeps_of_drop <;> simp [State.emit, isFindDecoder, configLen, hctx])
        | (apply key2
           apply keeps_of_drop <;> simp [State.emit, isFindDecoder, configLen, hctx])

theorem decodeSend_keeps (env : Env) {s0 s : State} (inInfo : Option BufferInfo)
    (inHeader : Option Header) (h0 : Keeps s0 s) (hr : s0.mExtradataReady = true) :
    Keeps s0 (decodeSend env inInfo inHeader s).state := by
  have key : ∀ ctx s1, Keeps s s1 → s1.mCtx = some ctx →
      Keeps s0 (decodeReceive env ctx inInfo inHeader s1).state :=
    fun ctx s1 hq hc => decodeReceive_keeps env ctx _ _ (h0.keepsTrans hq) hr hc
  have key0 : ∀ s1, Keeps s s1 → Keeps s0 s1 := fun s1 hq => h0.keepsTrans hq
  unfold decodeSend
  simp only []
  split_ifs <;> (try split) <;>
    first
      | (apply key0
         apply keeps_of_drop <;> simp [State.emit, isFindDecoder, configLen]
         done)
      | (rename_i hc
         apply key
         · apply keeps_of_drop <;> simp [State.emit, isFindDecoder, configLen]
         · simpa [State.emit] using hc)

theorem decodeVideo_keeps (env : Env) (s : State) (hr : s.mExtradataReady = true) :
    Keeps s (decodeVideo env s).state := by
  unfold decodeVideo
  simp only []
  split_ifs
  · split
    · exact Keeps.keepsRefl s
    · split_ifs
      · exact Keeps.keepsRefl s
      · exact decodeSend_keeps env _ _ (Keeps.keepsRefl s) hr
  · exact decodeSend_keeps env _ _ (Keeps.keepsRefl s) hr

theorem drainOneOutputBuffer_keeps (env : Env) (s : State) :
    Keeps s (drainOneOutputBuffer env s).state := by
  unfold drainOneOutputBuffer
  split
  · exact Keeps.keepsRefl s
  · exact Keeps.keepsRefl s
  · split
    · exact Keeps.keepsRefl s
    · exact Keeps.keepsRefl s
    · simp only []
      split_ifs <;>
        (apply keeps_of_drop <;>
          simp [releaseOutput, State.emit, isFindDecoder, configLen])

theorem drainEOSOutputBuffer_keeps (s : State) : Keeps s (drainEOSOutputBuffer s).state := by
  unfold drainEOSOutputBuffer
  split
  · exact Keeps.keepsRefl s
  · exact Keeps.keepsRefl s
  · split <;>
      (apply keeps_of_drop <;>
        simp [releaseOutput, State.emit, isFindDecoder, configLen])

theorem handlePortSettingsChange_keeps (s : State) :
    Keeps s (handlePortSettingsChange s).state := by
  unfold handlePortSettingsChange
  split
  · exact Keeps.keepsRefl s
  · simp only [baseHandlePortSettingsChange]
    split_ifs <;>
      (apply keeps_of_drop <;> simp [State.emit, isFindDecoder, configLen])

theorem drainAllBody_keeps (env : Env) (s : State) (hr : s.mExtradataReady = true) :
    Keeps s (drainAllBody env s).state := by
  unfold drainAllBody
  apply keeps_bind (decodeVideo_keeps env s hr)
  intro err s1 h1
  split_ifs
  · exact h1.keepsTrans (signalError_keeps s1)
  · exact keeps_bind (h1.keepsTrans (drainEOSOutputBuffer_keeps s1)) (fun _ _ h => h)
  · exact h1
  · exact h1
  · apply keeps_bind (h1.keepsTrans (drainOneOutputBuffer_keeps env s1))
    intro r s2 h2
    split_ifs
    · exact h2.keepsTrans (signalError_keeps s2)
    · exact h2

theorem drainAllLoop_keeps (env : Env) (fuel : Nat) :
    ∀ s, s.mExtradataReady = true → Keeps s (drainAllLoop env fuel s).state := by
  induction fuel with
  | zero =>
    intro s _
    unfold drainAllLoop
    split_ifs <;> exact Keeps.keepsRefl s
  | succ n ih =>
    intro s hr
    unfold drainAllLoop
    split_ifs
    · have hb := drainAllBody_keeps env s hr
      split
      · rename_i s1 heq
        rw [heq] at hb
        exact hb.keepsTrans (ih s1 (hb.2.1.trans hr))
      · rename_i s1 heq
        rw [heq] at hb
        exact hb
      · rename_i f s1 heq
        rw [heq] at hb
        exact hb
      · rename_i s1 heq
        rw [heq] at hb
        exact hb
    · exact Keeps.keepsRefl s

theorem drainAllOutputBuffers_keeps (env : Env) (fuel : Nat) (s : State)
    (hr : s.mCodecAlreadyOpened = true → s.mExtradataReady = true) :
    Keeps s (drainAllOutputBuffers env fuel s).state := by
  unfold drainAllOutputBuffers
  split_ifs with h
  · apply keeps_bind (drainEOSOutputBuffer_keeps s)
    intro _ s1 h1
    exact h1.keepsTrans (keeps_of_drop _ _ rfl rfl rfl id rfl (by simp) (by simp))
  · exact drainAllLoop_keeps env fuel s (hr (by simpa using h))

theorem decodeAndDrain_keeps (env : Env) (s : State) (hr : s.mExtradataReady = true) :
    Keeps s (decodeAndDrain env s).state := by
  unfold decodeAndDrain
  apply keeps_bind (decodeVideo_keeps env s hr)
  intro err s1 h1
  split_ifs
  · exact h1.keepsTrans (signalError_keeps s1)
  · exact keeps_bind (h1.keepsTrans (drainEOSOutputBuffer_keeps s1)) (fun _ _ h => h)
  · exact h1
  · exact h1
  · apply keeps_bind (h1.keepsTrans (handlePortSettingsChange_keeps s1))
    intro pr s2 h2
    split_ifs
    · exact h2
    · apply keeps_bind (h2.keepsTrans (drainOneOutputBuffer_keeps env s2))
      intro r s3 h3
      split_ifs
      · exact h3.keepsTrans (signalError_keeps s3)
      · exact h3

theorem onPortFlushCompleted_keeps (portIndex : Nat) (s : State) :
    Keeps s (onPortFlushCompleted portIndex s) := by
  unfold onPortFlushCompleted
  split_ifs
  · split
    · split_ifs <;>
        (apply keeps_of_drop <;> simp [State.emit, isFindDecoder, configLen])
    · apply keeps_of_drop <;> simp
  · exact Keeps.keepsRefl s

theorem toI32_add_left (a b : Int) : toI32 (toI32 a + b) = toI32 (a + b) := by
  unfold toI32
  omega

theorem counted_step (n : Nat) (s s1 : State) (hc : Counted n s)
    (hig : s1.mIgnoreExtradata = s.mIgnoreExtradata)
    (hrd : s1.mExtradataReady = s.mExtradataReady)
    (hop : s1.mCodecAlreadyOpened = true → s1.mExtradataReady = true)
    (herr : s1.mSignalledError = false → s.mSignalledError = false)
    (hsize : s1.mCtx.map (·.extradata_size) = s.mCtx.map (·.extradata_size))
    (hpre : s.log <+: s1.log)
    (hev : ∀ e ∈ s1.log.drop s.log.length,
      isFindDecoder e = false ∧ (s.mExtradataReady = false → configLen e = 0)) :
    Counted n s1 := by
  obtain ⟨c1, c2, c3, c4, c5⟩ := hc
  obtain ⟨more, hm⟩ := hpre
  rw [← hm, List.drop_left] at hev
  have hdrop : s1.log.drop n = s.log.drop n ++ more := by
    rw [← hm, List.drop_append_of_le_length c1]
  have hany : more.any isFindDecoder = false := by
    rw [List.any_eq_false]
    intro e he
    simp [(hev e he).1]
  refine ⟨?_, hig.trans c2, hop, ?_, ?_⟩
  · rw [← hm, List.length_append]; omega
  · rw [hrd, c4, hdrop, List.any_append, hany, Bool.or_false]
  · intro h1
    obtain ⟨ctx, hctx, hs⟩ := c5 (herr h1)
    rw [hctx] at hsize
    cases h1c : s1.mCtx with
    | none => simp [h1c] at hsize
    | some ctx1 =>
      simp only [h1c, Option.map_some', Option.some.injEq] at hsize
      refine ⟨ctx1, rfl, ?_⟩
      rw [hsize, hs, hdrop, configBytes_append]
      by_cases hr : s.mExtradataReady = true
      · rw [c4.1 hr]; simp
      · have hr2 : s.mExtradataReady = false := by simpa using hr
        rw [configBytes_silent more (fun e he => (hev e he).2 hr2)]
        simp

theorem counted_of_keeps {n : Nat} {s s1 : State} (hc : Counted n s) (hk : Keeps s s1) :
    Counted n s1 := by
  obtain ⟨k1, k2, k3, k4, k5, more, k6, k7⟩ := hk
  refine counted_step n s s1 hc k1 k2 ?_ k4 k5 ⟨more, k6.symm⟩ ?_
  · intro h
    rw [k2]
    exact hc.2.2.1 (k3 ▸ h)
  · rw [k6, List.drop_left]
    exact k7

theorem counted_fresh (s : State) (h : Fresh s) : Counted s.log.length s := by
  obtain ⟨h1, h2, h3, h4, ctx, h5, h6⟩ := h
  refine ⟨le_refl _, h1, fun h => by simp [h3] at h, ?_, fun _ => ⟨ctx, h5, ?_⟩⟩
  · simp [h2]
  · simp [h6, configBytes, toI32]

theorem appendExtradata_shape (env : Env) (ctx : AVCodecContext) (h : Header) (s : State) :
    (appendExtradata env ctx h s).state.log
        = s.log ++ [.call (.realloc (toI32 (toI32 (ctx.extradata_size + h.nFilledLen)
            + env.AV_INPUT_BUFFER_PADDING_SIZE)))]
    ∧ (appendExtradata env ctx h s).state.mIgnoreExtradata = s.mIgnoreExtradata
    ∧ (appendExtradata env ctx h s).state.mExtradataReady = s.mExtradataReady
    ∧ (appendExtradata env ctx h s).state.mCodecAlreadyOpened = s.mCodecAlreadyOpened
    ∧ (appendExtradata env ctx h s).state.mSignalledError = s.mSignalledError
    ∧ (appendExtradata env ctx h s).state.mCtx.map (·.extradata_size)
        = some (toI32 (ctx.extradata_size + h.nFilledLen)) := by
  unfold appendExtradata
  simp only []
  split_ifs <;> simp [State.emit]

theorem handleExtradata_counted (env : Env) (n : Nat) (s s1 : State) (r : Int)
    (hc : Counted n s)
    (hflag : ∀ inInfo rest inHeader, s.inQueue = some inInfo :: rest →
      inInfo.mHeader = some inHeader →
      inHeader.nFlags &&& OMX_BUFFERFLAG_CODECCONFIG ≠ 0)
    (h : handleExtradata env s = .ok r s1) :
    (r = ERR_OK → Counted n s1) ∧ (r ≠ ERR_OK → Counted n (signalError s1)) := by
  obtain ⟨c1, c2, c3, c4, c5⟩ := hc
  have hc : Counted n s := ⟨c1, c2, c3, c4, c5⟩
  unfold handleExtradata at h
  cases hq : s.inQueue with
  | nil => simp [hq] at h
  | cons e rest =>
    cases e with
    | none => simp [hq] at h
    | some inInfo =>
      simp only [hq, c2, Bool.false_eq_true, if_false] at h
      by_cases hr : s.mExtradataReady = true
      · simp only [hr, Bool.true_eq_false, if_false] at h
        injection h with h1 h2
        subst h2
        have hk := counted_of_keeps hc (releaseInput_keeps inInfo rest s hr)
        exact ⟨fun _ => hk, fun hne => absurd h1.symm hne⟩
      · have hr2 : s.mExtradataReady = false := by simpa using hr
        simp only [hr2, if_true] at h
        cases hctx : s.mCtx with
        | none => simp [hctx] at h
        | some ctx =>
          cases hh : inInfo.mHeader with
          | none => simp [hctx, hh] at h
          | some inHeader =>
            simp only [hctx, hh] at h
            have hfl := hflag inInfo rest inHeader hq hh
            obtain ⟨a1, a2, a3, a4, a5, a6⟩ := appendExtradata_shape env ctx inHeader s
            have hnone : (s.log.drop n).any isFindDecoder = false := by
              cases hx : (s.log.drop n).any isFindDecoder with
              | false => rfl
              | true => exact absurd (c4.2 hx) hr
            cases ha : appendExtradata env ctx inHeader s with
            | fault f s2 => simp [ha] at h
            | timeout s2 => simp [ha] at h
            | ok v s2 =>
              rw [ha] at a1 a2 a3 a4 a5 a6
              simp only [Res.state_ok] at a1 a2 a3 a4 a5 a6
              simp only [ha, Res.bind_ok] at h
              cases v with
              | none =>
                injection h with h1 h2
                subst h2
                refine ⟨fun h0 => absurd (h1.trans h0) (by decide), fun _ => ?_⟩
                refine ⟨?_, by simp [signalError, State.emit, a2, c2], ?_, ?_, ?_⟩
                · simp [signalError, State.emit, a1]; omega
                · intro ho
                  have : s.mCodecAlreadyOpened = true := by
                    simpa [signalError, State.emit, a4] using ho
                  exact absurd (c3 this) hr
                · simp [signalError, State.emit, a1, a3, hr2,
                    List.drop_append_of_le_length c1, hnone, isFindDecoder]
                · intro he
                  simp [signalError, State.emit] at he
              | some u =>
                injection h with h1 h2
                subst h2
                refine ⟨fun _ => ?_, fun hne => absurd h1.symm hne⟩
                refine ⟨?_, by simp [releaseInput, State.emit, a2, c2], ?_, ?_, ?_⟩
                · simp [releaseInput, State.emit, a1]; omega
                · intro ho
                  have : s.mCodecAlreadyOpened = true := by
                    simpa [releaseInput, State.emit, a4] using ho
                  exact absurd (c3 this) hr
                · simp [releaseInput, State.emit, a1, a3, hr2,
                    List.drop_append_of_le_length c1, hnone, isFindDecoder]
                · intro he
                  have he0 : s.mSignalledError = false := by
                    simpa [releaseInput, State.emit, a5] using he
                  obtain ⟨ctx0, hc0, hs0⟩ := c5 he0
                  rw [hctx] at hc0
                  injection hc0 with hc0
                  subst hc0
                  cases hm : s2.mCtx with
                  | none => simp [hm] at a6
                  | some ctx2 =>
                    simp only [hm, Option.map_some', Option.some.injEq] at a6
                    refine ⟨ctx2, by simp [releaseInput, State.emit, hm], ?_⟩
                    rw [a6, hs0, toI32_add_left]
                    congr 1
                    simp [releaseInput, State.emit, a1, List.drop_append_of_le_length c1,
                      configBytes_append, hnone, configBytes, isFindDecoder, configLen, hh, hfl]

theorem openFound_counted (env : Env) (ctx : AVCodecContext) (n : Nat) (s : State)
    (hc : Counted n s) (hctx : s.mCtx = some ctx) (hr : s.mExtradataReady = true) :
    Counted n (openFound env ctx s).state := by
  unfold openFound
  simp only []
  split_ifs <;>
    (apply counted_step n s _ hc <;>
      simp [State.emit, isFindDecoder, configLen, hctx, hr, setDefaultCtx])

theorem openDecoder_counted (env : Env) (n : Nat) (s s1 : State) (r : Int)
    (hc : Counted n s) (h : openDecoder env s = .ok r s1) :
    Counted n s1 ∧ (s.mCodecAlreadyOpened = false → s1.mExtradataReady = true) := by
  unfold openDecoder at h
  by_cases ho : s.mCodecAlreadyOpened = true
  · rw [if_pos ho] at h
    injection h with _ h2
    subst h2
    exact ⟨hc, fun h => by simp [ho] at h⟩
  · rw [if_neg ho] at h
    cases hctx : s.mCtx with
    | none => simp [hctx] at h
    | some ctx =>
      simp only [hctx] at h
      obtain ⟨c1, c2, c3, c4, c5⟩ := hc
      have hmid : ∀ S : State, S.log = s.log ++ [.call (.avcodec_find_decoder ctx.codec_id)] →
          S.mExtradataReady = true → S.mIgnoreExtradata = s.mIgnoreExtradata →
          S.mSignalledError = s.mSignalledError →
          S.mCtx.map (·.extradata_size) = some ctx.extradata_size → Counted n S := by
        intro S h1 h2 h3 h4 h5
        refine ⟨by rw [h1, List.length_append]; omega, h3.trans c2, fun _ => h2, ?_, ?_⟩
        · simp [h1, h2, List.drop_append_of_le_length c1, isFindDecoder]
        · intro he
          obtain ⟨ctx0, hc0, hs0⟩ := c5 (h4 ▸ he)
          rw [hctx] at hc0
          injection hc0 with hc0
          subst hc0
          cases hm : S.mCtx with
          | none => simp [hm] at h5
          | some ctx1 =>
            simp only [hm, Option.map_some', Option.some.injEq] at h5
            refine ⟨ctx1, rfl, ?_⟩
            rw [h5, hs0, h1, List.drop_append_of_le_length c1, configBytes_append]
            by_cases hx : (s.log.drop n).any isFindDecoder = true
            · simp [hx]
            · simp [hx, configBytes, isFindDecoder]
      split_ifs at h with hcodec
      · injection h with _ h2
        subst h2
        exact ⟨hmid _ (by simp [State.emit]) (by simp [State.emit]) (by simp [State.emit])
          (by simp [State.emit]) (by simp [State.emit]), fun _ => by simp [State.emit]⟩
      · have e : (openFound env _ _).state = s1 := congrArg Res.state h
        rw [← e]
        constructor
        · apply openFound_counted
          · exact hmid _ (by simp [State.emit]) (by simp [State.emit]) (by simp [State.emit])
              (by simp [State.emit]) (by simp [State.emit])
          · simp [State.emit]
          · simp [State.emit]
        · intro _
          unfold openFound
          simp only []
          split_ifs <;> simp [State.emit]

theorem mainItem_counted (env : Env) (n : Nat) (inHeader : Header) (s s1 : State) (b : Bool)
    (hc : Counted n s)
    (hhead : ∃ inInfo rest, s.inQueue = some inInfo :: rest ∧ inInfo.mHeader = some inHeader)
    (h : mainItem env inHeader s = .ok b s1) : Counted n s1 := by
  unfold mainItem at h
  by_cases he : inHeader.nFlags &&& OMX_BUFFERFLAG_EOS ≠ 0
  · rw [if_pos he] at h
    injection h with _ h2
    subst h2
    exact counted_of_keeps hc (keeps_of_drop _ _ rfl rfl rfl id rfl (by simp) (by simp))
  · rw [if_neg he] at h
    by_cases hcf : inHeader.nFlags &&& OMX_BUFFERFLAG_CODECCONFIG ≠ 0
    · rw [if_pos hcf] at h
      cases hx : handleExtradata env s with
      | fault f s2 => simp [hx] at h
      | timeout s2 => simp [hx] at h
      | ok r s2 =>
        simp only [hx, Res.bind_ok] at h
        have hflag : ∀ inInfo rest hd, s.inQueue = some inInfo :: rest →
            inInfo.mHeader = some hd → hd.nFlags &&& OMX_BUFFERFLAG_CODECCONFIG ≠ 0 := by
          intro inInfo rest hd hq hh
          obtain ⟨i2, r2, hq2, hh2⟩ := hhead
          rw [hq] at hq2
          injection hq2 with e1 _
          injection e1 with e1
          subst e1
          rw [hh] at hh2
          injection hh2 with e2
          subst e2
          exact hcf
        obtain ⟨k1, k2⟩ := handleExtradata_counted env n s s2 r hc hflag hx
        by_cases hr : r = ERR_OK
        · rw [if_neg (by simpa using hr)] at h
          injection h with _ h2
          subst h2
          exact k1 hr
        · rw [if_pos hr] at h
          injection h with _ h2
          subst h2
          exact k2 hr
    · rw [if_neg hcf] at h
      by_cases ho : s.mCodecAlreadyOpened = false
      · rw [if_pos ho] at h
        cases hx : openDecoder env s with
        | fault f s2 => simp [hx] at h
        | timeout s2 => simp [hx] at h
        | ok r s2 =>
          simp only [hx, Res.bind_ok] at h
          obtain ⟨k1, k2⟩ := openDecoder_counted env n s s2 r hc hx
          by_cases hr : r = ERR_OK
          · rw [if_neg (by simpa using hr)] at h
            have hk := decodeAndDrain_keeps env s2 (k2 ho)
            rw [h] at hk
            exact counted_of_keeps k1 hk
          · rw [if_pos hr] at h
            injection h with _ h2
            subst h2
            exact counted_of_keeps k1 (signalError_keeps s2)
      · rw [if_neg ho] at h
        have hk := decodeAndDrain_keeps env s (hc.2.2.1 (by simpa using ho))
        rw [h] at hk
        exact counted_of_keeps hc hk

theorem mainBody_counted (env : Env) (n fuel : Nat) (s s1 : State) (b : Bool)
    (hc : Counted n s) (h : mainBody env fuel s = .ok b s1) : Counted n s1 := by
  unfold mainBody at h
  by_cases hst : s.mEOSStatus = .INPUT_EOS_SEEN
  · rw [if_pos hst] at h
    have hk := drainAllOutputBuffers_keeps env fuel s hc.2.2.1
    cases hx : drainAllOutputBuffers env fuel s with
    | fault f s2 => simp [hx] at h
    | timeout s2 => simp [hx] at h
    | ok r s2 =>
      rw [hx] at hk
      simp only [hx, Res.bind_ok] at h
      injection h with _ h2
      subst h2
      exact counted_of_keeps hc hk
  · rw [if_neg hst] at h
    cases hq : s.inQueue with
    | nil => simp [hq] at h
    | cons e rest =>
      cases e with
      | none =>
        simp only [hq] at h
        injection h with _ h2
        subst h2
        exact hc
      | some inInfo =>
        cases hh : inInfo.mHeader with
        | none =>
          simp only [hq, hh] at h
          injection h with _ h2
          subst h2
          exact hc
        | some inHeader =>
          simp only [hq, hh] at h
          exact mainItem_counted env n inHeader s s1 b hc ⟨inInfo, rest, hq, hh⟩ h

theorem mainLoop_counted (env : Env) (n : Nat) :
    ∀ (fuel : Nat) (s s1 : State), Counted n s → mainLoop env fuel s = .ok () s1 →
      Counted n s1 := by
  intro fuel
  induction fuel with
  | zero =>
    intro s s1 hc h
    unfold mainLoop at h
    split_ifs at h
    injection h with _ h2
    subst h2
    exact hc
  | succ k ih =>
    intro s s1 hc h
    unfold mainLoop at h
    split_ifs at h
    · cases hx : mainBody env k s with
      | fault f s2 => simp [hx] at h
      | timeout s2 => simp [hx] at h
      | ok b s2 =>
        have hb := mainBody_counted env n k s s2 b hc hx
        cases b with
        | true =>
          simp only [hx] at h
          exact ih s2 s1 hb h
        | false =>
          simp only [hx] at h
          injection h with _ h2
          subst h2
          exact hb
    · injection h with _ h2
      subst h2
      exact hc

theorem onQueueFilled_counted (env : Env) (n fuel : Nat) (s s1 : State) (hc : Counted n s)
    (h : onQueueFilled env fuel s = .ok () s1) : Counted n s1 := by
  unfold onQueueFilled at h
  split_ifs at h
  · injection h with _ h2
    subst h2
    exact hc
  · injection h with _ h2
    subst h2
    exact hc
  · exact mainLoop_counted env n fuel s s1 hc h

theorem hostEvent_counted (env : Env) (n : Nat) (ev : HostEvent) (s s1 : State)
    (hc : Counted n s) (h : hostEvent env ev s = .ok () s1) : Counted n s1 := by
  cases ev with
  | step st =>
    cases st with
    | queueInput info =>
      simp only [hostEvent, hostStep] at h
      injection h with _ h2
      subst h2
      exact counted_of_keeps hc (keeps_of_drop _ _ rfl rfl rfl id rfl (by simp) (by simp))
    | queueOutput info =>
      simp only [hostEvent, hostStep] at h
      injection h with _ h2
      subst h2
      exact counted_of_keeps hc (keeps_of_drop _ _ rfl rfl rfl id rfl (by simp) (by simp))
    | drive fuel =>
      simp only [hostEvent, hostStep] at h
      exact onQueueFilled_counted env n fuel s s1 hc h
  | flush p =>
    simp only [hostEvent] at h
    injection h with _ h2
    subst h2
    exact counted_of_keeps hc (onPortFlushCompleted_keeps p s)

theorem hostEvents_counted (env : Env) (n : Nat) :
    ∀ (evs : List HostEvent) (s s1 : State), Counted n s →
      hostEvents env evs s = .ok () s1 → Counted n s1 := by
  intro evs
  induction evs with
  | nil =>
    intro s s1 hc h
    simp only [hostEvents] at h
    injection h with _ h2
    subst h2
    exact hc
  | cons ev rest ih =>
    intro s s1 hc h
    simp only [hostEvents] at h
    cases hx : hostEvent env ev s with
    | fault f s2 => simp [hx] at h
    | timeout s2 => simp [hx] at h
    | ok u s2 =>
      simp only [hx, Res.bind_ok] at h
      exact ih s2 s1 (hostEvent_counted env n ev s s2 hc hx) h

theorem deInitCtx_clears (s : State) (ctx : AVCodecContext) :
    (deInitCtx s ctx).mIgnoreExtradata = s.mIgnoreExtradata
    ∧ (deInitCtx s ctx).mCodecAlreadyOpened = false
    ∧ (deInitCtx s ctx).mCtx = none := by
  unfold deInitCtx
  simp only []
  refine ⟨?_, ?_, ?_⟩
  · split_ifs <;> simp [State.emit]
  · split_ifs <;> simp_all [State.emit]
  · trivial

theorem deInitDecoder_clears (s : State) (ctx : AVCodecContext) (hc : s.mCtx = some ctx) :
    (deInitDecoder s).mIgnoreExtradata = s.mIgnoreExtradata
    ∧ (deInitDecoder s).mCodecAlreadyOpened = false
    ∧ (deInitDecoder s).mCtx = none := by
  obtain ⟨d1, d2, d3⟩ := deInitCtx_clears s ctx
  unfold deInitDecoder
  simp only [hc]
  refine ⟨?_, ?_, ?_⟩
  · split_ifs <;> simp [State.emit, d1]
  · split_ifs <;> simp [State.emit, d2]
  · split_ifs <;> simp [State.emit, d3]

theorem initDecoder_fresh (env : Env) (codecID : Nat) (t : State)
    (h1 : t.mIgnoreExtradata = false) (h2 : t.mCodecAlreadyOpened = false)
    (h3 : t.mCtx = none) (h4 : (initDecoder env codecID t).2.mCtx.isSome) :
    (initDecoder env codecID t).2.mIgnoreExtradata = false
    ∧ (initDecoder env codecID t).2.mCodecAlreadyOpened = false
    ∧ ∃ ctx, (initDecoder env codecID t).2.mCtx = some ctx ∧ ctx.extradata_size = 0 := by
  unfold initDecoder at h4 ⊢
  simp only [] at h4 ⊢
  split_ifs at h4 ⊢
  · simp [State.emit, h3] at h4
  · simp at h4
  · exact ⟨by simp [State.emit, h1], by simp [State.emit, h2], _, rfl, rfl⟩

/-- The state `onReset` leaves, when the new decoder context could be
allocated, is fresh. -/
theorem onReset_fresh (env : Env) (s s1 : State) (hig : s.mIgnoreExtradata = false)
    (h : onReset env s = .ok () s1) (hctx : s1.mCtx.isSome) : Fresh s1 := by
  unfold onReset at h
  cases hc : s.mCtx with
  | none => simp [hc] at h
  | some ctx =>
    simp only [hc] at h
    injection h with _ h2
    subst h2
    obtain ⟨d1, d2, d3⟩ := deInitDecoder_clears s ctx hc
    obtain ⟨e1, e2, c, e3, e4⟩ := initDecoder_fresh env ctx.codec_id (deInitDecoder s)
      (d1.trans hig) d2 d3 (by simpa [baseOnReset] using hctx)
    exact ⟨by simpa [baseOnReset] using e1, rfl, by simpa [baseOnReset] using e2, rfl, c,
      by simpa [baseOnReset] using e3, e4⟩

theorem construct_fresh (env : Env) (codecID : Nat) (s : State)
    (h : construct env codecID = .ok () s) : Fresh s := by
  have hs : s = (construct env codecID).state := by rw [h]; rfl
  have hok : (initDecoder env codecID initialMembers).1 = true := by
    unfold construct at h
    simp only [] at h
    split_ifs at h with h1
    exact h1
  unfold initDecoder at hok
  simp only [] at hok
  by_cases a : env.initFFmpeg initialMembers.log.length = false
  · simp [a] at hok
  · by_cases b : env.avcodec_alloc_context3
        (initialMembers.emit (.call .initFFmpeg)).log.length = false
    · rw [if_neg a, if_pos b] at hok
      exact absurd hok (by simp)
    · rw [hs]
      unfold construct initDecoder
      simp only []
      rw [if_neg a, if_neg b]
      exact ⟨rfl, rfl, rfl, rfl, _, rfl, rfl⟩

/-- Counterexample to C13 as stated: a configuration fragment of four bytes
that arrives after an encoded item is handled by `handleExtradata` once the
decoder is open; it is handed back, no error is signalled, and
`extradata_size` is still zero. -/
theorem late_config_not_counted_counterexample :
    Fresh sampleInit
    ∧ mainBody sampleEnvAgain 0 sampleLateStart = .ok true sampleLateMid
    ∧ headInfo sampleLateMid = some sampleFrag4
    ∧ sampleFrag4.mHeader.map (·.nFilledLen) = some 4
    ∧ (∃ s2, handleExtradata sampleEnvAgain sampleLateMid = .ok ERR_OK s2
        ∧ emptied s2.log = emptied sampleLateMid.log ++ [disown sampleFrag4]
        ∧ s2.mCtx.map (·.extradata_size) = some 0)
    ∧ ∃ s1, hostEvents sampleEnvAgain sampleLate sampleInit = .ok () s1
        ∧ s1.mSignalledError = false
        ∧ emptied s1.log = [disown (sampleItem 3 0 [9, 9]), disown sampleFrag4]
        ∧ s1.mCtx.map (·.extradata_size) = some 0 :=
  ⟨construct_fresh sampleEnv 27 sampleInit (by decide), by decide, by decide, by decide,
   ⟨(handleExtradata sampleEnvAgain sampleLateMid).state, by decide, by decide, by decide⟩,
   ⟨(hostEvents sampleEnvAgain sampleLate sampleInit).state, by decide, by decide, by decide,
    by decide⟩⟩

/-- C13, amended. In every state the component reaches from a fresh one (as
the constructor or `onReset` leaves it) by any sequence of input and output
items queued, `onQueueFilled` calls and `onPortFlushCompleted` calls, under
any allocation outcomes, and in which no error has been signalled,
`mCtx->extradata_size` is the 32-bit value of the sum of `nFilledLen` over the
configuration-data input items handed back before the decoder was first looked
up, that is, over those `handleExtradata` handled while `mExtradataReady` was
unset.  Below 2^31 it is that sum.  Configuration items handled later are not
counted. -/
theorem extradata_size_counts_early_config (env : Env) (evs : List HostEvent)
    (s0 s1 : State) (hfresh : Fresh s0) (hrun : hostEvents env evs s0 = .ok () s1)
    (herr : s1.mSignalledError = false) :
    ∃ ctx, s1.mCtx = some ctx
      ∧ ctx.extradata_size = toI32 (configBytes (s1.log.drop s0.log.length))
      ∧ (configBytes (s1.log.drop s0.log.length) < 2 ^ 31 →
          ctx.extradata_size = configBytes (s1.log.drop s0.log.length)) := by
  have hc := hostEvents_counted env s0.log.length evs s0 s1 (counted_fresh s0 hfresh) hrun
  obtain ⟨ctx, h1, h2⟩ := hc.2.2.2.2 herr
  exact ⟨ctx, h1, h2, fun hlt => by rw [h2, toI32_of_lt _ hlt]⟩

set_option maxRecDepth 65536

/-- Witness of C13: two configuration fragments of 12 and 4 bytes arrive
before the first encoded item, a third one of 4 bytes after it. -/
theorem extradata_size_counts_early_config_witness :
    Fresh sampleInit
    ∧ ∃ s1 ctx, hostEvents sampleEnvAgain sampleEarly sampleInit = .ok () s1
      ∧ s1.mSignalledError = false
      ∧ emptied s1.log = [disown sampleFrag12, disown sampleFrag4,
          disown (sampleItem 3 0 [9, 9]), disown sampleFrag4]
      ∧ configBytes (s1.log.drop sampleInit.log.length) = 16
      ∧ s1.mCtx = some ctx ∧ ctx.extradata_size = 16 := by
  have hf : Fresh sampleInit := construct_fresh sampleEnv 27 sampleInit (by decide)
  have hrun : hostEvents sampleEnvAgain sampleEarly sampleInit
      = .ok () (hostEvents sampleEnvAgain sampleEarly sampleInit).state := by decide
  have hcb : configBytes ((hostEvents sampleEnvAgain sampleEarly sampleInit).state.log.drop
      sampleInit.log.length) = 16 := by decide
  obtain ⟨ctx, h1, _, h3⟩ := extradata_size_counts_early_config sampleEnvAgain sampleEarly
    sampleInit _ hf hrun (by decide)
  refine ⟨hf, _, ctx, hrun, by decide, by decide, hcb, h1, ?_⟩
  rw [h3 (by rw [hcb]; decide), hcb]
  rfl

/-! ## Order and existence of the end-of-stream item (C3) -/

theorem hostEvents_append (env : Env) (a b : List HostEvent) :
    ∀ s, hostEvents env (a ++ b) s
      = (hostEvents env a s).bind fun _ s1 => hostEvents env b s1 := by
  induction a with
  | nil => intro s; rfl
  | cons ev a ih =>
    intro s
    simp only [List.cons_append, hostEvents]
    cases hostEvent env ev s <;> simp [ih]

end SoftFFmpegVideo
